import Mathlib

/-!
# vcluster sync controller: request-tag codec and reconcile dispatch

A shallow embedding of `pkg/controllers/syncer/syncer.go`.

* Go strings are Lean strings; `strings.HasPrefix` and `strings.TrimPrefix`
  are defined on the character lists.
* `reconcile.Request` / `types.NamespacedName` is the record `Request`.
* The clusters, the syncer plugin and the event recorder are external
  collaborators.  They are parameters of the controller; the cluster state is
  an arbitrary type `σ` that is threaded through every call that may write.
* Every call the engine makes to a collaborator is appended to a trace, so
  that statements such as "Sync is not called" are statements about the trace.
-/

namespace Vcluster

/-! ## Go strings -/

/-- Go `strings.HasPrefix(s, p)`. -/
def strings.HasPrefix (s p : String) : Bool :=
  p.data.isPrefixOf s.data

/-- Go `strings.TrimPrefix(s, p)`: `s` without the leading `p` when `s`
starts with `p`, otherwise `s` itself. -/
def strings.TrimPrefix (s p : String) : String :=
  if strings.HasPrefix s p then String.mk (s.data.drop p.data.length) else s

/-! ## Requests and the tag codec (syncer.go, lines 29-32 and 494-536) -/

/-- The record `reconcile.Request`, which embeds `types.NamespacedName`. -/
structure Request where
  Namespace : String
  Name : String
deriving DecidableEq, Repr

/-- The type `types.NamespacedName`; the model flattens the embedding. -/
abbrev NamespacedName := Request

/-- Go `NamespacedName.String()`: namespace, a slash, name. -/
def Request.String (r : Request) : String :=
  r.Namespace ++ "/" ++ r.Name

def hostObjectRequestPrefix : String := "host#"

def deleteObjectRequestPrefix : String := "delete#"

def toDeleteRequest (name : Request) : Request :=
  { Namespace := deleteObjectRequestPrefix ++ name.Namespace
    Name := name.Name }

def toHostRequest (name : Request) : Request :=
  { Namespace := hostObjectRequestPrefix ++ name.Namespace
    Name := name.Name }

def isHostRequest (name : Request) : Bool :=
  strings.HasPrefix name.Namespace hostObjectRequestPrefix

def fromDeleteRequest (req : Request) : Request × Bool :=
  if !strings.HasPrefix req.Namespace deleteObjectRequestPrefix then
    (req, false)
  else
    ({ Namespace := strings.TrimPrefix req.Namespace deleteObjectRequestPrefix
       Name := req.Name }, true)

def fromHostRequest (req : Request) : Request :=
  { Namespace := strings.TrimPrefix req.Namespace hostObjectRequestPrefix
    Name := req.Name }

/-- Encoding of a tuple `(ns, name, host?, delete?)` as the enqueue functions
build it: `toHostRequest` when `host`, then `toDeleteRequest` when `del`. -/
def encodeRequest (ns name : String) (host del : Bool) : Request :=
  let r : Request := { Namespace := ns, Name := name }
  let r := if host then toHostRequest r else r
  if del then toDeleteRequest r else r

/-- The decoding sequence of `Reconcile` and `extractRequest`:
`fromDeleteRequest` first (line 86), then `isHostRequest` (lines 107, 332) and
`fromHostRequest` when it reports a host request (line 333).  The result is
the identity, the host flag and the delete flag. -/
def decodeRequest (r : Request) : Request × Bool × Bool :=
  let d := fromDeleteRequest r
  if isHostRequest d.1 then (fromHostRequest d.1, true, d.2) else (d.1, false, d.2)

/-! ## Objects, errors and results -/

/-- Go `map[string]string` index expression in its comma-ok form `v, ok := m[k]`.
The nil map is `none`; a missing key yields the empty string and `false`. -/
def mapIndexOk (m : Option (List (String × String))) (k : String) : String × Bool :=
  match m with
  | none => ("", false)
  | some l =>
    match l.lookup k with
    | some v => (v, true)
    | none => ("", false)

/-- Go `m[k]`: the value, or the empty string when the key is missing. -/
def mapIndex (m : Option (List (String × String))) (k : String) : String :=
  (mapIndexOk m k).1

/-- The metadata of a `client.Object` that the engine reads through
`GetNamespace`, `GetName`, `GetUID`, `GetLabels`, `GetAnnotations` and
`GetDeletionTimestamp`.  Timestamps are abstract instants. -/
structure Object where
  Namespace : String
  Name : String
  UID : String
  Labels : Option (List (String × String))
  Annotations : Option (List (String × String))
  DeletionTimestamp : Option Nat
deriving DecidableEq, Repr

/-- A Go `error`: its `Error()` text and what `kerrors.IsNotFound` says of it. -/
structure GoError where
  Message : String
  IsNotFound : Bool
deriving DecidableEq, Repr

/-- Go `fmt.Errorf(pre + ": %w", err)`: the text is prepended and the wrapped
error stays visible to `kerrors.IsNotFound`. -/
def GoError.wrap (pre : String) (err : GoError) : GoError :=
  { Message := pre ++ err.Message, IsNotFound := err.IsNotFound }

/-- Go `fmt.Sprintf(format)` without operands.  A format that has no `%` is
returned as it is; how a format with `%` is rendered is the library's business
and is the parameter `verbs`. -/
def Sprintf (verbs : String → String) (format : String) : String :=
  if '%' ∈ format.data then verbs format else format

/-- Go `fmt.Errorf(format)` without operands. -/
def Errorf (verbs : String → String) (format : String) : GoError :=
  { Message := Sprintf verbs format, IsNotFound := false }

/-- The record `ctrl.Result`; `RequeueAfter` is a `time.Duration` in nanoseconds. -/
structure Result where
  Requeue : Bool
  RequeueAfter : Int
deriving DecidableEq, Repr

/-- The zero value `ctrl.Result{}`. -/
def Result.empty : Result := { Requeue := false, RequeueAfter := 0 }

/-- Go `time.Second` in nanoseconds. -/
def time.Second : Int := 1000000000

inductive EventSource where
  | EventSourceVirtual
  | EventSourceHost
deriving DecidableEq, Repr

/-- The package constants of `pkg/util/translate` that the engine reads. -/
structure Translate where
  UIDAnnotation : String
  ControllerLabel : String
  SkipBackSyncInMultiNamespaceMode : String
deriving DecidableEq, Repr

/-- The record `syncertypes.Options`. -/
structure Options where
  DisableUIDDeletion : Bool
deriving DecidableEq, Repr

/-! ## Collaborators -/

/-- A cluster client over the cluster state `σ`.  `Get` is a read; `Delete`
returns its error and the new state. -/
structure Client (σ : Type) where
  Get : σ → NamespacedName → Except GoError Object
  Delete : σ → Object → Option GoError × σ

/-- The fields of `synccontext.SyncContext` that carry meaning for the engine:
the two clients, the provenance and the delete flag. -/
structure SyncContext (σ : Type) where
  PhysicalClient : Client σ
  VirtualClient : Client σ
  EventSource : EventSource
  IsDelete : Bool

/-- The optional interface `syncertypes.Starter`. -/
structure Starter (σ : Type) where
  ReconcileStart : SyncContext σ → Request → σ → (Bool × Option GoError) × σ
  ReconcileEnd : σ → σ

/-- The optional interface `syncertypes.ObjectExcluder`. -/
structure ObjectExcluder where
  ExcludeVirtual : Object → Bool
  ExcludePhysical : Object → Bool

/-- The interface `syncertypes.Syncer` with its optional capabilities; an
optional capability that the plugin does not implement is `none` (the Go type
assertion fails).  The mapping functions and `IsManaged` may read the cluster
state, the transition hooks may change it. -/
structure Syncer (σ : Type) where
  Name : String
  IsManaged : σ → Object → Bool × Option GoError
  VirtualToHost : σ → NamespacedName → Option Object → NamespacedName
  HostToVirtual : σ → NamespacedName → Option Object → NamespacedName
  SyncToHost : SyncContext σ → Object → σ → (Result × Option GoError) × σ
  Sync : SyncContext σ → Object → Object → σ → (Result × Option GoError) × σ
  starter : Option (Starter σ)
  objectExcluder : Option ObjectExcluder
  toVirtualSyncer : Option (SyncContext σ → Object → σ → (Result × Option GoError) × σ)

/-- A call made by the engine, as it is recorded in the trace.  A syncer hook
is recorded with the provenance and the delete flag of its sync context. -/
inductive Call where
  | Lock (key : String)
  | Unlock (key : String)
  | VirtualGet (req : NamespacedName)
  | PhysicalGet (req : NamespacedName)
  | IsManaged (pObj : Object) (managed : Bool) (err : Option GoError)
  | Eventf (obj : Object) (eventtype reason messageFmt : String)
  | ReconcileStart (source : EventSource) (isDelete : Bool) (req : Request)
  | ReconcileEnd
  | Sync (source : EventSource) (isDelete : Bool) (pObj vObj : Object)
  | SyncToHost (source : EventSource) (isDelete : Bool) (vObj : Object)
  | SyncToVirtual (source : EventSource) (isDelete : Bool) (pObj : Object)
  | Infof (message : String)
  | Delete (isVirtual : Bool) (obj : Object)
deriving DecidableEq, Repr

/-- A transition hook or a delete issued by the engine. -/
def Call.isDispatch : Call → Bool
  | .Sync _ _ _ _ => true
  | .SyncToHost _ _ _ => true
  | .SyncToVirtual _ _ _ => true
  | .Delete _ _ => true
  | _ => false

/-- The world a reconcile runs in: the state of the two clusters, the keys
held in the controller's locker and the trace of calls made so far. -/
structure World (σ : Type) where
  state : σ
  locked : List String
  trace : List Call
deriving DecidableEq, Repr

/-- Record a call that does not change the cluster state. -/
def World.emit {σ : Type} (w : World σ) (c : Call) : World σ :=
  { w with trace := w.trace ++ [c] }

/-- Record a call and run it on the cluster state. -/
def World.invoke {σ α : Type} (w : World σ) (c : Call) (f : σ → α × σ) : α × World σ :=
  ((f w.state).1, { w with state := (f w.state).2, trace := w.trace ++ [c] })

/-- `locker.Lock(key)`: a key that is held blocks the caller (`none`);
otherwise the key becomes held. -/
def World.Lock {σ : Type} (w : World σ) (key : String) : Option (World σ) :=
  if key ∈ w.locked then none
  else some { w with locked := key :: w.locked, trace := w.trace ++ [Call.Lock key] }

/-- `locker.Unlock(key)`: the key is released. -/
def World.Unlock {σ : Type} (w : World σ) (key : String) : World σ :=
  { w with locked := w.locked.erase key, trace := w.trace ++ [Call.Unlock key] }

/-- The dispatch calls (transition hooks and deletes) of a trace, in order. -/
def dispatchCalls (t : List Call) : List Call :=
  t.filter Call.isDispatch

/-! ## The sync controller (syncer.go, lines 67-348 and 451-492) -/

/-- The fields of `SyncController` the reconcile reads, the constants of the
`translate` package and the library rendering of `%` directives. -/
structure SyncController (σ : Type) where
  syncer : Syncer σ
  physicalClient : Client σ
  virtualClient : Client σ
  options : Options
  translate : Translate
  verbs : String → String

/-- The message built by `fmt.Sprintf` in `excludePhysical` (line 291). -/
def conflictMessage (vObj pObj : Object) : String :=
  "conflict: cannot sync virtual object " ++ vObj.Namespace ++ "/" ++ vObj.Name
    ++ " as unmanaged physical object " ++ pObj.Namespace ++ "/" ++ pObj.Name
    ++ " exists with desired name"

def SyncController.excludePhysical {σ : Type} (r : SyncController σ) (pObj : Object)
    (vObj : Option Object) (w : World σ) : (Bool × Option GoError) × World σ :=
  let managed := r.syncer.IsManaged w.state pObj
  let w := w.emit (Call.IsManaged pObj managed.1 managed.2)
  match managed.2 with
  | some err => ((false, some (GoError.wrap "failed to check if physical object is managed: " err)), w)
  | none =>
    if !managed.1 then
      match r.syncer.objectExcluder, vObj with
      | none, some vObj =>
        let msg := conflictMessage vObj pObj
        ((false, some (Errorf r.verbs msg)), w.emit (Call.Eventf vObj "Warning" "SyncError" msg))
      | _, _ => ((true, none), w)
    else
      match r.syncer.objectExcluder with
      | some excluder => ((excluder.ExcludePhysical pObj, none), w)
      | none =>
        if pObj.Labels.isSome && mapIndex pObj.Labels r.translate.ControllerLabel != "" then
          ((true, none), w)
        else if pObj.Annotations.isSome
            && mapIndex pObj.Annotations r.translate.ControllerLabel != ""
            && mapIndex pObj.Annotations r.translate.ControllerLabel != r.syncer.Name then
          ((true, none), w)
        else
          ((false, none), w)

def SyncController.excludeVirtual {σ : Type} (r : SyncController σ) (vObj : Object) : Bool :=
  match r.syncer.objectExcluder with
  | some excluder => excluder.ExcludeVirtual vObj
  | none =>
    if vObj.Labels.isSome && mapIndex vObj.Labels r.translate.ControllerLabel != "" then
      true
    else if vObj.Annotations.isSome
        && mapIndex vObj.Annotations r.translate.ControllerLabel != ""
        && mapIndex vObj.Annotations r.translate.ControllerLabel != r.syncer.Name then
      true
    else
      false

/-- The result is `(exclude, vObj, err)` as in the source. -/
def SyncController.getVirtualObject {σ : Type} (r : SyncController σ) (req : NamespacedName)
    (w : World σ) : (Bool × Option Object × Option GoError) × World σ :=
  if req.Name = "" then ((true, none, none), w)
  else
    let w := w.emit (Call.VirtualGet req)
    match r.virtualClient.Get w.state req with
    | .error err =>
      if !err.IsNotFound then ((false, none, some (GoError.wrap "get virtual object: " err)), w)
      else ((false, none, none), w)
    | .ok vObj =>
      if r.excludeVirtual vObj then ((true, none, none), w)
      else ((false, some vObj, none), w)

/-- The result is `(exclude, pObj, err)` as in the source. -/
def SyncController.getPhysicalObject {σ : Type} (r : SyncController σ) (req : NamespacedName)
    (vObj : Option Object) (w : World σ) : (Bool × Option Object × Option GoError) × World σ :=
  if req.Name = "" then ((true, none, none), w)
  else
    let w := w.emit (Call.PhysicalGet req)
    match r.physicalClient.Get w.state req with
    | .error err =>
      if !err.IsNotFound then ((false, none, some (GoError.wrap "get physical object: " err)), w)
      else ((false, none, none), w)
    | .ok pObj =>
      match r.excludePhysical pObj vObj w with
      | ((_, some err), w) => ((false, none, some err), w)
      | ((excluded, none), w) =>
        if excluded then ((true, none, none), w)
        else ((false, some pObj, none), w)

/-- The result is `(vObj, pObj, err)` as in the source. -/
def SyncController.getObjectsFromPhysical {σ : Type} (r : SyncController σ) (req : Request)
    (w : World σ) : (Option Object × Option Object × Option GoError) × World σ :=
  match r.getPhysicalObject req none w with
  | ((_, _, some err), w) => ((none, none, some err), w)
  | ((exclude, pObj, none), w) =>
    if exclude then ((none, none, none), w)
    else
      match r.getVirtualObject (r.syncer.HostToVirtual w.state req pObj) w with
      | ((_, _, some err), w) => ((none, none, some err), w)
      | ((exclude, vObj, none), w) =>
        if exclude then ((none, none, none), w)
        else ((vObj, pObj, none), w)

def SyncController.getObjectsFromVirtual {σ : Type} (r : SyncController σ) (req : Request)
    (w : World σ) : (Option Object × Option Object × Option GoError) × World σ :=
  match r.getVirtualObject req w with
  | ((_, _, some err), w) => ((none, none, some err), w)
  | ((exclude, vObj, none), w) =>
    if exclude then ((none, none, none), w)
    else
      match r.getPhysicalObject (r.syncer.VirtualToHost w.state req vObj) vObj w with
      | ((_, _, some err), w) => ((none, none, some err), w)
      | ((exclude, pObj, none), w) =>
        if exclude then ((none, none, none), w)
        else ((vObj, pObj, none), w)

def SyncController.getObjects {σ : Type} (r : SyncController σ) (vReq pReq : Request)
    (w : World σ) : (Option Object × Option Object × Option GoError) × World σ :=
  if pReq.Name ≠ "" then r.getObjectsFromPhysical pReq w
  else r.getObjectsFromVirtual vReq w

/-- The result is `(vReq, pReq, err)` as in the source. -/
def SyncController.extractRequest {σ : Type} (r : SyncController σ) (req : Request)
    (w : World σ) : (Request × Request × Option GoError) × World σ :=
  if isHostRequest req then
    let pReq := fromHostRequest req
    match r.getPhysicalObject pReq none w with
    | ((_, _, some err), w) => ((⟨"", ""⟩, ⟨"", ""⟩, some err), w)
    | ((exclude, pObj, none), w) =>
      if exclude then ((⟨"", ""⟩, ⟨"", ""⟩, none), w)
      else ((r.syncer.HostToVirtual w.state pReq pObj, pReq, none), w)
  else
    ((req, ⟨"", ""⟩, none), w)

/-- The function `deleteObject`.  `meta.Accessor` succeeds on every
`client.Object`; the log lines are recorded as `Infof` calls. -/
def deleteObject {σ : Type} (ctx : SyncContext σ) (obj : Object) (reason : String)
    (isVirtual : Bool) (w : World σ) : (Result × Option GoError) × World σ :=
  let side := if isVirtual then "virtual" else "host"
  let deleteClient := if isVirtual then ctx.VirtualClient else ctx.PhysicalClient
  let w :=
    if obj.Namespace ≠ "" then
      w.emit (Call.Infof ("delete " ++ side ++ " " ++ obj.Namespace ++ "/" ++ obj.Name
        ++ ", because " ++ reason))
    else
      w.emit (Call.Infof ("delete " ++ side ++ " " ++ obj.Name ++ ", because " ++ reason))
  match w.invoke (Call.Delete isVirtual obj) (fun s => deleteClient.Delete s obj) with
  | (some err, w) =>
    if err.IsNotFound then ((Result.empty, none), w)
    else if obj.Namespace ≠ "" then
      ((Result.empty, some err),
        w.emit (Call.Infof ("error deleting " ++ side ++ " object " ++ obj.Namespace ++ "/"
          ++ obj.Name ++ " in " ++ side ++ " cluster: " ++ err.Message)))
    else
      ((Result.empty, some err),
        w.emit (Call.Infof ("error deleting " ++ side ++ " object " ++ obj.Name ++ " in "
          ++ side ++ " cluster: " ++ err.Message)))
  | (none, w) => ((Result.empty, none), w)

def DeleteHostObject {σ : Type} (ctx : SyncContext σ) (obj : Object) (reason : String)
    (w : World σ) : (Result × Option GoError) × World σ :=
  deleteObject ctx obj reason false w

def DeleteVirtualObject {σ : Type} (ctx : SyncContext σ) (obj : Object) (reason : String)
    (w : World σ) : (Result × Option GoError) × World σ :=
  deleteObject ctx obj reason true w

/-- The sync context `Reconcile` builds (lines 105-122) for a request whose
`delete#` tag has been stripped. -/
def SyncController.syncContext {σ : Type} (r : SyncController σ) (origReq : Request)
    (isDelete : Bool) : SyncContext σ :=
  { PhysicalClient := r.physicalClient
    VirtualClient := r.virtualClient
    EventSource :=
      if isHostRequest origReq then EventSource.EventSourceHost
      else EventSource.EventSourceVirtual
    IsDelete := isDelete }

/-- The pre-hook of `Reconcile` (lines 125-127): `ReconcileStart` when the
syncer is a `Starter`; a syncer that is not one neither skips nor fails. -/
def SyncController.reconcileStart {σ : Type} (r : SyncController σ) (ctx : SyncContext σ)
    (vReq : Request) (w : World σ) : (Bool × Option GoError) × World σ :=
  match r.syncer.starter with
  | some lifecycle =>
    w.invoke (Call.ReconcileStart ctx.EventSource ctx.IsDelete vReq)
      (lifecycle.ReconcileStart ctx vReq)
  | none => ((false, none), w)

/-- The deferred `lifecycle.ReconcileEnd()` of `Reconcile` (line 128). -/
def SyncController.reconcileEnd {σ : Type} (r : SyncController σ) (w : World σ) : World σ :=
  match r.syncer.starter with
  | some lifecycle => (w.invoke Call.ReconcileEnd (fun s => ((), lifecycle.ReconcileEnd s))).2
  | none => w

/-- The classification and dispatch of `Reconcile` (lines 140-174) on the
objects that `getObjects` returned. -/
def SyncController.dispatch {σ : Type} (r : SyncController σ) (ctx : SyncContext σ)
    (vObj pObj : Option Object) (w : World σ) : (Result × Option GoError) × World σ :=
  match vObj, pObj with
  | some vObj, some pObj =>
    let pAnnotations := pObj.Annotations
    if !r.options.DisableUIDDeletion && pAnnotations.isSome
        && mapIndex pAnnotations r.translate.UIDAnnotation != ""
        && mapIndex pAnnotations r.translate.UIDAnnotation != vObj.UID then
      if pObj.DeletionTimestamp.isSome then
        (({ Requeue := false, RequeueAfter := time.Second }, none), w)
      else
        DeleteHostObject ctx pObj "virtual object uid is different" w
    else
      w.invoke (Call.Sync ctx.EventSource ctx.IsDelete pObj vObj) (r.syncer.Sync ctx pObj vObj)
  | some vObj, none =>
    w.invoke (Call.SyncToHost ctx.EventSource ctx.IsDelete vObj) (r.syncer.SyncToHost ctx vObj)
  | none, some pObj =>
    if pObj.Annotations.isSome
        && (mapIndexOk pObj.Annotations r.translate.SkipBackSyncInMultiNamespaceMode).2
        && (mapIndexOk pObj.Annotations r.translate.SkipBackSyncInMultiNamespaceMode).1 == "true"
    then
      ((Result.empty, none), w)
    else
      match r.syncer.toVirtualSyncer with
      | some SyncToVirtual =>
        w.invoke (Call.SyncToVirtual ctx.EventSource ctx.IsDelete pObj) (SyncToVirtual ctx pObj)
      | none => DeleteHostObject ctx pObj "virtual object was deleted" w
  | none, none => ((Result.empty, none), w)

/-- The method `SyncController.Reconcile`.  The result is `none` when the run
blocks in `locker.Lock`; otherwise it is the returned `(ctrl.Result, error)`.
The deferred calls run in reverse order of their registration: `ReconcileEnd`
first, then `Unlock`. -/
def SyncController.Reconcile {σ : Type} (r : SyncController σ) (origReq : Request)
    (w : World σ) : Option (Result × Option GoError) × World σ :=
  let isDelete := (fromDeleteRequest origReq).2
  let origReq := (fromDeleteRequest origReq).1
  match r.extractRequest origReq w with
  | ((_, _, some err), w) => (some (Result.empty, some err), w)
  | ((vReq, pReq, none), w) =>
    if vReq.Name = "" then (some (Result.empty, none), w)
    else
      match w.Lock vReq.String with
      | none => (none, w)
      | some w =>
        let syncContext := r.syncContext origReq isDelete
        match r.reconcileStart syncContext vReq w with
        | ((skip, err), w) =>
          if skip || err.isSome then
            (some (Result.empty, err), (r.reconcileEnd w).Unlock vReq.String)
          else
            match r.getObjects vReq pReq w with
            | ((_, _, some err), w) =>
              (some (Result.empty, some err), (r.reconcileEnd w).Unlock vReq.String)
            | ((vObj, pObj, none), w) =>
              match r.dispatch syncContext vObj pObj w with
              | (ret, w) => (some ret, (r.reconcileEnd w).Unlock vReq.String)

/-- The run of `Reconcile` on `origReq` from the world `w` reaches the
classification: the request decodes without error to the non-empty virtual
identity `vReq`, the lock on `vReq` is acquired, the pre-hook neither skips nor
fails, and `getObjects` returns `(vObj, pObj)` without error in the world `w3`. -/
def SyncController.Fetches {σ : Type} (r : SyncController σ) (origReq : Request) (w : World σ)
    (vReq : Request) (vObj pObj : Option Object) (w3 : World σ) : Prop :=
  ∃ (pReq : Request) (w1 wl w2 : World σ),
    r.extractRequest (fromDeleteRequest origReq).1 w = ((vReq, pReq, none), w1)
    ∧ vReq.Name ≠ ""
    ∧ w1.Lock vReq.String = some wl
    ∧ r.reconcileStart
        (r.syncContext (fromDeleteRequest origReq).1 (fromDeleteRequest origReq).2) vReq wl
        = ((false, none), w2)
    ∧ r.getObjects vReq pReq w2 = ((vObj, pObj, none), w3)

/-- The world `w'` differs from `w` by calls that are no dispatch calls: the
cluster state and the held keys are the same. -/
def World.SameBut {σ : Type} (w w' : World σ) : Prop :=
  w'.state = w.state ∧ w'.locked = w.locked
    ∧ dispatchCalls w'.trace = dispatchCalls w.trace

/-- The call records that `IsManaged` reported a host object as not managed. -/
def Call.isForeign : Call → Bool
  | .IsManaged _ false _ => true
  | _ => false

/-- Some fetch of the trace met a host object that is not managed. -/
def foreignSeen (t : List Call) : Bool :=
  t.any Call.isForeign

/-- The calls of a trace that record an event. -/
def Call.isEvent : Call → Bool
  | .Eventf _ _ _ _ => true
  | _ => false

/-! ## A concrete controller for the scenarios of syncer_test.go

Two fake clusters that hold lists of objects, and a syncer for secrets in the
manner of `mockSyncer`: the host identity of `ns/name` is
`test/name-x-ns-x-suffix`, a host object is managed when it lives in the
namespace `test` and carries the marker label. -/

structure FakeClusters where
  physical : List Object
  virtual : List Object
deriving DecidableEq, Repr

def fakeFind (objs : List Object) (req : NamespacedName) : Except GoError Object :=
  match objs.find? (fun o => o.Namespace == req.Namespace && o.Name == req.Name) with
  | some o => .ok o
  | none => .error { Message := "not found", IsNotFound := true }

def fakeRemove (objs : List Object) (obj : Object) : List Object :=
  objs.filter (fun o => !(o.Namespace == obj.Namespace && o.Name == obj.Name))

def fakePhysicalClient : Client FakeClusters :=
  { Get := fun s req => fakeFind s.physical req
    Delete := fun s obj =>
      match fakeFind s.physical ⟨obj.Namespace, obj.Name⟩ with
      | .ok _ => (none, { s with physical := fakeRemove s.physical obj })
      | .error err => (some err, s) }

def fakeVirtualClient : Client FakeClusters :=
  { Get := fun s req => fakeFind s.virtual req
    Delete := fun s obj =>
      match fakeFind s.virtual ⟨obj.Namespace, obj.Name⟩ with
      | .ok _ => (none, { s with virtual := fakeRemove s.virtual obj })
      | .error err => (some err, s) }

def fakeTranslate : Translate :=
  { UIDAnnotation := "vcluster.loft.sh/object-uid"
    ControllerLabel := "vcluster.loft.sh/controlled-by"
    SkipBackSyncInMultiNamespaceMode := "vcluster.loft.sh/skip-backsync" }

def fakeHostName (req : NamespacedName) : NamespacedName :=
  { Namespace := "test", Name := req.Name ++ "-x-" ++ req.Namespace ++ "-x-suffix" }

def fakeHostObject (vObj : Object) : Object :=
  { Namespace := "test"
    Name := (fakeHostName ⟨vObj.Namespace, vObj.Name⟩).Name
    UID := ""
    Labels := some [("vcluster.loft.sh/managed-by", "suffix"),
      ("vcluster.loft.sh/namespace", vObj.Namespace)]
    Annotations := some [("vcluster.loft.sh/object-name", vObj.Name),
      ("vcluster.loft.sh/object-namespace", vObj.Namespace),
      ("vcluster.loft.sh/object-uid", vObj.UID)]
    DeletionTimestamp := none }

def mockSyncer : Syncer FakeClusters :=
  { Name := "secrets"
    IsManaged := fun _ pObj =>
      (pObj.Namespace == "test" && mapIndex pObj.Labels "vcluster.loft.sh/managed-by" == "suffix",
        none)
    VirtualToHost := fun _ req _ => fakeHostName req
    HostToVirtual := fun _ _ pObj =>
      match pObj with
      | some pObj =>
        { Namespace := mapIndex pObj.Annotations "vcluster.loft.sh/object-namespace"
          Name := mapIndex pObj.Annotations "vcluster.loft.sh/object-name" }
      | none => ⟨"", ""⟩
    SyncToHost := fun _ vObj s =>
      ((Result.empty, none), { s with physical := s.physical ++ [fakeHostObject vObj] })
    Sync := fun _ _ _ s => ((Result.empty, none), s)
    starter := none
    objectExcluder := none
    toVirtualSyncer := none }

def mockController (disableUIDDeletion : Bool) : SyncController FakeClusters :=
  { syncer := mockSyncer
    physicalClient := fakePhysicalClient
    virtualClient := fakeVirtualClient
    options := { DisableUIDDeletion := disableUIDDeletion }
    translate := fakeTranslate
    verbs := fun format => format }

/-- The virtual secret `default/a` with UID `123` of the test cases. -/
def secretA : Object :=
  { Namespace := "default", Name := "a", UID := "123", Labels := none, Annotations := none,
    DeletionTimestamp := none }

/-- The unmanaged host secret of the test case "should fail to sync down when
object of desired name already exists". -/
def foreignSecret : Object :=
  { Namespace := "test", Name := "a-x-default-x-suffix", UID := "",
    Labels := some [("app", "existing")], Annotations := some [("app", "existing")],
    DeletionTimestamp := none }

/-- A managed host secret whose uid-annotation is `uid`. -/
def managedSecret (uid : String) (deletionTimestamp : Option Nat) : Object :=
  { fakeHostObject { secretA with UID := uid } with DeletionTimestamp := deletionTimestamp }

def fakeWorld (physical virtual : List Object) : World FakeClusters :=
  { state := { physical := physical, virtual := virtual }, locked := [], trace := [] }

/-! ## The enqueue functions (syncer.go, lines 350-425)

The work queue is an external collaborator; it is modelled by the list of the
requests passed to `q.Add`, in the order of the calls.  The `klog` line of
`enqueuePhysical` is not part of the model. -/

def SyncController.enqueueVirtual {σ : Type} (r : SyncController σ) (state : σ)
    (obj : Option Object) (q : List Request) (isDelete : Bool) : List Request :=
  match obj with
  | none => q
  | some obj =>
    if isDelete then
      let name := r.syncer.VirtualToHost state ⟨obj.Namespace, obj.Name⟩ (some obj)
      let q := if name.Name ≠ "" then q ++ [toDeleteRequest (toHostRequest name)] else q
      q ++ [toDeleteRequest ⟨obj.Namespace, obj.Name⟩]
    else
      q ++ [⟨obj.Namespace, obj.Name⟩]

def SyncController.enqueuePhysical {σ : Type} (r : SyncController σ) (state : σ)
    (obj : Option Object) (q : List Request) (isDelete : Bool) : List Request :=
  match obj with
  | none => q
  | some obj =>
    match r.syncer.IsManaged state obj with
    | (_, some _) => q
    | (managed, none) =>
      if !managed then q
      else if isDelete then
        let name := r.syncer.HostToVirtual state ⟨obj.Namespace, obj.Name⟩ (some obj)
        let q := if name.Name ≠ "" then q ++ [toDeleteRequest name] else q
        q ++ [toDeleteRequest (toHostRequest ⟨obj.Namespace, obj.Name⟩)]
      else
        q ++ [toHostRequest ⟨obj.Namespace, obj.Name⟩]

/-! ## Kinds of calls in a trace -/

/-- A read of a cluster or the ownership check of a fetched host object. -/
def Call.isRead : Call → Bool
  | .VirtualGet _ => true
  | .PhysicalGet _ => true
  | .IsManaged _ _ _ => true
  | _ => false

/-- A call of the prologue or the epilogue of `Reconcile`: the lock, the
pre-hook, the deferred post-hook and the unlock. -/
def Call.isControl : Call → Bool
  | .Lock _ => true
  | .Unlock _ => true
  | .ReconcileStart _ _ _ => true
  | .ReconcileEnd => true
  | _ => false

/-- A call of the `Starter` interface. -/
def Call.isLifecycle : Call → Bool
  | .ReconcileStart _ _ _ => true
  | .ReconcileEnd => true
  | _ => false

/-- A call of the locker. -/
def Call.isLock : Call → Bool
  | .Lock _ => true
  | .Unlock _ => true
  | _ => false

/-- A log line of `deleteObject`. -/
def Call.isLog : Call → Bool
  | .Infof _ => true
  | _ => false

/-- The lock, pre-hook, post-hook and unlock calls of a trace, in order. -/
def controlCalls (t : List Call) : List Call :=
  t.filter Call.isControl

/-- The `ReconcileStart` and `ReconcileEnd` calls of a trace, in order. -/
def lifecycleCalls (t : List Call) : List Call :=
  t.filter Call.isLifecycle

/-- The `Lock` and `Unlock` calls of a trace, in order. -/
def lockCalls (t : List Call) : List Call :=
  t.filter Call.isLock

/-- The calls of a trace that are no reads, in order. -/
def effectCalls (t : List Call) : List Call :=
  t.filter (fun c => !c.isRead)

/-! ## More concrete syncers and objects for the scenarios -/

/-- A managed host secret that carries the skip-back-sync annotation `true`. -/
def skipSecret : Object :=
  { Namespace := "test", Name := "a-x-default-x-suffix", UID := "",
    Labels := some [("vcluster.loft.sh/managed-by", "suffix")],
    Annotations := some [("vcluster.loft.sh/object-name", "a"),
      ("vcluster.loft.sh/object-namespace", "default"),
      ("vcluster.loft.sh/skip-backsync", "true")],
    DeletionTimestamp := none }

/-- A virtual secret that carries the controller label of another controller. -/
def labelledSecret : Object :=
  { secretA with Labels := some [("vcluster.loft.sh/controlled-by", "other")] }

/-- The mock controller with a syncer that implements `ObjectExcluder` and
excludes nothing. -/
def excluderController : SyncController FakeClusters :=
  { mockController false with
    syncer :=
      { mockSyncer with
        objectExcluder := some { ExcludeVirtual := fun _ => false
                                 ExcludePhysical := fun _ => false } } }

/-- The mock controller with a syncer that implements `Starter`; its
`ReconcileStart` returns the given `skip` and no error. -/
def starterController (skip : Bool) : SyncController FakeClusters :=
  { mockController false with
    syncer :=
      { mockSyncer with
        starter := some { ReconcileStart := fun _ _ s => ((skip, none), s)
                          ReconcileEnd := fun s => s } } }

/-- The mock controller with a syncer that implements `ToVirtualSyncer`; its
`SyncToVirtual` does nothing. -/
def toVirtualController : SyncController FakeClusters :=
  { mockController false with
    syncer :=
      { mockSyncer with
        toVirtualSyncer := some (fun _ _ s => ((Result.empty, none), s)) } }

/-- The mock controller with a syncer whose hooks write to the clusters: `Sync`
stamps the UID of the virtual object on the host object, and `SyncToVirtual`
creates the virtual object that the annotations of the host object name. -/
def writingController : SyncController FakeClusters :=
  { mockController false with
    syncer :=
      { mockSyncer with
        Sync := fun _ pObj vObj s =>
          ((Result.empty, none),
            { s with
              physical := s.physical.map
                (fun o => if o = pObj then { o with UID := vObj.UID } else o) })
        toVirtualSyncer := some (fun _ pObj s =>
          ((Result.empty, none),
            { s with
              virtual := s.virtual ++
                [{ Namespace := mapIndex pObj.Annotations "vcluster.loft.sh/object-namespace"
                   Name := mapIndex pObj.Annotations "vcluster.loft.sh/object-name"
                   UID := "", Labels := none, Annotations := none,
                   DeletionTimestamp := none }] })) } }

/-- The virtual exclusion rule in the words of the specification (4.4, step 5):
exclude if `ExcludeVirtual` says so, or the object carries the
controller-annotation with a non-empty value other than the name of this
syncer, or carries a non-empty controller-label.  A syncer that does not
implement `ObjectExcluder` says nothing.  It is compared with
`SyncController.excludeVirtual`, the rule of the source. -/
def excludeVirtualSpec {σ : Type} (r : SyncController σ) (vObj : Object) : Bool :=
  (match r.syncer.objectExcluder with
    | some excluder => excluder.ExcludeVirtual vObj
    | none => false)
  || (mapIndex vObj.Annotations r.translate.ControllerLabel != ""
      && mapIndex vObj.Annotations r.translate.ControllerLabel != r.syncer.Name)
  || mapIndex vObj.Labels r.translate.ControllerLabel != ""

/-- The error a delete helper reports for the error of the client's `Delete`,
in the words of the specification (4.5): nothing when the delete succeeds or
fails with NotFound, the error itself otherwise. -/
def swallowNotFound (err : Option GoError) : Option GoError :=
  match err with
  | some e => if e.IsNotFound then none else some e
  | none => none

/-! ## The mirror mapper (pkg/mappings/generic/mirror.go) -/

/-- The parts of `pkg/util/translate` that the mirror mapper reads: the two
annotation keys and `translate.Default.PhysicalNamespace`. -/
structure TranslateDefault where
  NameAnnotation : String
  NamespaceAnnotation : String
  PhysicalNamespace : String → String

def mirrorMapper.VirtualToHost (t : TranslateDefault) (req : NamespacedName)
    (_ : Option Object) : NamespacedName :=
  let pNamespace := req.Namespace
  let pNamespace := if pNamespace ≠ "" then t.PhysicalNamespace pNamespace else pNamespace
  { Namespace := pNamespace, Name := req.Name }

def mirrorMapper.HostToVirtual (t : TranslateDefault) (req : NamespacedName)
    (pObj : Option Object) : NamespacedName :=
  let rest : NamespacedName :=
    if req.Namespace ≠ "" then { Namespace := "", Name := "" }
    else { Namespace := "", Name := req.Name }
  match pObj with
  | some pObj =>
    let pAnnotations := pObj.Annotations
    if pAnnotations.isSome && mapIndex pAnnotations t.NameAnnotation != "" then
      { Namespace := mapIndex pAnnotations t.NamespaceAnnotation
        Name := mapIndex pAnnotations t.NameAnnotation }
    else rest
  | none => rest

def mirrorMapper.IsManaged (_ : Option Object) : Bool × Option GoError :=
  (true, none)

/-- The mirror mapper of the scenarios: every virtual namespace is mapped to
the workload namespace `test`. -/
def fakeTranslateDefault : TranslateDefault :=
  { NameAnnotation := "vcluster.loft.sh/object-name"
    NamespaceAnnotation := "vcluster.loft.sh/object-namespace"
    PhysicalNamespace := fun _ => "test" }

/-! ## Volume snapshot contents
(pkg/mappings/resources/volumesnapshotcontents.go and
pkg/controllers/resources/volumesnapshots/volumesnapshotcontents/translate.go) -/

/-- The record `corev1.ObjectReference`. -/
structure ObjectReference where
  Kind : String
  Namespace : String
  Name : String
  UID : String
  APIVersion : String
  ResourceVersion : String
  FieldPath : String
deriving DecidableEq, Repr

/-- A `volumesnapshotv1.VolumeSnapshot`: the metadata and the fields of spec
and status that the syncers read.  A nil slice of finalizers and an empty one
are the same list, as they are for `equality.Semantic.DeepEqual`; the status is
an abstract value behind a pointer. -/
structure VolumeSnapshot where
  Namespace : String
  Name : String
  UID : String
  ResourceVersion : String
  Labels : Option (List (String × String))
  Annotations : Option (List (String × String))
  DeletionTimestamp : Option Nat
  DeletionGracePeriodSeconds : Option Int
  Finalizers : List String
  VolumeSnapshotClassName : Option String
  Status : Option String
deriving DecidableEq, Repr

/-- A `volumesnapshotv1.VolumeSnapshotContent`: the metadata, the reference
`Spec.VolumeSnapshotRef`, and the rest of spec and status as abstract values.
The entries of `ManagedFields` are abstract. -/
structure VolumeSnapshotContent where
  Name : String
  UID : String
  ResourceVersion : String
  ManagedFields : Option (List String)
  Labels : Option (List (String × String))
  Annotations : Option (List (String × String))
  Finalizers : List String
  VolumeSnapshotRef : ObjectReference
  Spec : String
  Status : Option String
deriving DecidableEq, Repr

/-- A `client.Object` as the host-name function of the mapper sees it: a
volume snapshot content or an object of another type. -/
inductive ClientObject where
  | volumeSnapshotContent (o : VolumeSnapshotContent)
  | other (o : Object)
deriving DecidableEq, Repr

/-- Go `m[k] = v` on a map that is not nil. -/
def mapAssign (m : List (String × String)) (k v : String) : List (String × String) :=
  (k, v) :: m.filter (fun e => e.1 != k)

/-- The generated `DeepCopy`: a fresh object equal to the receiver. -/
def VolumeSnapshotContent.DeepCopy (o : VolumeSnapshotContent) : VolumeSnapshotContent := o

def translateVolumeSnapshotRefBackwards (ref : ObjectReference) (vVS : VolumeSnapshot) :
    ObjectReference :=
  let newRef := ref
  let newRef := { newRef with Namespace := vVS.Namespace }
  let newRef := { newRef with Name := vVS.Name }
  let newRef := { newRef with UID := vVS.UID }
  let newRef := { newRef with ResourceVersion := vVS.ResourceVersion }
  newRef

/-- The method `translateBackwards`.  The result is the pair of `pVSC` as the
call leaves it and the returned virtual object: every assignment of the source
is made to the deep copy, none to `pVSC`.  `key` is
`constants.HostClusterVSCAnnotation`. -/
def volumeSnapshotContentSyncer.translateBackwards (key : String)
    (pVSC : VolumeSnapshotContent) (vVS : Option VolumeSnapshot) :
    VolumeSnapshotContent × VolumeSnapshotContent :=
  let vObj := pVSC.DeepCopy
  let vObj := { vObj with ResourceVersion := "" }
  let vObj := { vObj with UID := "" }
  let vObj := { vObj with ManagedFields := none }
  let vObj :=
    match vVS with
    | some vVS =>
      { vObj with
        VolumeSnapshotRef := translateVolumeSnapshotRefBackwards vObj.VolumeSnapshotRef vVS }
    | none => vObj
  let vObj :=
    match vObj.Annotations with
    | none => { vObj with Annotations := some [] }
    | some _ => vObj
  let vObj :=
    { vObj with Annotations := some (mapAssign (vObj.Annotations.getD []) key pVSC.Name) }
  (pVSC, vObj)

/-- The function literal that `CreateVolumeSnapshotContentsMapper` passes to
`generic.NewMapperWithObject` (lines 29-40): the host name of a virtual volume
snapshot content.  `PhysicalNameClusterScoped` is the method of
`translate.Default`, `key` is `constants.HostClusterVSCAnnotation`. -/
def volumeSnapshotContentsHostName (PhysicalNameClusterScoped : String → String)
    (key : String) (name : String) (_ : String) (vObj : Option ClientObject) : String :=
  match vObj with
  | none => name
  | some (ClientObject.other _) => PhysicalNameClusterScoped name
  | some (ClientObject.volumeSnapshotContent vVSC) =>
    if vVSC.Annotations.isNone || mapIndex vVSC.Annotations key == "" then
      PhysicalNameClusterScoped name
    else
      mapIndex vVSC.Annotations key

/-- A host volume snapshot content of the scenarios. -/
def hostContent : VolumeSnapshotContent :=
  { Name := "snapcontent-1", UID := "u1", ResourceVersion := "7",
    ManagedFields := some ["kubectl"], Labels := none, Annotations := none, Finalizers := [],
    VolumeSnapshotRef :=
      { Kind := "VolumeSnapshot", Namespace := "test", Name := "snap-x-default-x-suffix",
        UID := "u2", APIVersion := "", ResourceVersion := "3", FieldPath := "" },
    Spec := "", Status := none }

/-! ## The volume snapshot syncer
(pkg/controllers/resources/volumesnapshots/volumesnapshots/syncer.go) -/

/-- The fields of `client.DeleteOptions` that the syncer sets; `Preconditions`
is the UID of `metav1.NewUIDPreconditions`. -/
structure DeleteOptions where
  GracePeriodSeconds : Option Int
  Preconditions : Option String
deriving DecidableEq, Repr

/-- A cluster client for volume snapshots over the cluster state `σ`. -/
structure SnapshotClient (σ : Type) where
  Delete : σ → VolumeSnapshot → DeleteOptions → Option GoError × σ
  Update : σ → VolumeSnapshot → Option GoError × σ
  StatusUpdate : σ → VolumeSnapshot → Option GoError × σ

/-- The fields of `synccontext.SyncContext` that the volume snapshot syncer
reads. -/
structure SnapshotSyncContext (σ : Type) where
  PhysicalClient : SnapshotClient σ
  VirtualClient : SnapshotClient σ
  IsDelete : Bool

/-- An operand of a log line. -/
inductive LogArg where
  | str (s : String)
  | int (i : Int)
deriving DecidableEq, Repr

/-- A call made by the volume snapshot syncer, as it is recorded in the trace.
A log line is recorded with its format and its operands. -/
inductive SnapshotCall where
  | Infof (format : String) (args : List LogArg)
  | PrintChanges (oldObj newObj : VolumeSnapshot)
  | VirtualDelete (obj : VolumeSnapshot) (opts : DeleteOptions)
  | PhysicalDelete (obj : VolumeSnapshot) (opts : DeleteOptions)
  | VirtualUpdate (obj : VolumeSnapshot)
  | VirtualStatusUpdate (obj : VolumeSnapshot)
  | SyncToHostCreate (vObj pObj : VolumeSnapshot)
  | Patch (pObj vObj : VolumeSnapshot)
  | Eventf (obj : VolumeSnapshot) (eventtype reason messageFmt : String) (err : GoError)
deriving DecidableEq, Repr

/-- A call that writes to a cluster: a create, update, patch or delete. -/
def SnapshotCall.isWrite : SnapshotCall → Bool
  | .VirtualDelete _ _ => true
  | .PhysicalDelete _ _ => true
  | .VirtualUpdate _ => true
  | .VirtualStatusUpdate _ => true
  | .SyncToHostCreate _ _ => true
  | .Patch _ _ => true
  | _ => false

/-- A write to the virtual cluster that is a delete, an update of the object or
an update of its status. -/
def SnapshotCall.isVirtualWrite : SnapshotCall → Bool
  | .VirtualDelete _ _ => true
  | .VirtualUpdate _ => true
  | .VirtualStatusUpdate _ => true
  | _ => false

/-- The world of the volume snapshot syncer: the cluster state and the trace
of its calls. -/
structure SnapshotWorld (σ : Type) where
  state : σ
  trace : List SnapshotCall
deriving DecidableEq, Repr

def SnapshotWorld.emit {σ : Type} (w : SnapshotWorld σ) (c : SnapshotCall) : SnapshotWorld σ :=
  { w with trace := w.trace ++ [c] }

def SnapshotWorld.invoke {σ α : Type} (w : SnapshotWorld σ) (c : SnapshotCall)
    (f : σ → α × σ) : α × SnapshotWorld σ :=
  ((f w.state).1, { state := (f w.state).2, trace := w.trace ++ [c] })

/-- The write calls of a trace, in order. -/
def snapshotWrites (t : List SnapshotCall) : List SnapshotCall :=
  t.filter SnapshotCall.isWrite

/-- How a call of the syncer ends: it returns a result and an error, or it
fails with the dereference of a nil pointer. -/
inductive SyncOutcome where
  | returned (result : Result) (err : Option GoError)
  | nilDereference
deriving DecidableEq, Repr

/-- The collaborators of `volumeSnapshotSyncer` that are not part of the file:
the translation of a virtual snapshot, the generic `SyncToHostCreate`, the
syncer patcher (its construction, and `Patch` on the objects it was built from
and the objects as the syncer changed them), `TranslateMetadataUpdate` (the
annotations and labels it returns) and `utilerrors.NewAggregate`. -/
structure volumeSnapshotSyncer (σ : Type) where
  translate : VolumeSnapshot → Except GoError VolumeSnapshot
  SyncToHostCreate : VolumeSnapshot → VolumeSnapshot → σ → (Result × Option GoError) × σ
  NewSyncerPatcher : σ → VolumeSnapshot → VolumeSnapshot → Option GoError
  Patch : VolumeSnapshot → VolumeSnapshot → VolumeSnapshot → VolumeSnapshot → σ
    → Option GoError × σ
  TranslateMetadataUpdate : VolumeSnapshot → VolumeSnapshot
    → Option (List (String × String)) × Option (List (String × String))
  NewAggregate : List (Option GoError) → Option GoError

def minimumGracePeriodInSeconds : Int := 30

def zero : Int := 0

def volumeSnapshotSyncer.SyncToHost {σ : Type} (s : volumeSnapshotSyncer σ)
    (ctx : SnapshotSyncContext σ) (vVS : VolumeSnapshot) (w : SnapshotWorld σ) :
    (Result × Option GoError) × SnapshotWorld σ :=
  if ctx.IsDelete || vVS.DeletionTimestamp.isSome then
    if decide (vVS.Finalizers.length > 0)
        || (match vVS.DeletionGracePeriodSeconds with
            | some seconds => decide (seconds > 0)
            | none => false) then
      let vObj := { vVS with Finalizers := [] }
      let vObj := { vObj with DeletionGracePeriodSeconds := some zero }
      match w.invoke (SnapshotCall.VirtualUpdate vObj) (fun st => ctx.VirtualClient.Update st vObj)
        with
      | (err, w) => ((Result.empty, err), w)
    else
      ((Result.empty, none), w)
  else
    match s.translate vVS with
    | .error err => ((Result.empty, some err), w)
    | .ok pObj =>
      w.invoke (SnapshotCall.SyncToHostCreate vVS pObj) (s.SyncToHostCreate vVS pObj)

/-- Lines 64-76 of `Sync`: the delete of the virtual snapshot while the host
snapshot terminates.  The first component is the outcome when `Sync` ends
here, and `none` when it goes on. -/
def volumeSnapshotSyncer.Sync.deleteVirtual {σ : Type} (ctx : SnapshotSyncContext σ)
    (pVS vVS : VolumeSnapshot) (w : SnapshotWorld σ) : Option SyncOutcome × SnapshotWorld σ :=
  if vVS.DeletionTimestamp.isNone then
    let w := w.emit (SnapshotCall.Infof
      "delete virtual volume snapshot %s/%s, because the physical volume snapshot is being deleted"
      [LogArg.str vVS.Namespace, LogArg.str vVS.Name])
    let opts : DeleteOptions :=
      { GracePeriodSeconds := some minimumGracePeriodInSeconds, Preconditions := none }
    match w.invoke (SnapshotCall.VirtualDelete vVS opts)
        (fun st => ctx.VirtualClient.Delete st vVS opts) with
    | (some err, w) => (some (SyncOutcome.returned Result.empty (some err)), w)
    | (none, w) => (none, w)
  else
    match vVS.DeletionGracePeriodSeconds, pVS.DeletionGracePeriodSeconds with
    | some vSeconds, some pSeconds =>
      if vSeconds ≠ pSeconds then
        let w := w.emit (SnapshotCall.Infof
          "delete virtual volume snapshot %s/%s with grace period seconds %v"
          [LogArg.str vVS.Namespace, LogArg.str vVS.Name, LogArg.int pSeconds])
        let opts : DeleteOptions :=
          { GracePeriodSeconds := pVS.DeletionGracePeriodSeconds, Preconditions := some vVS.UID }
        match w.invoke (SnapshotCall.VirtualDelete vVS opts)
            (fun st => ctx.VirtualClient.Delete st vVS opts) with
        | (some err, w) => (some (SyncOutcome.returned Result.empty (some err)), w)
        | (none, w) => (none, w)
      else
        (none, w)
    | _, _ => (some SyncOutcome.nilDereference, w)

/-- Lines 82-94 of `Sync`: the finalizers of the host snapshot are copied to
the virtual one when they differ. -/
def volumeSnapshotSyncer.Sync.syncFinalizers {σ : Type} (ctx : SnapshotSyncContext σ)
    (pVS vVS : VolumeSnapshot) (w : SnapshotWorld σ) : Option SyncOutcome × SnapshotWorld σ :=
  if vVS.Finalizers ≠ pVS.Finalizers then
    let updated := { vVS with Finalizers := pVS.Finalizers }
    let w := w.emit (SnapshotCall.Infof
      "update finalizers of the virtual VolumeSnapshot %s, because finalizers on the physical resource changed"
      [LogArg.str vVS.Name])
    let w := w.emit (SnapshotCall.PrintChanges vVS updated)
    match w.invoke (SnapshotCall.VirtualUpdate updated)
        (fun st => ctx.VirtualClient.Update st updated) with
    | (some err, w) =>
      if err.IsNotFound then (some (SyncOutcome.returned Result.empty none), w)
      else (some (SyncOutcome.returned Result.empty (some err)), w)
    | (none, w) => (none, w)
  else
    (none, w)

/-- Lines 95-104 of `Sync`: the status of the host snapshot is copied to the
virtual one when it differs. -/
def volumeSnapshotSyncer.Sync.syncStatus {σ : Type} (ctx : SnapshotSyncContext σ)
    (pVS vVS : VolumeSnapshot) (w : SnapshotWorld σ) : Option SyncOutcome × SnapshotWorld σ :=
  if vVS.Status ≠ pVS.Status then
    let updated := { vVS with Status := pVS.Status }
    let w := w.emit (SnapshotCall.Infof
      "update virtual VolumeSnapshot %s, because status has changed" [LogArg.str vVS.Name])
    let w := w.emit (SnapshotCall.PrintChanges vVS updated)
    match w.invoke (SnapshotCall.VirtualStatusUpdate updated)
        (fun st => ctx.VirtualClient.StatusUpdate st updated) with
    | (some err, w) =>
      if !err.IsNotFound then (some (SyncOutcome.returned Result.empty (some err)), w)
      else (none, w)
    | (none, w) => (none, w)
  else
    (none, w)

/-- Lines 117-144 of `Sync`: the patch of both objects.  The deferred function
runs `Patch` on the changed objects, aggregates its error with the returned
one (nil) and records an event when there is an error. -/
def volumeSnapshotSyncer.Sync.patchObjects {σ : Type} (s : volumeSnapshotSyncer σ)
    (pVS vVS : VolumeSnapshot) (w : SnapshotWorld σ) : SyncOutcome × SnapshotWorld σ :=
  match s.NewSyncerPatcher w.state pVS vVS with
  | some err => (SyncOutcome.returned Result.empty (some (GoError.wrap "new syncer patcher: " err)), w)
  | none =>
    let vNew := { vVS with Finalizers := pVS.Finalizers }
    let vNew := { vNew with Status := pVS.Status }
    let pNew := { pVS with VolumeSnapshotClassName := vVS.VolumeSnapshotClassName }
    let meta := s.TranslateMetadataUpdate vNew pNew
    let pNew := { pNew with Annotations := meta.1, Labels := meta.2 }
    match w.invoke (SnapshotCall.Patch pNew vNew) (s.Patch pVS vVS pNew vNew) with
    | (some err, w) =>
      match s.NewAggregate [none, some err] with
      | some retErr =>
        (SyncOutcome.returned Result.empty (some retErr),
          w.emit (SnapshotCall.Eventf vNew "Warning" "SyncError" "Error syncing: %v" retErr))
      | none => (SyncOutcome.returned Result.empty none, w)
    | (none, w) => (SyncOutcome.returned Result.empty none, w)

def volumeSnapshotSyncer.Sync {σ : Type} (s : volumeSnapshotSyncer σ)
    (ctx : SnapshotSyncContext σ) (pVS vVS : VolumeSnapshot) (w : SnapshotWorld σ) :
    SyncOutcome × SnapshotWorld σ :=
  if pVS.DeletionTimestamp.isSome then
    match volumeSnapshotSyncer.Sync.deleteVirtual ctx pVS vVS w with
    | (some outcome, w) => (outcome, w)
    | (none, w) =>
      match volumeSnapshotSyncer.Sync.syncFinalizers ctx pVS vVS w with
      | (some outcome, w) => (outcome, w)
      | (none, w) =>
        match volumeSnapshotSyncer.Sync.syncStatus ctx pVS vVS w with
        | (some outcome, w) => (outcome, w)
        | (none, w) => (SyncOutcome.returned Result.empty none, w)
  else if vVS.DeletionTimestamp.isSome then
    if pVS.DeletionTimestamp.isNone then
      let w := w.emit (SnapshotCall.Infof
        "delete physical volume snapshot %s/%s, because virtual volume snapshot is being deleted"
        [LogArg.str pVS.Namespace, LogArg.str pVS.Name])
      let opts : DeleteOptions :=
        { GracePeriodSeconds := vVS.DeletionGracePeriodSeconds, Preconditions := some pVS.UID }
      match w.invoke (SnapshotCall.PhysicalDelete pVS opts)
          (fun st => ctx.PhysicalClient.Delete st pVS opts) with
      | (err, w) => (SyncOutcome.returned Result.empty err, w)
    else
      (SyncOutcome.returned Result.empty none, w)
  else
    volumeSnapshotSyncer.Sync.patchObjects s pVS vVS w

/-! ## Fake clusters and snapshots for the scenarios of the volume snapshot syncer -/

/-- Fake clients that accept every write and leave the state alone. -/
def fakeSnapshotClient : SnapshotClient Unit :=
  { Delete := fun st _ _ => (none, st)
    Update := fun st _ => (none, st)
    StatusUpdate := fun st _ => (none, st) }

def fakeSnapshotContext (isDelete : Bool) : SnapshotSyncContext Unit :=
  { PhysicalClient := fakeSnapshotClient, VirtualClient := fakeSnapshotClient,
    IsDelete := isDelete }

def fakeSnapshotSyncer : volumeSnapshotSyncer Unit :=
  { translate := fun vVS => .ok { vVS with Namespace := "test" }
    SyncToHostCreate := fun _ _ st => ((Result.empty, none), st)
    NewSyncerPatcher := fun _ _ _ => none
    Patch := fun _ _ _ _ st => (none, st)
    TranslateMetadataUpdate := fun _ pVS => (pVS.Annotations, pVS.Labels)
    NewAggregate := fun errs => errs.findSome? id }

/-- A snapshot with the given deletion timestamp, grace period and finalizers. -/
def fakeSnapshot (ns uid : String) (deletionTimestamp : Option Nat)
    (gracePeriod : Option Int) (finalizers : List String) : VolumeSnapshot :=
  { Namespace := ns, Name := "snap", UID := uid, ResourceVersion := "1", Labels := none,
    Annotations := none, DeletionTimestamp := deletionTimestamp,
    DeletionGracePeriodSeconds := gracePeriod, Finalizers := finalizers,
    VolumeSnapshotClassName := none, Status := none }

/-- A call of the part of `Sync` that tracks the progress of a deletion on the
virtual snapshot: a log line, `PrintChanges`, an update of the virtual object
or of its status. -/
def SnapshotCall.isTracking : SnapshotCall → Bool
  | .Infof _ _ => true
  | .PrintChanges _ _ => true
  | .VirtualUpdate _ => true
  | .VirtualStatusUpdate _ => true
  | _ => false

/-! ## The endpoints syncer (pkg/controllers/resources/endpoints/syncer.go) -/

/-- A `corev1.Service`: the selector of its spec. -/
structure Service where
  Selector : Option (List (String × String))
deriving DecidableEq, Repr

/-- What `endpointsSyncer.ReconcileStart` reads from outside the file: the key
`specialservices.DefaultKubernetesSvcKey`, the keys of
`specialservices.Default.SpecialServicesToSync()` (`none` when
`specialservices.Default` is nil), the `Get` of the virtual client into a
`Service`, the mapping `VirtualToHost` of the syncer and the constant
`translate.NameAnnotation`. -/
structure endpointsSyncer (σ : Type) where
  DefaultKubernetesSvcKey : NamespacedName
  Default : Option (List NamespacedName)
  GetService : σ → NamespacedName → Except GoError Service
  VirtualToHost : σ → NamespacedName → Option Object → NamespacedName
  NameAnnotation : String

/-- The method `endpointsSyncer.ReconcileStart`; the result is `(skip, err)`.
The `klog` lines are recorded as `Infof` calls. -/
def endpointsSyncer.ReconcileStart {σ : Type} (s : endpointsSyncer σ) (ctx : SyncContext σ)
    (req : Request) (w : World σ) : (Bool × Option GoError) × World σ :=
  if req = s.DefaultKubernetesSvcKey then ((true, none), w)
  else if (match s.Default with
      | some keys => decide (req ∈ keys)
      | none => false) then ((true, none), w)
  else
    let w := w.emit (Call.VirtualGet ⟨req.Namespace, req.Name⟩)
    match s.GetService w.state ⟨req.Namespace, req.Name⟩ with
    | .error err =>
      if err.IsNotFound then ((true, none), w)
      else ((true, some err), w)
    | .ok svc =>
      if svc.Selector.isSome then
        let w := w.emit (Call.PhysicalGet (s.VirtualToHost w.state req none))
        match ctx.PhysicalClient.Get w.state (s.VirtualToHost w.state req none) with
        | .error err =>
          if !err.IsNotFound then
            ((true, none), w.emit (Call.Infof ("Error retrieving endpoints: " ++ err.Message)))
          else ((true, none), w)
        | .ok endpoints =>
          if endpoints.Annotations.isSome
              && mapIndex endpoints.Annotations s.NameAnnotation != "" then
            let w := w.emit (Call.Infof
              "Refresh endpoints in physical cluster because they shouldn't be managed by vcluster anymore")
            match w.invoke (Call.Delete false endpoints)
                (fun st => ctx.PhysicalClient.Delete st endpoints) with
            | (some err, w) =>
              ((true, some err),
                w.emit (Call.Infof ("Error deleting endpoints " ++ endpoints.Namespace ++ "/"
                  ++ endpoints.Name ++ ": " ++ err.Message)))
            | (none, w) => ((true, none), w)
          else ((true, none), w)
      else
        let w := w.emit (Call.PhysicalGet (s.VirtualToHost w.state req none))
        match ctx.PhysicalClient.Get w.state (s.VirtualToHost w.state req none) with
        | .error _ => ((false, none), w)
        | .ok endpoints =>
          if endpoints.Annotations.isNone
              || mapIndex endpoints.Annotations s.NameAnnotation == "" then
            let w := w.emit (Call.Infof
              "Refresh endpoints in physical cluster because they should be managed by vCluster now")
            match w.invoke (Call.Delete false endpoints)
                (fun st => ctx.PhysicalClient.Delete st endpoints) with
            | (some err, w) =>
              ((true, some err),
                w.emit (Call.Infof ("Error deleting endpoints " ++ endpoints.Namespace ++ "/"
                  ++ endpoints.Name ++ ": " ++ err.Message)))
            | (none, w) => ((false, none), w)
          else ((false, none), w)

/-- The endpoints syncer of scenario S5: every virtual service has the given
selector; host names are those of the mock syncer. -/
def fakeEndpointsSyncer (selector : Option (List (String × String))) :
    endpointsSyncer FakeClusters :=
  { DefaultKubernetesSvcKey := ⟨"default", "kubernetes"⟩
    Default := none
    GetService := fun _ _ => .ok { Selector := selector }
    VirtualToHost := fun _ req _ => fakeHostName req
    NameAnnotation := "vcluster.loft.sh/object-name" }

/-- Host endpoints of the service `default/foo` with the given annotations. -/
def hostEndpoints (annotations : Option (List (String × String))) : Object :=
  { Namespace := "test", Name := "foo-x-default-x-suffix", UID := "", Labels := none,
    Annotations := annotations, DeletionTimestamp := none }

/-! ## Codec lemmas -/

theorem HasPrefix_append (p s : String) : strings.HasPrefix (p ++ s) p = true := by
  simp [strings.HasPrefix, String.data_append]

theorem TrimPrefix_append (p s : String) : strings.TrimPrefix (p ++ s) p = s := by
  simp [strings.TrimPrefix, HasPrefix_append, String.data_append]

theorem HasPrefix_iff (s p : String) :
    strings.HasPrefix s p = true ↔ ∃ t : String, s = p ++ t := by
  constructor
  · intro h
    obtain ⟨t, ht⟩ := List.isPrefixOf_iff_prefix.mp h
    exact ⟨String.mk t, String.ext (by simp [String.data_append, ht])⟩
  · rintro ⟨t, rfl⟩
    exact HasPrefix_append p t

theorem host_not_delete (s : String) :
    strings.HasPrefix (hostObjectRequestPrefix ++ s) deleteObjectRequestPrefix = false := by
  simp [strings.HasPrefix, String.data_append, hostObjectRequestPrefix,
    deleteObjectRequestPrefix, List.isPrefixOf]

theorem delete_not_host (s : String) :
    strings.HasPrefix (deleteObjectRequestPrefix ++ s) hostObjectRequestPrefix = false := by
  simp [strings.HasPrefix, String.data_append, hostObjectRequestPrefix,
    deleteObjectRequestPrefix, List.isPrefixOf]

theorem fromDeleteRequest_toDeleteRequest (r : Request) :
    fromDeleteRequest (toDeleteRequest r) = (r, true) := by
  simp [fromDeleteRequest, toDeleteRequest, HasPrefix_append, TrimPrefix_append]

theorem fromDeleteRequest_toHostRequest (r : Request) :
    fromDeleteRequest (toHostRequest r) = (toHostRequest r, false) := by
  simp [fromDeleteRequest, toHostRequest, host_not_delete]

theorem fromDeleteRequest_of_not_delete (r : Request)
    (h : strings.HasPrefix r.Namespace deleteObjectRequestPrefix = false) :
    fromDeleteRequest r = (r, false) := by
  simp [fromDeleteRequest, h]

theorem isHostRequest_toHostRequest (r : Request) : isHostRequest (toHostRequest r) = true := by
  simp [isHostRequest, toHostRequest, HasPrefix_append]

theorem fromHostRequest_toHostRequest (r : Request) : fromHostRequest (toHostRequest r) = r := by
  simp [fromHostRequest, toHostRequest, TrimPrefix_append]

theorem decodeRequest_delete_host (r : Request) :
    decodeRequest (toDeleteRequest (toHostRequest r)) = (r, true, true) := by
  simp [decodeRequest, fromDeleteRequest_toDeleteRequest, isHostRequest_toHostRequest,
    fromHostRequest_toHostRequest]

theorem decodeRequest_host (r : Request) :
    decodeRequest (toHostRequest r) = (r, true, false) := by
  simp [decodeRequest, fromDeleteRequest_toHostRequest, isHostRequest_toHostRequest,
    fromHostRequest_toHostRequest]

theorem decodeRequest_delete (r : Request) :
    decodeRequest (toDeleteRequest r)
      = if isHostRequest r then (fromHostRequest r, true, true) else (r, false, true) := by
  simp [decodeRequest, fromDeleteRequest_toDeleteRequest]

/-- A string that starts with a sentinel contains the character `#`. -/
theorem hash_mem_of_HasPrefix_host (s : String)
    (h : strings.HasPrefix s hostObjectRequestPrefix = true) : '#' ∈ s.data := by
  obtain ⟨t, rfl⟩ := (HasPrefix_iff s _).mp h
  simp [String.data_append, hostObjectRequestPrefix]

theorem hash_mem_of_HasPrefix_delete (s : String)
    (h : strings.HasPrefix s deleteObjectRequestPrefix = true) : '#' ∈ s.data := by
  obtain ⟨t, rfl⟩ := (HasPrefix_iff s _).mp h
  simp [String.data_append, deleteObjectRequestPrefix]

/-- The round trip of the codec holds exactly when the tuple is host-tagged, or
the namespace does not start with `host#` and, unless the tuple is
delete-tagged, does not start with `delete#` either. -/
theorem decode_encode_iff (ns name : String) (host del : Bool) :
    decodeRequest (encodeRequest ns name host del) = (⟨ns, name⟩, host, del)
      ↔ (host = true ∨ (strings.HasPrefix ns hostObjectRequestPrefix = false
          ∧ (del = true ∨ strings.HasPrefix ns deleteObjectRequestPrefix = false))) := by
  cases host <;> cases del
  · show decodeRequest ⟨ns, name⟩ = _ ↔ _
    by_cases hd : strings.HasPrefix ns deleteObjectRequestPrefix = true
    · simp only [decodeRequest, fromDeleteRequest, hd]
      simp only [Bool.not_true, Bool.false_eq_true, if_false]
      split <;> simp
    · by_cases hh : strings.HasPrefix ns hostObjectRequestPrefix = true
      · simp [decodeRequest, fromDeleteRequest, hd, hh, isHostRequest]
      · simp [decodeRequest, fromDeleteRequest, hd, hh, isHostRequest]
  · rw [show encodeRequest ns name false true = toDeleteRequest ⟨ns, name⟩ from rfl,
      decodeRequest_delete]
    by_cases hh : strings.HasPrefix ns hostObjectRequestPrefix = true
    · simp [hh, isHostRequest]
    · simp [hh, isHostRequest]
  · rw [show encodeRequest ns name true false = toHostRequest ⟨ns, name⟩ from rfl,
      decodeRequest_host]
    simp
  · rw [show encodeRequest ns name true true = toDeleteRequest (toHostRequest ⟨ns, name⟩) from rfl,
      decodeRequest_delete_host]
    simp

/-! ## Frame lemmas: what the fetch phase leaves unchanged -/

theorem mapIndex_none (k : String) : mapIndex none k = "" := rfl

theorem dispatchCalls_append (s t : List Call) :
    dispatchCalls (s ++ t) = dispatchCalls s ++ dispatchCalls t := by
  simp [dispatchCalls]

theorem World.SameBut.refl {σ : Type} (w : World σ) : w.SameBut w :=
  ⟨rfl, rfl, rfl⟩

theorem World.SameBut.trans {σ : Type} {a b c : World σ} (h1 : a.SameBut b)
    (h2 : b.SameBut c) : a.SameBut c :=
  ⟨h2.1.trans h1.1, h2.2.1.trans h1.2.1, h2.2.2.trans h1.2.2⟩

theorem excludePhysical_frame {σ : Type} (r : SyncController σ) (pObj : Object)
    (vObj : Option Object) (w : World σ) :
    w.SameBut (r.excludePhysical pObj vObj w).2 := by
  unfold SyncController.excludePhysical
  simp only [World.SameBut]
  split
  · simp [World.emit, dispatchCalls, Call.isDispatch]
  · split
    · split <;> simp [World.emit, dispatchCalls, Call.isDispatch]
    · split
      · simp [World.emit, dispatchCalls, Call.isDispatch]
      · split
        · simp [World.emit, dispatchCalls, Call.isDispatch]
        · split <;> simp [World.emit, dispatchCalls, Call.isDispatch]

theorem getVirtualObject_frame {σ : Type} (r : SyncController σ) (req : NamespacedName)
    (w : World σ) : w.SameBut (r.getVirtualObject req w).2 := by
  unfold SyncController.getVirtualObject
  simp only [World.SameBut]
  split
  · simp
  · split
    · split <;> simp [World.emit, dispatchCalls, Call.isDispatch]
    · split <;> simp [World.emit, dispatchCalls, Call.isDispatch]

theorem emit_frame {σ : Type} (w : World σ) (c : Call) (h : c.isDispatch = false) :
    w.SameBut (w.emit c) := by
  simp [World.SameBut, World.emit, dispatchCalls, h]

theorem getPhysicalObject_frame {σ : Type} (r : SyncController σ) (req : NamespacedName)
    (vObj : Option Object) (w : World σ) :
    w.SameBut (r.getPhysicalObject req vObj w).2 := by
  have he := emit_frame w (Call.PhysicalGet req) rfl
  unfold SyncController.getPhysicalObject
  split
  · exact World.SameBut.refl w
  · dsimp only
    split
    · split <;> exact he
    · rename_i pObj _
      have hx := excludePhysical_frame r pObj vObj (w.emit (Call.PhysicalGet req))
      split
      · rename_i heq
        rw [heq] at hx
        exact he.trans hx
      · rename_i heq
        rw [heq] at hx
        split <;> exact he.trans hx

theorem getObjectsFromPhysical_frame {σ : Type} (r : SyncController σ) (req : Request)
    (w : World σ) : w.SameBut (r.getObjectsFromPhysical req w).2 := by
  have hp := getPhysicalObject_frame r req none w
  unfold SyncController.getObjectsFromPhysical
  split
  · rename_i heq
    rw [heq] at hp
    exact hp
  · rename_i exclude pObj w1 heq
    rw [heq] at hp
    split
    · exact hp
    · have hv := getVirtualObject_frame r (r.syncer.HostToVirtual w1.state req pObj) w1
      split
      · rename_i heq2
        rw [heq2] at hv
        exact hp.trans hv
      · rename_i heq2
        rw [heq2] at hv
        split <;> exact hp.trans hv

theorem getObjectsFromVirtual_frame {σ : Type} (r : SyncController σ) (req : Request)
    (w : World σ) : w.SameBut (r.getObjectsFromVirtual req w).2 := by
  have hv := getVirtualObject_frame r req w
  unfold SyncController.getObjectsFromVirtual
  split
  · rename_i heq
    rw [heq] at hv
    exact hv
  · rename_i exclude vObj w1 heq
    rw [heq] at hv
    split
    · exact hv
    · have hp := getPhysicalObject_frame r (r.syncer.VirtualToHost w1.state req vObj) vObj w1
      split
      · rename_i heq2
        rw [heq2] at hp
        exact hv.trans hp
      · rename_i heq2
        rw [heq2] at hp
        split <;> exact hv.trans hp

theorem getObjects_frame {σ : Type} (r : SyncController σ) (vReq pReq : Request)
    (w : World σ) : w.SameBut (r.getObjects vReq pReq w).2 := by
  unfold SyncController.getObjects
  split
  · exact getObjectsFromPhysical_frame r pReq w
  · exact getObjectsFromVirtual_frame r vReq w

theorem extractRequest_frame {σ : Type} (r : SyncController σ) (req : Request)
    (w : World σ) : w.SameBut (r.extractRequest req w).2 := by
  unfold SyncController.extractRequest
  split
  · have hp := getPhysicalObject_frame r (fromHostRequest req) none w
    simp only
    split
    · rename_i heq
      rw [heq] at hp
      exact hp
    · rename_i heq
      rw [heq] at hp
      split <;> exact hp
  · exact World.SameBut.refl w

theorem Lock_frame {σ : Type} (w wl : World σ) (key : String) (h : w.Lock key = some wl) :
    key ∉ w.locked ∧ wl.state = w.state ∧ wl.locked = key :: w.locked
      ∧ wl.trace = w.trace ++ [Call.Lock key] := by
  unfold World.Lock at h
  split at h
  · exact absurd h (by simp)
  · rename_i hk
    simp only [Option.some.injEq] at h
    subst h
    exact ⟨hk, rfl, rfl, rfl⟩

theorem reconcileStart_dispatch {σ : Type} (r : SyncController σ) (ctx : SyncContext σ)
    (vReq : Request) (w : World σ) :
    dispatchCalls (r.reconcileStart ctx vReq w).2.trace = dispatchCalls w.trace
      ∧ (r.reconcileStart ctx vReq w).2.locked = w.locked := by
  unfold SyncController.reconcileStart
  split <;> simp [World.invoke, dispatchCalls, Call.isDispatch]

theorem reconcileEnd_dispatch {σ : Type} (r : SyncController σ) (w : World σ) :
    dispatchCalls (r.reconcileEnd w).trace = dispatchCalls w.trace
      ∧ (r.reconcileEnd w).locked = w.locked := by
  unfold SyncController.reconcileEnd
  split <;> simp [World.invoke, dispatchCalls, Call.isDispatch]

theorem Unlock_dispatch {σ : Type} (w : World σ) (key : String) :
    dispatchCalls (w.Unlock key).trace = dispatchCalls w.trace := by
  simp [World.Unlock, dispatchCalls, Call.isDispatch]

/-- When the run reaches the classification, the fetch phase has made no
dispatch call. -/
theorem Fetches_dispatch {σ : Type} (r : SyncController σ) (origReq : Request) (w : World σ)
    (vReq : Request) (vObj pObj : Option Object) (w3 : World σ)
    (h : r.Fetches origReq w vReq vObj pObj w3) :
    dispatchCalls w3.trace = dispatchCalls w.trace := by
  obtain ⟨pReq, w1, wl, w2, hx, _, hlock, hstart, hget⟩ := h
  have h1 := (extractRequest_frame r (fromDeleteRequest origReq).1 w).2.2
  rw [hx] at h1
  have h2 := (Lock_frame w1 wl _ hlock).2.2.2
  have h3 := (reconcileStart_dispatch r
    (r.syncContext (fromDeleteRequest origReq).1 (fromDeleteRequest origReq).2) vReq wl).1
  rw [hstart] at h3
  have h4 := (getObjects_frame r vReq pReq w2).2.2
  rw [hget] at h4
  simp only at h1 h3 h4
  rw [h4, h3, h2, dispatchCalls_append, h1]
  simp [dispatchCalls, Call.isDispatch]

/-- When the run reaches the classification, `Reconcile` is the dispatch on
the fetched objects followed by the deferred `ReconcileEnd` and `Unlock`. -/
theorem Reconcile_of_Fetches {σ : Type} (r : SyncController σ) (origReq : Request)
    (w : World σ) (vReq : Request) (vObj pObj : Option Object) (w3 : World σ)
    (h : r.Fetches origReq w vReq vObj pObj w3) :
    r.Reconcile origReq w
      = (some (r.dispatch (r.syncContext (fromDeleteRequest origReq).1
            (fromDeleteRequest origReq).2) vObj pObj w3).1,
          (r.reconcileEnd (r.dispatch (r.syncContext (fromDeleteRequest origReq).1
            (fromDeleteRequest origReq).2) vObj pObj w3).2).Unlock vReq.String) := by
  obtain ⟨pReq, w1, wl, w2, hx, hname, hlock, hstart, hget⟩ := h
  simp [SyncController.Reconcile, hx, hname, hlock, hstart, hget]

theorem deleteObject_dispatch {σ : Type} (ctx : SyncContext σ) (obj : Object)
    (reason : String) (isVirtual : Bool) (w : World σ) :
    dispatchCalls (deleteObject ctx obj reason isVirtual w).2.trace
      = dispatchCalls w.trace ++ [Call.Delete isVirtual obj] := by
  unfold deleteObject
  dsimp only
  split
  · rename_i err w1 heq
    have ht : w1.trace = (if obj.Namespace ≠ "" then
          w.emit (Call.Infof ("delete " ++ (if isVirtual then "virtual" else "host") ++ " "
            ++ obj.Namespace ++ "/" ++ obj.Name ++ ", because " ++ reason))
        else
          w.emit (Call.Infof ("delete " ++ (if isVirtual then "virtual" else "host") ++ " "
            ++ obj.Name ++ ", because " ++ reason))).trace ++ [Call.Delete isVirtual obj] := by
      have := congrArg (fun x => x.2.trace) heq
      simpa [World.invoke] using this.symm
    split
    · rw [ht]
      split <;> simp [World.emit, dispatchCalls, Call.isDispatch]
    · split
      · simp only [World.emit, ht]
        split <;> simp [World.emit, dispatchCalls, Call.isDispatch]
      · simp only [World.emit, ht]
        split <;> simp [World.emit, dispatchCalls, Call.isDispatch]
  · rename_i w1 heq
    have := congrArg (fun x => x.2.trace) heq
    simp only [World.invoke] at this
    simp only [← this]
    split <;> simp [World.emit, dispatchCalls, Call.isDispatch]

/-- The guard of the UID-mismatch branch of `Reconcile` (line 144) is true
exactly when UID deletion is enabled and the uid-annotation is non-empty and
differs from the virtual UID. -/
theorem uid_guard_iff {σ : Type} (r : SyncController σ) (vObj pObj : Object) :
    (!r.options.DisableUIDDeletion && pObj.Annotations.isSome
        && mapIndex pObj.Annotations r.translate.UIDAnnotation != ""
        && mapIndex pObj.Annotations r.translate.UIDAnnotation != vObj.UID) = true
      ↔ (r.options.DisableUIDDeletion = false
          ∧ mapIndex pObj.Annotations r.translate.UIDAnnotation ≠ ""
          ∧ mapIndex pObj.Annotations r.translate.UIDAnnotation ≠ vObj.UID) := by
  cases hA : pObj.Annotations with
  | none => simp [mapIndex_none]
  | some l => simp [and_assoc]

theorem dispatch_uid_mismatch {σ : Type} (r : SyncController σ) (ctx : SyncContext σ)
    (vObj pObj : Object) (w : World σ)
    (hopt : r.options.DisableUIDDeletion = false)
    (hset : mapIndex pObj.Annotations r.translate.UIDAnnotation ≠ "")
    (hne : mapIndex pObj.Annotations r.translate.UIDAnnotation ≠ vObj.UID) :
    r.dispatch ctx (some vObj) (some pObj) w
      = if pObj.DeletionTimestamp.isSome then
          (({ Requeue := false, RequeueAfter := time.Second }, none), w)
        else DeleteHostObject ctx pObj "virtual object uid is different" w := by
  have hg := (uid_guard_iff r vObj pObj).mpr ⟨hopt, hset, hne⟩
  simp only [SyncController.dispatch, hg, if_true]

theorem dispatch_uid_ok {σ : Type} (r : SyncController σ) (ctx : SyncContext σ)
    (vObj pObj : Object) (w : World σ)
    (h : r.options.DisableUIDDeletion = true
      ∨ mapIndex pObj.Annotations r.translate.UIDAnnotation = ""
      ∨ mapIndex pObj.Annotations r.translate.UIDAnnotation = vObj.UID) :
    r.dispatch ctx (some vObj) (some pObj) w
      = w.invoke (Call.Sync ctx.EventSource ctx.IsDelete pObj vObj)
          (r.syncer.Sync ctx pObj vObj) := by
  have hg : ¬ (!r.options.DisableUIDDeletion && pObj.Annotations.isSome
        && mapIndex pObj.Annotations r.translate.UIDAnnotation != ""
        && mapIndex pObj.Annotations r.translate.UIDAnnotation != vObj.UID) = true := by
    rw [uid_guard_iff]
    rintro ⟨h1, h2, h3⟩
    rcases h with h | h | h
    · rw [h] at h1
      exact absurd h1 (by decide)
    · exact h2 h
    · exact h3 h
  simp only [SyncController.dispatch, hg]
  simp

theorem Reconcile_trace_of_Fetches {σ : Type} (r : SyncController σ) (origReq : Request)
    (w : World σ) (vReq : Request) (vObj pObj : Option Object) (w3 : World σ)
    (h : r.Fetches origReq w vReq vObj pObj w3) :
    dispatchCalls (r.Reconcile origReq w).2.trace
      = dispatchCalls (r.dispatch (r.syncContext (fromDeleteRequest origReq).1
            (fromDeleteRequest origReq).2) vObj pObj w3).2.trace := by
  rw [Reconcile_of_Fetches r origReq w vReq vObj pObj w3 h]
  simp only [Unlock_dispatch, (reconcileEnd_dispatch r _).1]

/-! ## Foreign host objects in the fetch phase -/

theorem foreignSeen_nil : foreignSeen [] = false := rfl

theorem foreignSeen_cons (c : Call) (t : List Call) :
    foreignSeen (c :: t) = (c.isForeign || foreignSeen t) := by
  simp [foreignSeen]

theorem foreignSeen_append (s t : List Call) :
    foreignSeen (s ++ t) = (foreignSeen s || foreignSeen t) := by
  simp [foreignSeen]

theorem excludePhysical_foreign {σ : Type} (r : SyncController σ) (pObj : Object)
    (vObj : Option Object) (w : World σ) (hw : foreignSeen w.trace = false)
    (h : foreignSeen (r.excludePhysical pObj vObj w).2.trace = true) :
    (r.excludePhysical pObj vObj w).1.2.isSome = true
      ∨ (r.excludePhysical pObj vObj w).1.1 = true := by
  rcases hM : r.syncer.IsManaged w.state pObj with ⟨m, e⟩
  cases e with
  | some err => simp [SyncController.excludePhysical, hM]
  | none =>
    cases m with
    | false =>
      simp only [SyncController.excludePhysical, hM, Bool.not_false, ↓reduceIte]
      split <;> simp
    | true =>
      exfalso
      simp only [SyncController.excludePhysical, hM] at h
      revert h
      simp only [Bool.not_true, Bool.false_eq_true, ↓reduceIte]
      split
      · simp [World.emit, foreignSeen_append, foreignSeen_cons, foreignSeen_nil, hw,
          Call.isForeign]
      · split
        · simp [World.emit, foreignSeen_append, foreignSeen_cons, foreignSeen_nil, hw,
            Call.isForeign]
        · split <;> simp [World.emit, foreignSeen_append, foreignSeen_cons, foreignSeen_nil, hw,
            Call.isForeign]

theorem getPhysicalObject_foreign {σ : Type} (r : SyncController σ) (req : NamespacedName)
    (vObj : Option Object) (w : World σ) (hw : foreignSeen w.trace = false)
    (h : foreignSeen (r.getPhysicalObject req vObj w).2.trace = true) :
    (r.getPhysicalObject req vObj w).1.2.1 = none
      ∧ ((r.getPhysicalObject req vObj w).1.2.2.isSome = true
        ∨ (r.getPhysicalObject req vObj w).1.1 = true) := by
  have hw2 : foreignSeen (w.emit (Call.PhysicalGet req)).trace = false := by
    simp [World.emit, foreignSeen_append, foreignSeen_cons, foreignSeen_nil, hw, Call.isForeign]
  unfold SyncController.getPhysicalObject at h ⊢
  split
  · simp
  · rename_i hn
    simp only [hn, if_false] at h
    dsimp only at h ⊢
    split
    · rename_i err herr
      rw [herr] at h
      simp only at h
      exfalso
      revert h
      split <;> simp [hw2]
    · rename_i pObj hok
      rw [hok] at h
      simp only at h
      have hx := excludePhysical_foreign r pObj vObj _ hw2
      split
      · simp
      · rename_i excluded w1 heq
        rw [heq] at h hx
        simp only at h hx
        split
        · simp
        · rename_i hex
          exfalso
          simp only [hex, if_false, Bool.false_eq_true] at h
          have := hx h
          simp [hex] at this

theorem getVirtualObject_foreign {σ : Type} (r : SyncController σ) (req : NamespacedName)
    (w : World σ) :
    foreignSeen (r.getVirtualObject req w).2.trace = foreignSeen w.trace := by
  unfold SyncController.getVirtualObject
  split
  · rfl
  · dsimp only
    split
    · split <;> simp [World.emit, foreignSeen_append, foreignSeen_cons, foreignSeen_nil,
        Call.isForeign]
    · split <;> simp [World.emit, foreignSeen_append, foreignSeen_cons, foreignSeen_nil,
        Call.isForeign]

theorem getObjectsFromPhysical_foreign {σ : Type} (r : SyncController σ) (req : Request)
    (w : World σ) (hw : foreignSeen w.trace = false)
    (h : foreignSeen (r.getObjectsFromPhysical req w).2.trace = true) :
    (r.getObjectsFromPhysical req w).1.2.2.isSome = true
      ∨ ((r.getObjectsFromPhysical req w).1.1 = none
        ∧ (r.getObjectsFromPhysical req w).1.2.1 = none) := by
  have hp := getPhysicalObject_foreign r req none w hw
  unfold SyncController.getObjectsFromPhysical at h ⊢
  split
  · simp
  · rename_i exclude pObj w1 heq
    rw [heq] at h hp
    simp only at h hp
    split
    · simp
    · rename_i hex
      simp only [hex, if_false, Bool.false_eq_true] at h
      have hv := getVirtualObject_foreign r (r.syncer.HostToVirtual w1.state req pObj) w1
      split
      · simp
      · rename_i exclude2 vObj w2 heq2
        rw [heq2] at h hv
        simp only at h hv
        split
        · simp
        · rename_i hex2
          exfalso
          simp only [hex2, if_false, Bool.false_eq_true] at h
          rw [hv] at h
          have := (hp h).2
          simp [hex] at this

theorem getObjectsFromVirtual_foreign {σ : Type} (r : SyncController σ) (req : Request)
    (w : World σ) (hw : foreignSeen w.trace = false)
    (h : foreignSeen (r.getObjectsFromVirtual req w).2.trace = true) :
    (r.getObjectsFromVirtual req w).1.2.2.isSome = true
      ∨ ((r.getObjectsFromVirtual req w).1.1 = none
        ∧ (r.getObjectsFromVirtual req w).1.2.1 = none) := by
  have hv := getVirtualObject_foreign r req w
  unfold SyncController.getObjectsFromVirtual at h ⊢
  split
  · simp
  · rename_i exclude vObj w1 heq
    rw [heq] at h hv
    simp only at h hv
    split
    · simp
    · rename_i hex
      simp only [hex, if_false, Bool.false_eq_true] at h
      have hp := getPhysicalObject_foreign r (r.syncer.VirtualToHost w1.state req vObj) vObj w1
        (hv.trans hw)
      split
      · simp
      · rename_i exclude2 pObj w2 heq2
        rw [heq2] at h hp
        simp only at h hp
        split
        · simp
        · rename_i hex2
          exfalso
          simp only [hex2, if_false, Bool.false_eq_true] at h
          have := (hp h).2
          simp [hex2] at this

theorem getObjects_foreign {σ : Type} (r : SyncController σ) (vReq pReq : Request)
    (w : World σ) (hw : foreignSeen w.trace = false)
    (h : foreignSeen (r.getObjects vReq pReq w).2.trace = true) :
    (r.getObjects vReq pReq w).1.2.2.isSome = true
      ∨ ((r.getObjects vReq pReq w).1.1 = none ∧ (r.getObjects vReq pReq w).1.2.1 = none) := by
  unfold SyncController.getObjects at h ⊢
  split
  · rename_i hn
    rw [if_pos hn] at h
    exact getObjectsFromPhysical_foreign r pReq w hw h
  · rename_i hn
    rw [if_neg hn] at h
    exact getObjectsFromVirtual_foreign r vReq w hw h

theorem extractRequest_foreign {σ : Type} (r : SyncController σ) (req : Request)
    (w : World σ) (hw : foreignSeen w.trace = false)
    (h : foreignSeen (r.extractRequest req w).2.trace = true) :
    (r.extractRequest req w).1.2.2.isSome = true ∨ (r.extractRequest req w).1.1.Name = "" := by
  unfold SyncController.extractRequest at h ⊢
  split
  · rename_i hh
    simp only [hh, if_true] at h
    have hp := getPhysicalObject_foreign r (fromHostRequest req) none w hw
    dsimp only at h ⊢
    split
    · simp
    · rename_i exclude pObj w1 heq
      rw [heq] at h hp
      simp only at h hp
      split
      · simp
      · rename_i hex
        exfalso
        simp only [hex, if_false, Bool.false_eq_true] at h
        have := (hp h).2
        simp [hex] at this
  · rename_i hh
    simp only [hh, if_false, Bool.false_eq_true] at h
    rw [hw] at h
    exact absurd h (by decide)

theorem deleteObject_foreign {σ : Type} (ctx : SyncContext σ) (obj : Object)
    (reason : String) (isVirtual : Bool) (w : World σ) :
    foreignSeen (deleteObject ctx obj reason isVirtual w).2.trace = foreignSeen w.trace := by
  unfold deleteObject
  dsimp only
  split
  · rename_i err w1 heq
    have ht := congrArg (fun x => x.2.trace) heq
    simp only [World.invoke] at ht
    split
    · simp only [← ht]
      split <;> simp [World.emit, foreignSeen_append, foreignSeen_cons, foreignSeen_nil,
        Call.isForeign]
    · split
      · simp only [World.emit, ← ht]
        split <;> simp [World.emit, foreignSeen_append, foreignSeen_cons, foreignSeen_nil,
          Call.isForeign]
      · simp only [World.emit, ← ht]
        split <;> simp [World.emit, foreignSeen_append, foreignSeen_cons, foreignSeen_nil,
          Call.isForeign]
  · rename_i w1 heq
    have ht := congrArg (fun x => x.2.trace) heq
    simp only [World.invoke] at ht
    simp only [← ht]
    split <;> simp [World.emit, foreignSeen_append, foreignSeen_cons, foreignSeen_nil,
      Call.isForeign]

theorem dispatch_foreign {σ : Type} (r : SyncController σ) (ctx : SyncContext σ)
    (vObj pObj : Option Object) (w : World σ) :
    foreignSeen (r.dispatch ctx vObj pObj w).2.trace = foreignSeen w.trace := by
  unfold SyncController.dispatch
  split
  · dsimp only
    split
    · split
      · rfl
      · exact deleteObject_foreign _ _ _ _ _
    · simp [World.invoke, foreignSeen_append, foreignSeen_cons, foreignSeen_nil, Call.isForeign]
  · simp [World.invoke, foreignSeen_append, foreignSeen_cons, foreignSeen_nil, Call.isForeign]
  · split
    · rfl
    · split
      · simp [World.invoke, foreignSeen_append, foreignSeen_cons, foreignSeen_nil,
          Call.isForeign]
      · exact deleteObject_foreign _ _ _ _ _
  · rfl

theorem reconcileStart_foreign {σ : Type} (r : SyncController σ) (ctx : SyncContext σ)
    (vReq : Request) (w : World σ) :
    foreignSeen (r.reconcileStart ctx vReq w).2.trace = foreignSeen w.trace := by
  unfold SyncController.reconcileStart
  split <;> simp [World.invoke, foreignSeen_append, foreignSeen_cons, foreignSeen_nil,
    Call.isForeign]

theorem reconcileEnd_foreign {σ : Type} (r : SyncController σ) (w : World σ) :
    foreignSeen (r.reconcileEnd w).trace = foreignSeen w.trace := by
  unfold SyncController.reconcileEnd
  split <;> simp [World.invoke, foreignSeen_append, foreignSeen_cons, foreignSeen_nil,
    Call.isForeign]

/-- A run of `Reconcile` either makes no dispatch call or reaches the
classification. -/
theorem Reconcile_cases {σ : Type} (r : SyncController σ) (origReq : Request) (w : World σ) :
    dispatchCalls (r.Reconcile origReq w).2.trace = dispatchCalls w.trace
      ∨ ∃ (vReq : Request) (vObj pObj : Option Object) (w3 : World σ),
          r.Fetches origReq w vReq vObj pObj w3 := by
  have hx := extractRequest_frame r (fromDeleteRequest origReq).1 w
  unfold SyncController.Reconcile
  dsimp only
  split
  · rename_i heq
    rw [heq] at hx
    exact Or.inl hx.2.2
  · rename_i vReq pReq w1 heq
    rw [heq] at hx
    split
    · exact Or.inl hx.2.2
    · rename_i hname
      split
      · exact Or.inl hx.2.2
      · rename_i wl hlock
        have hl := (Lock_frame w1 wl _ hlock).2.2.2
        have hwl : dispatchCalls wl.trace = dispatchCalls w.trace := by
          rw [hl, dispatchCalls_append, hx.2.2]
          simp [dispatchCalls, Call.isDispatch]
        have hs := (reconcileStart_dispatch r (r.syncContext (fromDeleteRequest origReq).1
          (fromDeleteRequest origReq).2) vReq wl).1
        split
        · left
          simp only [Unlock_dispatch, (reconcileEnd_dispatch r _).1, hs, hwl]
        · rename_i hns
          have hg := (getObjects_frame r vReq pReq (r.reconcileStart
            (r.syncContext (fromDeleteRequest origReq).1 (fromDeleteRequest origReq).2)
            vReq wl).2).2.2
          split
          · rename_i heq3
            rw [heq3] at hg
            left
            simp only [Unlock_dispatch, (reconcileEnd_dispatch r _).1, hg, hs, hwl]
          · rename_i vObj pObj w3 hget
            right
            refine ⟨vReq, vObj, pObj, w3, pReq, w1, wl, _, heq, hname, hlock, ?_, hget⟩
            rcases hst : r.reconcileStart (r.syncContext (fromDeleteRequest origReq).1
              (fromDeleteRequest origReq).2) vReq wl with ⟨⟨skip, err⟩, w2⟩
            rw [hst] at hns
            cases skip <;> cases err <;> simp_all

theorem Fetches_foreign {σ : Type} (r : SyncController σ) (origReq : Request) (w : World σ)
    (vReq : Request) (vObj pObj : Option Object) (w3 : World σ)
    (h : r.Fetches origReq w vReq vObj pObj w3) (hw : foreignSeen w.trace = false)
    (hf : foreignSeen w3.trace = true) : vObj = none ∧ pObj = none := by
  obtain ⟨pReq, w1, wl, w2, hx, hname, hlock, hstart, hget⟩ := h
  have h1 : foreignSeen w1.trace = false := by
    by_contra hc
    have := extractRequest_foreign r (fromDeleteRequest origReq).1 w hw
      (by rw [hx]; simpa using hc)
    rw [hx] at this
    simp [hname] at this
  have h2 : foreignSeen w2.trace = false := by
    have := reconcileStart_foreign r (r.syncContext (fromDeleteRequest origReq).1
      (fromDeleteRequest origReq).2) vReq wl
    rw [hstart] at this
    simp only at this
    rw [this, (Lock_frame w1 wl _ hlock).2.2.2, foreignSeen_append, h1]
    simp [foreignSeen_cons, foreignSeen_nil, Call.isForeign]
  have := getObjects_foreign r vReq pReq w2 h2 (by rw [hget]; exact hf)
  rw [hget] at this
  simpa using this

/-- A run that meets a host object that is not managed makes no dispatch call. -/
theorem Reconcile_foreign {σ : Type} (r : SyncController σ) (origReq : Request) (w : World σ)
    (hw : foreignSeen w.trace = false)
    (h : foreignSeen (r.Reconcile origReq w).2.trace = true) :
    dispatchCalls (r.Reconcile origReq w).2.trace = dispatchCalls w.trace := by
  rcases Reconcile_cases r origReq w with hc | ⟨vReq, vObj, pObj, w3, hF⟩
  · exact hc
  · have hR := Reconcile_of_Fetches r origReq w vReq vObj pObj w3 hF
    have hT := Reconcile_trace_of_Fetches r origReq w vReq vObj pObj w3 hF
    rw [hR] at h
    simp only [World.Unlock, foreignSeen_append, foreignSeen_cons, foreignSeen_nil,
      Call.isForeign, Bool.or_false, reconcileEnd_foreign, dispatch_foreign] at h
    obtain ⟨hv, hp⟩ := Fetches_foreign r origReq w vReq vObj pObj w3 hF hw h
    subst hv
    subst hp
    rw [hT]
    simp only [SyncController.dispatch]
    exact Fetches_dispatch r origReq w vReq _ _ w3 hF

/-! ## The fetch of a virtual-originated request, in terms of the cluster state -/

/-- For a virtual-originated request whose pre-hook lets the run pass: if the
virtual cluster holds `vObj` at the request's identity, `vObj` is not
excluded, and the host cluster answers NotFound at the mapped host identity,
the run reaches the classification with the virtual object alone. -/
theorem Fetches_virtual_only {σ : Type} (r : SyncController σ) (origReq : Request)
    (w wl w2 : World σ) (vObj : Object) (err : GoError)
    (hvirt : isHostRequest (fromDeleteRequest origReq).1 = false)
    (hname : (fromDeleteRequest origReq).1.Name ≠ "")
    (hlock : w.Lock (fromDeleteRequest origReq).1.String = some wl)
    (hstart : r.reconcileStart (r.syncContext (fromDeleteRequest origReq).1
        (fromDeleteRequest origReq).2) (fromDeleteRequest origReq).1 wl = ((false, none), w2))
    (hv : r.virtualClient.Get w2.state (fromDeleteRequest origReq).1 = Except.ok vObj)
    (hvex : r.excludeVirtual vObj = false)
    (hpname : (r.syncer.VirtualToHost w2.state (fromDeleteRequest origReq).1 (some vObj)).Name
        ≠ "")
    (hp : r.physicalClient.Get w2.state
        (r.syncer.VirtualToHost w2.state (fromDeleteRequest origReq).1 (some vObj))
        = Except.error err)
    (hnf : err.IsNotFound = true) :
    r.Fetches origReq w (fromDeleteRequest origReq).1 (some vObj) none
      { w2 with
        trace := w2.trace ++ [Call.VirtualGet (fromDeleteRequest origReq).1,
          Call.PhysicalGet
            (r.syncer.VirtualToHost w2.state (fromDeleteRequest origReq).1 (some vObj))] } := by
  refine ⟨⟨"", ""⟩, w, wl, w2, ?_, hname, hlock, hstart, ?_⟩
  · simp [SyncController.extractRequest, hvirt]
  · simp [SyncController.getObjects, SyncController.getObjectsFromVirtual,
      SyncController.getVirtualObject, World.emit, hname, hv, hvex,
      SyncController.getPhysicalObject, hpname, hp, hnf]

/-- For a virtual-originated request whose pre-hook lets the run pass: if the
virtual cluster holds `vObj` at the request's identity, the host cluster holds
`pObj` at the mapped host identity, `pObj` is managed and neither object is
excluded, the run reaches the classification with both objects. -/
theorem Fetches_both {σ : Type} (r : SyncController σ) (origReq : Request)
    (w wl w2 : World σ) (vObj pObj : Object)
    (hvirt : isHostRequest (fromDeleteRequest origReq).1 = false)
    (hname : (fromDeleteRequest origReq).1.Name ≠ "")
    (hlock : w.Lock (fromDeleteRequest origReq).1.String = some wl)
    (hstart : r.reconcileStart (r.syncContext (fromDeleteRequest origReq).1
        (fromDeleteRequest origReq).2) (fromDeleteRequest origReq).1 wl = ((false, none), w2))
    (hv : r.virtualClient.Get w2.state (fromDeleteRequest origReq).1 = Except.ok vObj)
    (hvex : r.excludeVirtual vObj = false)
    (hpname : (r.syncer.VirtualToHost w2.state (fromDeleteRequest origReq).1 (some vObj)).Name
        ≠ "")
    (hp : r.physicalClient.Get w2.state
        (r.syncer.VirtualToHost w2.state (fromDeleteRequest origReq).1 (some vObj))
        = Except.ok pObj)
    (hman : r.syncer.IsManaged w2.state pObj = (true, none))
    (hpex : (r.excludePhysical pObj (some vObj)
        { w2 with
          trace := w2.trace ++ [Call.VirtualGet (fromDeleteRequest origReq).1,
            Call.PhysicalGet
              (r.syncer.VirtualToHost w2.state (fromDeleteRequest origReq).1
                (some vObj))] }).1.1 = false) :
    r.Fetches origReq w (fromDeleteRequest origReq).1 (some vObj) (some pObj)
      { w2 with
        trace := w2.trace ++ [Call.VirtualGet (fromDeleteRequest origReq).1,
          Call.PhysicalGet
            (r.syncer.VirtualToHost w2.state (fromDeleteRequest origReq).1 (some vObj)),
          Call.IsManaged pObj true none] } := by
  refine ⟨⟨"", ""⟩, w, wl, w2, ?_, hname, hlock, hstart, ?_⟩
  · simp [SyncController.extractRequest, hvirt]
  · have hx : r.excludePhysical pObj (some vObj)
        { w2 with
          trace := w2.trace ++ [Call.VirtualGet (fromDeleteRequest origReq).1,
            Call.PhysicalGet
              (r.syncer.VirtualToHost w2.state (fromDeleteRequest origReq).1 (some vObj))] }
        = ((false, none),
          { w2 with
            trace := w2.trace ++ [Call.VirtualGet (fromDeleteRequest origReq).1,
              Call.PhysicalGet
                (r.syncer.VirtualToHost w2.state (fromDeleteRequest origReq).1 (some vObj)),
              Call.IsManaged pObj true none] }) := by
      revert hpex
      simp only [SyncController.excludePhysical, hman, World.emit]
      simp only [Bool.not_true, Bool.false_eq_true, ↓reduceIte]
      split
      · intro h
        simp_all
      · split
        · simp
        · split <;> simp
    simp [SyncController.getObjects, SyncController.getObjectsFromVirtual,
      SyncController.getVirtualObject, World.emit, hname, hv, hvex,
      SyncController.getPhysicalObject, hpname, hp, hx]

/-! ## Which kinds of calls each phase of `Reconcile` makes

Each lemma says that a filter of the trace is unchanged by a phase, for every
predicate that is false on the kinds of calls the phase can make. -/

theorem excludePhysical_filter {σ : Type} (r : SyncController σ) (pObj : Object)
    (vObj : Option Object) (w : World σ) (p : Call → Bool)
    (hp : ∀ c : Call, (c.isRead = true ∨ (vObj.isSome = true ∧ c.isEvent = true)) → p c = false) :
    (r.excludePhysical pObj vObj w).2.trace.filter p = w.trace.filter p := by
  have h1 : ∀ m e, p (Call.IsManaged pObj m e) = false := fun m e => hp _ (Or.inl rfl)
  rcases hM : r.syncer.IsManaged w.state pObj with ⟨m, e⟩
  cases e with
  | some err => simp [SyncController.excludePhysical, hM, World.emit, h1]
  | none =>
    cases m with
    | false =>
      simp only [SyncController.excludePhysical, hM, Bool.not_false, ↓reduceIte]
      split
      · rename_i v _
        have h2 : p (Call.Eventf v "Warning" "SyncError" (conflictMessage v pObj)) = false :=
          hp _ (Or.inr ⟨rfl, rfl⟩)
        simp [World.emit, h1, h2]
      · simp [World.emit, h1]
    | true =>
      simp only [SyncController.excludePhysical, hM, Bool.not_true, Bool.false_eq_true,
        ↓reduceIte]
      split
      · simp [World.emit, h1]
      · split
        · simp [World.emit, h1]
        · split <;> simp [World.emit, h1]

theorem getVirtualObject_filter {σ : Type} (r : SyncController σ) (req : NamespacedName)
    (w : World σ) (p : Call → Bool) (hp : ∀ c : Call, c.isRead = true → p c = false) :
    (r.getVirtualObject req w).2.trace.filter p = w.trace.filter p := by
  have h1 : p (Call.VirtualGet req) = false := hp _ rfl
  unfold SyncController.getVirtualObject
  split
  · rfl
  · dsimp only
    split
    · split <;> simp [World.emit, h1]
    · split <;> simp [World.emit, h1]

theorem getPhysicalObject_filter {σ : Type} (r : SyncController σ) (req : NamespacedName)
    (vObj : Option Object) (w : World σ) (p : Call → Bool)
    (hp : ∀ c : Call, (c.isRead = true ∨ (vObj.isSome = true ∧ c.isEvent = true)) → p c = false) :
    (r.getPhysicalObject req vObj w).2.trace.filter p = w.trace.filter p := by
  have h1 : p (Call.PhysicalGet req) = false := hp _ (Or.inl rfl)
  have he : (w.emit (Call.PhysicalGet req)).trace.filter p = w.trace.filter p := by
    simp [World.emit, h1]
  unfold SyncController.getPhysicalObject
  split
  · rfl
  · dsimp only
    split
    · split <;> exact he
    · rename_i pObj _
      have hx := excludePhysical_filter r pObj vObj (w.emit (Call.PhysicalGet req)) p hp
      split
      · rename_i heq
        rw [heq] at hx
        exact hx.trans he
      · rename_i heq
        rw [heq] at hx
        split <;> exact hx.trans he

theorem getObjects_filter {σ : Type} (r : SyncController σ) (vReq pReq : Request)
    (w : World σ) (p : Call → Bool)
    (hp : ∀ c : Call, (c.isRead = true ∨ c.isEvent = true) → p c = false) :
    (r.getObjects vReq pReq w).2.trace.filter p = w.trace.filter p := by
  have hr : ∀ c : Call, c.isRead = true → p c = false := fun c h => hp c (Or.inl h)
  unfold SyncController.getObjects
  split
  · have hp1 := getPhysicalObject_filter r pReq none w p (fun c h => by
      rcases h with h | ⟨h, _⟩
      · exact hr c h
      · exact absurd h (by decide))
    unfold SyncController.getObjectsFromPhysical
    split
    · rename_i heq
      rw [heq] at hp1
      exact hp1
    · rename_i exclude pObj w1 heq
      rw [heq] at hp1
      split
      · exact hp1
      · have hv := getVirtualObject_filter r (r.syncer.HostToVirtual w1.state pReq pObj) w1 p hr
        split
        · rename_i heq2
          rw [heq2] at hv
          exact hv.trans hp1
        · rename_i heq2
          rw [heq2] at hv
          split <;> exact hv.trans hp1
  · have hv := getVirtualObject_filter r vReq w p hr
    unfold SyncController.getObjectsFromVirtual
    split
    · rename_i heq
      rw [heq] at hv
      exact hv
    · rename_i exclude vObj w1 heq
      rw [heq] at hv
      split
      · exact hv
      · have hp1 := getPhysicalObject_filter r (r.syncer.VirtualToHost w1.state vReq vObj) vObj
          w1 p (fun c h => by
            rcases h with h | ⟨_, h⟩
            · exact hr c h
            · exact hp c (Or.inr h))
        split
        · rename_i heq2
          rw [heq2] at hp1
          exact hp1.trans hv
        · rename_i heq2
          rw [heq2] at hp1
          split <;> exact hp1.trans hv

theorem extractRequest_filter {σ : Type} (r : SyncController σ) (req : Request)
    (w : World σ) (p : Call → Bool) (hp : ∀ c : Call, c.isRead = true → p c = false) :
    (r.extractRequest req w).2.trace.filter p = w.trace.filter p := by
  unfold SyncController.extractRequest
  split
  · have hp1 := getPhysicalObject_filter r (fromHostRequest req) none w p (fun c h => by
      rcases h with h | ⟨h, _⟩
      · exact hp c h
      · exact absurd h (by decide))
    dsimp only
    split
    · rename_i heq
      rw [heq] at hp1
      exact hp1
    · rename_i heq
      rw [heq] at hp1
      split <;> exact hp1
  · rfl

theorem deleteObject_filter {σ : Type} (ctx : SyncContext σ) (obj : Object)
    (reason : String) (isVirtual : Bool) (w : World σ) (p : Call → Bool)
    (hp : ∀ c : Call, (c.isDispatch = true ∨ c.isLog = true) → p c = false) :
    (deleteObject ctx obj reason isVirtual w).2.trace.filter p = w.trace.filter p := by
  have h1 : ∀ m, p (Call.Infof m) = false := fun m => hp _ (Or.inr rfl)
  have h2 : p (Call.Delete isVirtual obj) = false := hp _ (Or.inl rfl)
  unfold deleteObject
  dsimp only
  split
  · rename_i err w1 heq
    have ht := congrArg (fun x => x.2.trace) heq
    simp only [World.invoke] at ht
    split
    · simp only [← ht]
      split <;> simp [World.emit, h1, h2]
    · split
      · simp only [World.emit, ← ht]
        split <;> simp [World.emit, h1, h2]
      · simp only [World.emit, ← ht]
        split <;> simp [World.emit, h1, h2]
  · rename_i w1 heq
    have ht := congrArg (fun x => x.2.trace) heq
    simp only [World.invoke] at ht
    simp only [← ht]
    split <;> simp [World.emit, h1, h2]

theorem dispatch_filter {σ : Type} (r : SyncController σ) (ctx : SyncContext σ)
    (vObj pObj : Option Object) (w : World σ) (p : Call → Bool)
    (hp : ∀ c : Call, (c.isDispatch = true ∨ c.isLog = true) → p c = false) :
    (r.dispatch ctx vObj pObj w).2.trace.filter p = w.trace.filter p := by
  have h1 : ∀ c : Call, c.isDispatch = true → p c = false := fun c h => hp c (Or.inl h)
  unfold SyncController.dispatch
  split
  · dsimp only
    split
    · split
      · rfl
      · exact deleteObject_filter _ _ _ _ _ p hp
    · simp [World.invoke, h1 (Call.Sync _ _ _ _) rfl]
  · simp [World.invoke, h1 (Call.SyncToHost _ _ _) rfl]
  · split
    · rfl
    · split
      · simp [World.invoke, h1 (Call.SyncToVirtual _ _ _) rfl]
      · exact deleteObject_filter _ _ _ _ _ p hp
  · rfl

theorem deleteObject_locked {σ : Type} (ctx : SyncContext σ) (obj : Object)
    (reason : String) (isVirtual : Bool) (w : World σ) :
    (deleteObject ctx obj reason isVirtual w).2.locked = w.locked := by
  unfold deleteObject
  dsimp only
  split
  · rename_i err w1 heq
    have ht := congrArg (fun x => x.2.locked) heq
    simp only [World.invoke] at ht
    split
    · simp only [← ht]
      split <;> simp [World.emit]
    · split
      · simp only [World.emit, ← ht]
        split <;> simp [World.emit]
      · simp only [World.emit, ← ht]
        split <;> simp [World.emit]
  · rename_i w1 heq
    have ht := congrArg (fun x => x.2.locked) heq
    simp only [World.invoke] at ht
    simp only [← ht]
    split <;> simp [World.emit]

theorem dispatch_locked {σ : Type} (r : SyncController σ) (ctx : SyncContext σ)
    (vObj pObj : Option Object) (w : World σ) :
    (r.dispatch ctx vObj pObj w).2.locked = w.locked := by
  unfold SyncController.dispatch
  split
  · dsimp only
    split
    · split
      · rfl
      · exact deleteObject_locked _ _ _ _ _
    · rfl
  · rfl
  · split
    · rfl
    · split
      · rfl
      · exact deleteObject_locked _ _ _ _ _
  · rfl

theorem isControl_of_isRead (c : Call) (h : c.isRead = true ∨ c.isEvent = true) :
    c.isControl = false := by
  cases c <;> simp_all [Call.isRead, Call.isEvent, Call.isControl]

theorem isControl_of_isDispatch (c : Call) (h : c.isDispatch = true ∨ c.isLog = true) :
    c.isControl = false := by
  cases c <;> simp_all [Call.isDispatch, Call.isLog, Call.isControl]

/-- Once the lock is acquired, `Reconcile` returns, and it ends with the
deferred `ReconcileEnd` and `Unlock`; between the pre-hook and the deferred
calls it makes no call of the prologue or epilogue and leaves the held keys
alone. -/
theorem Reconcile_locked_run {σ : Type} (r : SyncController σ) (origReq : Request)
    (w w1 wl : World σ) (vReq pReq : Request)
    (hx : r.extractRequest (fromDeleteRequest origReq).1 w = ((vReq, pReq, none), w1))
    (hname : vReq.Name ≠ "") (hlock : w1.Lock vReq.String = some wl) :
    ∃ (ret : Result × Option GoError) (wb : World σ),
      r.Reconcile origReq w = (some ret, (r.reconcileEnd wb).Unlock vReq.String)
        ∧ wb.locked = wl.locked
        ∧ controlCalls wb.trace
          = controlCalls (r.reconcileStart (r.syncContext (fromDeleteRequest origReq).1
              (fromDeleteRequest origReq).2) vReq wl).2.trace := by
  have hsl := (reconcileStart_dispatch r (r.syncContext (fromDeleteRequest origReq).1
    (fromDeleteRequest origReq).2) vReq wl).2
  simp only [SyncController.Reconcile, hx, hname, hlock, if_false]
  split
  · exact ⟨_, _, rfl, hsl, rfl⟩
  · have hg := getObjects_frame r vReq pReq (r.reconcileStart
      (r.syncContext (fromDeleteRequest origReq).1 (fromDeleteRequest origReq).2) vReq wl).2
    have hgc := getObjects_filter r vReq pReq (r.reconcileStart
      (r.syncContext (fromDeleteRequest origReq).1 (fromDeleteRequest origReq).2) vReq wl).2
      Call.isControl isControl_of_isRead
    split
    · rename_i heq
      rw [heq] at hg hgc
      exact ⟨_, _, rfl, hg.2.1.trans hsl, hgc⟩
    · rename_i vObj pObj w3 heq
      rw [heq] at hg hgc
      refine ⟨_, _, rfl, ?_, ?_⟩
      · rw [dispatch_locked]
        exact hg.2.1.trans hsl
      · exact (dispatch_filter r _ vObj pObj w3 Call.isControl isControl_of_isDispatch).trans hgc

/-- The shape of a run of `Reconcile` in terms of the lock and the `Starter`
calls: the held keys are the same after the run, and the run either makes none
of these calls (it returns before the lock or blocks in it), or it returns and
makes `Lock key`, the pre-hook and the post-hook when the syncer is a `Starter`,
and `Unlock key`, in this order. -/
theorem Reconcile_control {σ : Type} (r : SyncController σ) (origReq : Request)
    (w : World σ) :
    (r.Reconcile origReq w).2.locked = w.locked
      ∧ (controlCalls (r.Reconcile origReq w).2.trace = controlCalls w.trace
        ∨ (∃ key : String, (r.Reconcile origReq w).1.isSome = true
            ∧ r.syncer.starter = none
            ∧ controlCalls (r.Reconcile origReq w).2.trace
              = controlCalls w.trace ++ [Call.Lock key, Call.Unlock key])
        ∨ (∃ (key : String) (source : EventSource) (isDelete : Bool) (req : Request),
            (r.Reconcile origReq w).1.isSome = true
            ∧ r.syncer.starter.isSome = true
            ∧ controlCalls (r.Reconcile origReq w).2.trace
              = controlCalls w.trace ++ [Call.Lock key,
                  Call.ReconcileStart source isDelete req, Call.ReconcileEnd,
                  Call.Unlock key])) := by
  have hx := extractRequest_frame r (fromDeleteRequest origReq).1 w
  have hxc := extractRequest_filter r (fromDeleteRequest origReq).1 w Call.isControl
    (fun c h => isControl_of_isRead c (Or.inl h))
  rcases hE : r.extractRequest (fromDeleteRequest origReq).1 w with ⟨⟨vReq, pReq, err⟩, w1⟩
  rw [hE] at hx hxc
  cases err with
  | some e =>
    simp only [SyncController.Reconcile, hE]
    exact ⟨hx.2.1, Or.inl hxc⟩
  | none =>
    by_cases hname : vReq.Name = ""
    · simp only [SyncController.Reconcile, hE, hname, if_true]
      exact ⟨hx.2.1, Or.inl hxc⟩
    · cases hlock : w1.Lock vReq.String with
      | none =>
        simp only [SyncController.Reconcile, hE, hname, hlock, if_false]
        exact ⟨hx.2.1, Or.inl hxc⟩
      | some wl =>
        obtain ⟨ret, wb, hR, hbl, hbc⟩ := Reconcile_locked_run r origReq w w1 wl vReq pReq hE
          hname hlock
        have hl := Lock_frame w1 wl _ hlock
        rw [hR]
        constructor
        · have := (reconcileEnd_dispatch r wb).2
          simp only [World.Unlock, this, hbl, hl.2.2.1, List.erase_cons_head]
          exact hx.2.1
        · right
          have hwl : controlCalls wl.trace = controlCalls w.trace ++ [Call.Lock vReq.String] := by
            rw [hl.2.2.2]
            simp only [controlCalls, List.filter_append] at hxc ⊢
            rw [hxc]
            simp [Call.isControl]
          cases hs : r.syncer.starter with
          | none =>
            left
            refine ⟨vReq.String, rfl, rfl, ?_⟩
            simp only [SyncController.reconcileStart, hs] at hbc
            simp only [World.Unlock, SyncController.reconcileEnd, hs, controlCalls,
              List.filter_append] at hbc hwl ⊢
            rw [hbc, hwl]
            simp [Call.isControl]
          | some lifecycle =>
            right
            refine ⟨vReq.String, (r.syncContext (fromDeleteRequest origReq).1
              (fromDeleteRequest origReq).2).EventSource, (fromDeleteRequest origReq).2, vReq,
              rfl, rfl, ?_⟩
            simp only [SyncController.reconcileStart, hs, World.invoke] at hbc
            simp only [World.Unlock, SyncController.reconcileEnd, hs, World.invoke, controlCalls,
              List.filter_append] at hbc hwl ⊢
            rw [hbc, hwl]
            simp [Call.isControl, SyncController.syncContext]

/-- A run of `Reconcile` fails to return only when the lock key of its virtual
identity is held on entry. -/
theorem Reconcile_blocked {σ : Type} (r : SyncController σ) (origReq : Request) (w : World σ)
    (h : (r.Reconcile origReq w).1 = none) :
    (r.extractRequest (fromDeleteRequest origReq).1 w).1.1.String ∈ w.locked := by
  have hx := extractRequest_frame r (fromDeleteRequest origReq).1 w
  rcases hE : r.extractRequest (fromDeleteRequest origReq).1 w with ⟨⟨vReq, pReq, err⟩, w1⟩
  rw [hE] at hx
  cases err with
  | some e => simp [SyncController.Reconcile, hE] at h
  | none =>
    by_cases hname : vReq.Name = ""
    · simp [SyncController.Reconcile, hE, hname] at h
    · cases hlock : w1.Lock vReq.String with
      | none =>
        simp only [World.Lock] at hlock
        split at hlock
        · rename_i hk
          rw [hx.2.1] at hk
          exact hk
        · exact absurd hlock (by simp)
      | some wl =>
        obtain ⟨ret, wb, hR, _, _⟩ := Reconcile_locked_run r origReq w w1 wl vReq pReq hE
          hname hlock
        rw [hR] at h
        exact absurd h (by simp)

/-! ## The host-only branch of the classification -/

theorem dispatch_skip {σ : Type} (r : SyncController σ) (ctx : SyncContext σ)
    (pObj : Object) (w : World σ)
    (hskip : mapIndexOk pObj.Annotations r.translate.SkipBackSyncInMultiNamespaceMode
      = ("true", true)) :
    r.dispatch ctx none (some pObj) w = ((Result.empty, none), w) := by
  have hs : pObj.Annotations.isSome = true := by
    cases hA : pObj.Annotations with
    | none =>
      rw [hA] at hskip
      simp [mapIndexOk] at hskip
    | some l => rfl
  simp [SyncController.dispatch, hskip, hs]

theorem dispatch_no_skip {σ : Type} (r : SyncController σ) (ctx : SyncContext σ)
    (pObj : Object) (w : World σ)
    (hskip : mapIndexOk pObj.Annotations r.translate.SkipBackSyncInMultiNamespaceMode
      ≠ ("true", true)) :
    r.dispatch ctx none (some pObj) w
      = match r.syncer.toVirtualSyncer with
        | some SyncToVirtual =>
          w.invoke (Call.SyncToVirtual ctx.EventSource ctx.IsDelete pObj) (SyncToVirtual ctx pObj)
        | none => DeleteHostObject ctx pObj "virtual object was deleted" w := by
  have hc : ¬ (pObj.Annotations.isSome
      && (mapIndexOk pObj.Annotations r.translate.SkipBackSyncInMultiNamespaceMode).2
      && (mapIndexOk pObj.Annotations r.translate.SkipBackSyncInMultiNamespaceMode).1 == "true")
      = true := by
    intro hc
    simp only [Bool.and_eq_true, beq_iff_eq] at hc
    exact hskip (Prod.ext hc.2 hc.1.2)
  simp only [SyncController.dispatch, hc]
  simp

theorem lifecycleCalls_of_controlCalls (t : List Call) :
    lifecycleCalls t = (controlCalls t).filter Call.isLifecycle := by
  simp only [lifecycleCalls, controlCalls, List.filter_filter]
  congr 1
  funext c
  cases c <;> rfl

theorem lockCalls_of_controlCalls (t : List Call) :
    lockCalls t = (controlCalls t).filter Call.isLock := by
  simp only [lockCalls, controlCalls, List.filter_filter]
  congr 1
  funext c
  cases c <;> rfl

/-- While the lock key of its virtual identity is held, a run of `Reconcile`
waits in `Lock`: it makes no call after the decoding of the request. -/
theorem Reconcile_waits_for_held_key {σ : Type} (r : SyncController σ) (origReq : Request)
    (w w1 : World σ) (vReq pReq : Request)
    (hx : r.extractRequest (fromDeleteRequest origReq).1 w = ((vReq, pReq, none), w1))
    (hname : vReq.Name ≠ "") (hheld : vReq.String ∈ w.locked) :
    r.Reconcile origReq w = (none, w1) := by
  have hf := extractRequest_frame r (fromDeleteRequest origReq).1 w
  rw [hx] at hf
  have hl : w1.Lock vReq.String = none := by
    simp only [World.Lock]
    rw [if_pos]
    rw [hf.2.1]
    exact hheld
  simp [SyncController.Reconcile, hx, hname, hl]

/-! ## The request-tag codec: claims C1 to C4 -/

/-- C1, counterexample: the untagged request with namespace `host#ns` and name
`a` is decoded as a host request for `ns/a`; the tuple
`(host#ns, a, host? = false, delete? = false)` is not recovered. -/
theorem codec_roundtrip_fails_on_sentinel_namespace :
    decodeRequest (encodeRequest "host#ns" "a" false false) = (⟨"ns", "a"⟩, true, false)
      ∧ decodeRequest (encodeRequest "host#ns" "a" false false)
          ≠ (⟨"host#ns", "a"⟩, false, false) := by
  decide

/-- C1, as amended: encoding a tuple `(ns, name, host?, delete?)` and decoding
it as `Reconcile` does recovers the tuple if and only if `host?` is set, or
`ns` does not start with `host#` and (`delete?` is set or `ns` does not start
with `delete#`).  In particular the round trip holds for every namespace that
starts with neither sentinel. -/
theorem codec_roundtrip_iff (ns name : String) (host del : Bool) :
    decodeRequest (encodeRequest ns name host del) = (⟨ns, name⟩, host, del)
      ↔ (host = true ∨ (strings.HasPrefix ns hostObjectRequestPrefix = false
          ∧ (del = true ∨ strings.HasPrefix ns deleteObjectRequestPrefix = false))) :=
  decode_encode_iff ns name host del

/-- C2: for a namespace without the character `#`, every encoded tuple decodes
to itself, and the untagged request is read neither as host-tagged nor as
delete-tagged. -/
theorem sentinels_safe_for_legal_namespaces (ns name : String) (host del : Bool)
    (h : '#' ∉ ns.data) :
    decodeRequest (encodeRequest ns name host del) = (⟨ns, name⟩, host, del)
      ∧ isHostRequest ⟨ns, name⟩ = false
      ∧ fromDeleteRequest ⟨ns, name⟩ = (⟨ns, name⟩, false) := by
  have hh : strings.HasPrefix ns hostObjectRequestPrefix = false := by
    by_contra hc
    exact h (hash_mem_of_HasPrefix_host ns (by simpa using hc))
  have hd : strings.HasPrefix ns deleteObjectRequestPrefix = false := by
    by_contra hc
    exact h (hash_mem_of_HasPrefix_delete ns (by simpa using hc))
  refine ⟨(decode_encode_iff ns name host del).mpr (Or.inr ⟨hh, Or.inr hd⟩), ?_, ?_⟩
  · simpa [isHostRequest] using hh
  · exact fromDeleteRequest_of_not_delete ⟨ns, name⟩ hd

/-- C2, witness: the namespace `default` of the test cases. -/
theorem sentinels_safe_for_legal_namespaces_witness :
    '#' ∉ "default".data
      ∧ decodeRequest (encodeRequest "default" "a" true true) = (⟨"default", "a"⟩, true, true)
      ∧ isHostRequest ⟨"default", "a"⟩ = false
      ∧ fromDeleteRequest ⟨"default", "a"⟩ = (⟨"default", "a"⟩, false) :=
  ⟨by decide, sentinels_safe_for_legal_namespaces "default" "a" true true (by decide)⟩

/-- C3, counterexample: `toHostRequest (toDeleteRequest r)` for `r = ns/a` has
the namespace `host#delete#ns`; it is decoded as a host request for the
identity `delete#ns/a` that is not a delete, and not as `(r, true, true)`. -/
theorem host_of_delete_is_not_decoded :
    decodeRequest (toHostRequest (toDeleteRequest ⟨"ns", "a"⟩))
        = (⟨"delete#ns", "a"⟩, true, false)
      ∧ decodeRequest (toHostRequest (toDeleteRequest ⟨"ns", "a"⟩))
          ≠ (⟨"ns", "a"⟩, true, true) := by
  decide

/-- C3, as amended: the tags compose in one order.  For every request `r`,
`toDeleteRequest (toHostRequest r)` is decoded to `r` with host = true and
delete = true, while `toHostRequest (toDeleteRequest r)` is decoded to the
identity `toDeleteRequest r` with host = true and delete = false. -/
theorem tags_compose_in_one_order (r : Request) :
    decodeRequest (toDeleteRequest (toHostRequest r)) = (r, true, true)
      ∧ decodeRequest (toHostRequest (toDeleteRequest r)) = (toDeleteRequest r, true, false) :=
  ⟨decodeRequest_delete_host r, decodeRequest_host (toDeleteRequest r)⟩

/-- C4: `fromDeleteRequest` strips one leading `delete#` and reports it.  If
the namespace of `r` is `delete#` followed by `rest`, the result is the request
with namespace `rest` and the same name, and `true`; if the namespace does not
start with `delete#`, the result is `(r, false)`; and `fromDeleteRequest`
undoes `toDeleteRequest`. -/
theorem fromDeleteRequest_strips_and_reports (r : Request) :
    (∀ rest : String, r.Namespace = "delete#" ++ rest →
        fromDeleteRequest r = (⟨rest, r.Name⟩, true))
      ∧ ((¬ ∃ rest : String, r.Namespace = "delete#" ++ rest) →
        fromDeleteRequest r = (r, false))
      ∧ fromDeleteRequest (toDeleteRequest r) = (r, true) := by
  refine ⟨?_, ?_, fromDeleteRequest_toDeleteRequest r⟩
  · intro rest h
    have := fromDeleteRequest_toDeleteRequest ⟨rest, r.Name⟩
    simpa [toDeleteRequest, deleteObjectRequestPrefix, ← h] using this
  · intro h
    apply fromDeleteRequest_of_not_delete
    by_contra hc
    exact h ((HasPrefix_iff _ _).mp (by simpa using hc))

/-- C4, witness: one leading `delete#` is stripped from `delete#delete#ns`, and
`host#ns` is left as it is. -/
theorem fromDeleteRequest_strips_and_reports_witness :
    fromDeleteRequest ⟨"delete#delete#ns", "a"⟩ = (⟨"delete#ns", "a"⟩, true)
      ∧ fromDeleteRequest ⟨"host#ns", "a"⟩ = (⟨"host#ns", "a"⟩, false) :=
  ⟨(fromDeleteRequest_strips_and_reports ⟨"delete#delete#ns", "a"⟩).1 "delete#ns" (by decide),
    (fromDeleteRequest_strips_and_reports ⟨"host#ns", "a"⟩).2.1 (by
      rintro ⟨rest, h⟩
      have h2 := congrArg (fun s => s.data.head?) h
      simp [String.data_append] at h2)⟩

/-! ## Foreign host objects: claims C5 and C6 -/

/-- C5: a virtual-originated request whose virtual object exists and is not
excluded, whose mapped host identity holds a host object that `IsManaged`
reports as not managed, with a syncer that is no `ObjectExcluder`.  (The
object names carry no `%`, which no Kubernetes name may contain, so that the
message is free of formatting directives.)  Then `Reconcile` returns the error
with the conflict message; after the pre-hook the engine makes exactly the two
reads, the `IsManaged` check and one `Eventf` of type Warning with reason
SyncError on the virtual object, followed by the deferred calls; the run has
one event and no dispatch call (no `Sync`, `SyncToHost`, `SyncToVirtual`, no
delete), and the cluster state is the one the pre-hook left, passed through
the deferred `ReconcileEnd` only. -/
theorem reconcile_conflict_with_foreign_host_object {σ : Type} (r : SyncController σ)
    (origReq : Request) (w wl w2 : World σ) (vObj pObj : Object)
    (hvirt : isHostRequest (fromDeleteRequest origReq).1 = false)
    (hname : (fromDeleteRequest origReq).1.Name ≠ "")
    (hlock : w.Lock (fromDeleteRequest origReq).1.String = some wl)
    (hstart : r.reconcileStart (r.syncContext (fromDeleteRequest origReq).1
        (fromDeleteRequest origReq).2) (fromDeleteRequest origReq).1 wl = ((false, none), w2))
    (hv : r.virtualClient.Get w2.state (fromDeleteRequest origReq).1 = Except.ok vObj)
    (hvex : r.excludeVirtual vObj = false)
    (hpname : (r.syncer.VirtualToHost w2.state (fromDeleteRequest origReq).1 (some vObj)).Name
        ≠ "")
    (hp : r.physicalClient.Get w2.state
        (r.syncer.VirtualToHost w2.state (fromDeleteRequest origReq).1 (some vObj))
        = Except.ok pObj)
    (hman : r.syncer.IsManaged w2.state pObj = (false, none))
    (hexc : r.syncer.objectExcluder = none)
    (hfmt : '%' ∉ (conflictMessage vObj pObj).data) :
    r.Reconcile origReq w
        = (some (Result.empty,
              some { Message := "conflict: cannot sync virtual object " ++ vObj.Namespace ++ "/"
                       ++ vObj.Name ++ " as unmanaged physical object " ++ pObj.Namespace ++ "/"
                       ++ pObj.Name ++ " exists with desired name"
                     IsNotFound := false }),
            (r.reconcileEnd
              { w2 with
                trace := w2.trace ++ [Call.VirtualGet (fromDeleteRequest origReq).1,
                  Call.PhysicalGet
                    (r.syncer.VirtualToHost w2.state (fromDeleteRequest origReq).1 (some vObj)),
                  Call.IsManaged pObj false none,
                  Call.Eventf vObj "Warning" "SyncError" (conflictMessage vObj pObj)] }).Unlock
              (fromDeleteRequest origReq).1.String)
      ∧ (r.Reconcile origReq w).2.trace.filter Call.isEvent
          = w.trace.filter Call.isEvent
            ++ [Call.Eventf vObj "Warning" "SyncError" (conflictMessage vObj pObj)]
      ∧ dispatchCalls (r.Reconcile origReq w).2.trace = dispatchCalls w.trace
      ∧ (r.Reconcile origReq w).2.state = (r.reconcileEnd w2).state := by
  have hR : r.Reconcile origReq w
      = (some (Result.empty, some { Message := conflictMessage vObj pObj, IsNotFound := false }),
          (r.reconcileEnd
            { w2 with
              trace := w2.trace ++ [Call.VirtualGet (fromDeleteRequest origReq).1,
                Call.PhysicalGet
                  (r.syncer.VirtualToHost w2.state (fromDeleteRequest origReq).1 (some vObj)),
                Call.IsManaged pObj false none,
                Call.Eventf vObj "Warning" "SyncError" (conflictMessage vObj pObj)] }).Unlock
            (fromDeleteRequest origReq).1.String) := by
    simp [SyncController.Reconcile, SyncController.extractRequest, hvirt, hname, hlock, hstart,
      SyncController.getObjects, SyncController.getObjectsFromVirtual,
      SyncController.getVirtualObject, World.emit, hv, hvex, SyncController.getPhysicalObject,
      hpname, hp, SyncController.excludePhysical, hman, hexc, Errorf, Sprintf, hfmt]
  have hl := Lock_frame w wl _ hlock
  have h2 : w2.trace.filter Call.isEvent = w.trace.filter Call.isEvent
      ∧ dispatchCalls w2.trace = dispatchCalls w.trace := by
    have := congrArg (fun x => x.2.trace) hstart
    simp only [SyncController.reconcileStart] at this
    split at this
    · simp only [World.invoke] at this
      rw [← this, hl.2.2.2]
      simp [dispatchCalls, Call.isEvent, Call.isDispatch]
    · simp only at this
      rw [← this, hl.2.2.2]
      simp [dispatchCalls, Call.isEvent, Call.isDispatch]
  refine ⟨hR, ?_, ?_, ?_⟩
  · rw [hR]
    simp only [World.Unlock, SyncController.reconcileEnd]
    split <;> simp [World.invoke, Call.isEvent, h2.1]
  · rw [hR]
    simp only [World.Unlock, SyncController.reconcileEnd]
    split <;> simp [World.invoke, dispatchCalls, Call.isDispatch] <;>
      simpa [dispatchCalls] using h2.2
  · rw [hR]
    simp only [World.Unlock, SyncController.reconcileEnd]
    split <;> simp [World.invoke]

/-- C5, witness: the test case "should fail to sync down when object of
desired name already exists": the error message is the one the test expects
and the foreign host secret is still there. -/
theorem reconcile_conflict_with_foreign_host_object_witness :
    ((mockController false).Reconcile ⟨"default", "a"⟩
        (fakeWorld [foreignSecret] [secretA])).1
        = some (Result.empty,
            some { Message := "conflict: cannot sync virtual object default/a as unmanaged physical object test/a-x-default-x-suffix exists with desired name"
                   IsNotFound := false })
      ∧ ((mockController false).Reconcile ⟨"default", "a"⟩
          (fakeWorld [foreignSecret] [secretA])).2.trace.filter Call.isEvent
          = [Call.Eventf secretA "Warning" "SyncError"
              "conflict: cannot sync virtual object default/a as unmanaged physical object test/a-x-default-x-suffix exists with desired name"]
      ∧ dispatchCalls ((mockController false).Reconcile ⟨"default", "a"⟩
          (fakeWorld [foreignSecret] [secretA])).2.trace = []
      ∧ ((mockController false).Reconcile ⟨"default", "a"⟩
          (fakeWorld [foreignSecret] [secretA])).2.state
          = { physical := [foreignSecret], virtual := [secretA] } :=
  have hT := reconcile_conflict_with_foreign_host_object (mockController false)
    ⟨"default", "a"⟩ (fakeWorld [foreignSecret] [secretA])
    { state := { physical := [foreignSecret], virtual := [secretA] }
      locked := ["default/a"], trace := [Call.Lock "default/a"] }
    { state := { physical := [foreignSecret], virtual := [secretA] }
      locked := ["default/a"], trace := [Call.Lock "default/a"] }
    secretA foreignSecret rfl (by decide) rfl rfl rfl rfl (by decide) rfl rfl rfl (by decide)
  ⟨congrArg (fun x => x.1) hT.1, hT.2.1, hT.2.2.1, hT.2.2.2⟩

/-- C6: if, in a run of `Reconcile`, `IsManaged` reports a fetched host object
as not managed (with or without an error), the run makes no dispatch call: the
engine issues no delete and calls none of `Sync`, `SyncToHost` and
`SyncToVirtual`, on that object or on any other. -/
theorem foreign_host_object_is_never_dispatched {σ : Type} (r : SyncController σ)
    (origReq : Request) (state : σ) (locked : List String) (pObj : Object)
    (err : Option GoError)
    (h : Call.IsManaged pObj false err
      ∈ (r.Reconcile origReq { state := state, locked := locked, trace := [] }).2.trace) :
    dispatchCalls (r.Reconcile origReq { state := state, locked := locked, trace := [] }).2.trace
      = [] := by
  have hf : foreignSeen
      (r.Reconcile origReq { state := state, locked := locked, trace := [] }).2.trace = true :=
    List.any_eq_true.mpr ⟨_, h, rfl⟩
  exact Reconcile_foreign r origReq _ rfl hf

/-- C6, witness: a host-originated request for the unmanaged host secret of
the test case: the run ends after the check and the secret is still there. -/
theorem foreign_host_object_is_never_dispatched_witness :
    Call.IsManaged foreignSecret false none
        ∈ ((mockController false).Reconcile ⟨"host#test", "a-x-default-x-suffix"⟩
            { state := { physical := [foreignSecret], virtual := [secretA] }
              locked := [], trace := [] }).2.trace
      ∧ dispatchCalls ((mockController false).Reconcile ⟨"host#test", "a-x-default-x-suffix"⟩
            { state := { physical := [foreignSecret], virtual := [secretA] }
              locked := [], trace := [] }).2.trace = [] :=
  ⟨by decide,
    foreign_host_object_is_never_dispatched (mockController false)
      ⟨"host#test", "a-x-default-x-suffix"⟩ { physical := [foreignSecret], virtual := [secretA] }
      [] foreignSecret none (by decide)⟩

/-! ## The classification of `Reconcile`: claims C7 to C10 -/

/-- C7: when the fetch returns the virtual object and no host object,
`Reconcile` calls `SyncToHost` on the virtual object in the cluster state the
fetch left: it returns the result and error of `SyncToHost` unchanged, and the
world after the run is the one that call left (the cluster state `SyncToHost`
wrote, the call recorded) followed by the deferred `ReconcileEnd` and
`Unlock`; so for a syncer that is no `Starter` the cluster state after the run
is the one `SyncToHost` wrote.  The only dispatch call of the run (transition
hooks `Sync`, `SyncToHost`, `SyncToVirtual` and deletes) is that one call of
`SyncToHost`. -/
theorem reconcile_calls_SyncToHost {σ : Type} (r : SyncController σ) (origReq : Request)
    (w : World σ) (vReq : Request) (vObj : Object) (w3 : World σ)
    (h : r.Fetches origReq w vReq (some vObj) none w3) :
    r.Reconcile origReq w
        = (some (r.syncer.SyncToHost (r.syncContext (fromDeleteRequest origReq).1
            (fromDeleteRequest origReq).2) vObj w3.state).1,
          (r.reconcileEnd
            { state := (r.syncer.SyncToHost (r.syncContext (fromDeleteRequest origReq).1
                (fromDeleteRequest origReq).2) vObj w3.state).2
              locked := w3.locked
              trace := w3.trace
                ++ [Call.SyncToHost (r.syncContext (fromDeleteRequest origReq).1
                      (fromDeleteRequest origReq).2).EventSource
                    (fromDeleteRequest origReq).2 vObj] }).Unlock vReq.String)
      ∧ (r.syncer.starter = none →
          (r.Reconcile origReq w).2.state
            = (r.syncer.SyncToHost (r.syncContext (fromDeleteRequest origReq).1
                (fromDeleteRequest origReq).2) vObj w3.state).2)
      ∧ dispatchCalls (r.Reconcile origReq w).2.trace
        = dispatchCalls w.trace
          ++ [Call.SyncToHost (r.syncContext (fromDeleteRequest origReq).1
                (fromDeleteRequest origReq).2).EventSource (fromDeleteRequest origReq).2 vObj] := by
  refine ⟨?_, ?_, ?_⟩
  · rw [Reconcile_of_Fetches r origReq w vReq _ _ w3 h]
    rfl
  · intro hs
    rw [Reconcile_of_Fetches r origReq w vReq _ _ w3 h]
    simp [SyncController.reconcileEnd, hs, World.Unlock, SyncController.dispatch, World.invoke]
  · rw [Reconcile_trace_of_Fetches r origReq w vReq _ _ w3 h,
      ← Fetches_dispatch r origReq w vReq _ _ w3 h]
    simp [SyncController.dispatch, World.invoke, dispatchCalls, Call.isDispatch,
      SyncController.syncContext]

/-- C7, witness: the test case "should sync down": the virtual secret
`default/a` exists and the host cluster holds nothing at its host identity;
after the run the host cluster holds the host secret that `SyncToHost`
created. -/
theorem reconcile_calls_SyncToHost_witness :
    (mockController false).Fetches ⟨"default", "a"⟩ (fakeWorld [] [secretA]) ⟨"default", "a"⟩
        (some secretA) none
        { state := { physical := [], virtual := [secretA] }
          locked := ["default/a"]
          trace := [Call.Lock "default/a", Call.VirtualGet ⟨"default", "a"⟩,
            Call.PhysicalGet ⟨"test", "a-x-default-x-suffix"⟩] }
      ∧ ((mockController false).Reconcile ⟨"default", "a"⟩ (fakeWorld [] [secretA])).1
          = some (Result.empty, none)
      ∧ ((mockController false).Reconcile ⟨"default", "a"⟩ (fakeWorld [] [secretA])).2.state
          = { physical := [fakeHostObject secretA], virtual := [secretA] }
      ∧ dispatchCalls
          ((mockController false).Reconcile ⟨"default", "a"⟩ (fakeWorld [] [secretA])).2.trace
          = [Call.SyncToHost EventSource.EventSourceVirtual false secretA] :=
  have hF : (mockController false).Fetches ⟨"default", "a"⟩ (fakeWorld [] [secretA])
      ⟨"default", "a"⟩ (some secretA) none
      { state := { physical := [], virtual := [secretA] }
        locked := ["default/a"]
        trace := [Call.Lock "default/a", Call.VirtualGet ⟨"default", "a"⟩,
          Call.PhysicalGet ⟨"test", "a-x-default-x-suffix"⟩] } :=
    ⟨⟨"", ""⟩, fakeWorld [] [secretA], _, _, rfl, by decide, rfl, rfl, rfl⟩
  have hT := reconcile_calls_SyncToHost (mockController false) ⟨"default", "a"⟩
    (fakeWorld [] [secretA]) ⟨"default", "a"⟩ secretA _ hF
  ⟨hF, congrArg (fun x => x.1) hT.1, hT.2.1 rfl, hT.2.2⟩

/-- C8: when the fetch returns both objects, UID deletion is not disabled, the
uid-annotation of the host object is non-empty and differs from the UID of the
virtual object, and the host object has no deletion timestamp, `Reconcile` is
`DeleteHostObject` on the host object with the reason "virtual object uid is
different" (followed by the deferred calls) and returns its result; the only
dispatch call of the run is the delete of the host object on the physical
client, so `Sync` is not called. -/
theorem reconcile_uid_mismatch_deletes_host {σ : Type} (r : SyncController σ)
    (origReq : Request) (w : World σ) (vReq : Request) (vObj pObj : Object) (w3 : World σ)
    (h : r.Fetches origReq w vReq (some vObj) (some pObj) w3)
    (hopt : r.options.DisableUIDDeletion = false)
    (hset : mapIndex pObj.Annotations r.translate.UIDAnnotation ≠ "")
    (hne : mapIndex pObj.Annotations r.translate.UIDAnnotation ≠ vObj.UID)
    (hterm : pObj.DeletionTimestamp = none) :
    r.Reconcile origReq w
        = (some (DeleteHostObject (r.syncContext (fromDeleteRequest origReq).1
              (fromDeleteRequest origReq).2) pObj "virtual object uid is different" w3).1,
            (r.reconcileEnd (DeleteHostObject (r.syncContext (fromDeleteRequest origReq).1
              (fromDeleteRequest origReq).2) pObj "virtual object uid is different" w3).2).Unlock
              vReq.String)
      ∧ dispatchCalls (r.Reconcile origReq w).2.trace
        = dispatchCalls w.trace ++ [Call.Delete false pObj] := by
  have hd := dispatch_uid_mismatch r (r.syncContext (fromDeleteRequest origReq).1
    (fromDeleteRequest origReq).2) vObj pObj w3 hopt hset hne
  simp only [hterm, Option.isSome_none, Bool.false_eq_true, if_false] at hd
  constructor
  · rw [Reconcile_of_Fetches r origReq w vReq _ _ w3 h, hd]
  · rw [Reconcile_trace_of_Fetches r origReq w vReq _ _ w3 h, hd,
      ← Fetches_dispatch r origReq w vReq _ _ w3 h]
    exact deleteObject_dispatch _ pObj _ false w3

/-- C8, witness: scenario S3 of the specification: the virtual secret has the
UID `123`, the managed host secret carries the uid-annotation `A`.  The host
secret is deleted. -/
theorem reconcile_uid_mismatch_deletes_host_witness :
    (mockController false).Fetches ⟨"default", "a"⟩
        (fakeWorld [managedSecret "A" none] [secretA]) ⟨"default", "a"⟩
        (some secretA) (some (managedSecret "A" none))
        { state := { physical := [managedSecret "A" none], virtual := [secretA] }
          locked := ["default/a"]
          trace := [Call.Lock "default/a", Call.VirtualGet ⟨"default", "a"⟩,
            Call.PhysicalGet ⟨"test", "a-x-default-x-suffix"⟩,
            Call.IsManaged (managedSecret "A" none) true none] }
      ∧ ((mockController false).Reconcile ⟨"default", "a"⟩
          (fakeWorld [managedSecret "A" none] [secretA])).1 = some (Result.empty, none)
      ∧ ((mockController false).Reconcile ⟨"default", "a"⟩
          (fakeWorld [managedSecret "A" none] [secretA])).2.state.physical = []
      ∧ dispatchCalls ((mockController false).Reconcile ⟨"default", "a"⟩
          (fakeWorld [managedSecret "A" none] [secretA])).2.trace
          = [Call.Delete false (managedSecret "A" none)] :=
  have hF : (mockController false).Fetches ⟨"default", "a"⟩
      (fakeWorld [managedSecret "A" none] [secretA]) ⟨"default", "a"⟩
      (some secretA) (some (managedSecret "A" none))
      { state := { physical := [managedSecret "A" none], virtual := [secretA] }
        locked := ["default/a"]
        trace := [Call.Lock "default/a", Call.VirtualGet ⟨"default", "a"⟩,
          Call.PhysicalGet ⟨"test", "a-x-default-x-suffix"⟩,
          Call.IsManaged (managedSecret "A" none) true none] } :=
    ⟨⟨"", ""⟩, fakeWorld [managedSecret "A" none] [secretA], _, _, rfl, by decide, rfl, rfl, rfl⟩
  have hT := reconcile_uid_mismatch_deletes_host (mockController false) ⟨"default", "a"⟩
    (fakeWorld [managedSecret "A" none] [secretA]) ⟨"default", "a"⟩ secretA
    (managedSecret "A" none) _ hF rfl (by decide) (by decide) rfl
  ⟨hF, congrArg (fun x => x.1) hT.1, congrArg (fun x => x.2.state.physical) hT.1, hT.2⟩

/-- C9: when the fetch returns both objects, UID deletion is not disabled, the
uid-annotation of the host object is non-empty and differs from the UID of the
virtual object, and the host object has a deletion timestamp, `Reconcile`
returns a result with `RequeueAfter` of one second (1000000000 ns) and no
error; after the fetch it makes no call but the deferred `ReconcileEnd` and
`Unlock`, and the run has no dispatch call (no transition hook, no delete). -/
theorem reconcile_uid_mismatch_terminating_requeues {σ : Type} (r : SyncController σ)
    (origReq : Request) (w : World σ) (vReq : Request) (vObj pObj : Object) (w3 : World σ)
    (h : r.Fetches origReq w vReq (some vObj) (some pObj) w3)
    (hopt : r.options.DisableUIDDeletion = false)
    (hset : mapIndex pObj.Annotations r.translate.UIDAnnotation ≠ "")
    (hne : mapIndex pObj.Annotations r.translate.UIDAnnotation ≠ vObj.UID)
    (hterm : pObj.DeletionTimestamp ≠ none) :
    r.Reconcile origReq w
        = (some ({ Requeue := false, RequeueAfter := 1000000000 }, none),
            (r.reconcileEnd w3).Unlock vReq.String)
      ∧ dispatchCalls (r.Reconcile origReq w).2.trace = dispatchCalls w.trace := by
  have hd := dispatch_uid_mismatch r (r.syncContext (fromDeleteRequest origReq).1
    (fromDeleteRequest origReq).2) vObj pObj w3 hopt hset hne
  have hs : pObj.DeletionTimestamp.isSome = true := by
    cases hD : pObj.DeletionTimestamp with
    | none => exact absurd hD hterm
    | some t => rfl
  simp only [hs, if_true] at hd
  constructor
  · rw [Reconcile_of_Fetches r origReq w vReq _ _ w3 h, hd]
    rfl
  · rw [Reconcile_trace_of_Fetches r origReq w vReq _ _ w3 h, hd,
      ← Fetches_dispatch r origReq w vReq _ _ w3 h]

/-- C9, witness: as scenario S3, with a host secret that is terminating. -/
theorem reconcile_uid_mismatch_terminating_requeues_witness :
    (mockController false).Fetches ⟨"default", "a"⟩
        (fakeWorld [managedSecret "A" (some 5)] [secretA]) ⟨"default", "a"⟩
        (some secretA) (some (managedSecret "A" (some 5)))
        { state := { physical := [managedSecret "A" (some 5)], virtual := [secretA] }
          locked := ["default/a"]
          trace := [Call.Lock "default/a", Call.VirtualGet ⟨"default", "a"⟩,
            Call.PhysicalGet ⟨"test", "a-x-default-x-suffix"⟩,
            Call.IsManaged (managedSecret "A" (some 5)) true none] }
      ∧ ((mockController false).Reconcile ⟨"default", "a"⟩
          (fakeWorld [managedSecret "A" (some 5)] [secretA])).1
          = some ({ Requeue := false, RequeueAfter := 1000000000 }, none)
      ∧ ((mockController false).Reconcile ⟨"default", "a"⟩
          (fakeWorld [managedSecret "A" (some 5)] [secretA])).2.state.physical
          = [managedSecret "A" (some 5)]
      ∧ dispatchCalls ((mockController false).Reconcile ⟨"default", "a"⟩
          (fakeWorld [managedSecret "A" (some 5)] [secretA])).2.trace = [] :=
  have hF : (mockController false).Fetches ⟨"default", "a"⟩
      (fakeWorld [managedSecret "A" (some 5)] [secretA]) ⟨"default", "a"⟩
      (some secretA) (some (managedSecret "A" (some 5)))
      { state := { physical := [managedSecret "A" (some 5)], virtual := [secretA] }
        locked := ["default/a"]
        trace := [Call.Lock "default/a", Call.VirtualGet ⟨"default", "a"⟩,
          Call.PhysicalGet ⟨"test", "a-x-default-x-suffix"⟩,
          Call.IsManaged (managedSecret "A" (some 5)) true none] } :=
    ⟨⟨"", ""⟩, fakeWorld [managedSecret "A" (some 5)] [secretA], _, _, rfl, by decide, rfl, rfl,
      rfl⟩
  have hT := reconcile_uid_mismatch_terminating_requeues (mockController false)
    ⟨"default", "a"⟩ (fakeWorld [managedSecret "A" (some 5)] [secretA]) ⟨"default", "a"⟩ secretA
    (managedSecret "A" (some 5)) _ hF rfl (by decide) (by decide) (by decide)
  ⟨hF, congrArg (fun x => x.1) hT.1, congrArg (fun x => x.2.state.physical) hT.1, hT.2⟩

/-- C10: when the fetch returns both objects, the one dispatch call of the run
is `Sync` on the host object and the virtual object if and only if
`DisableUIDDeletion` is true, or the uid-annotation of the host object is
absent or empty, or it equals the UID of the virtual object; and in that case
`Reconcile` calls `Sync` in the cluster state the fetch left: it returns the
result and error of `Sync` unchanged, and the world after the run is the one
that call left (the cluster state `Sync` wrote, the call recorded) followed by
the deferred `ReconcileEnd` and `Unlock`; so for a syncer that is no `Starter`
the cluster state after the run is the one `Sync` wrote. -/
theorem reconcile_calls_Sync_iff {σ : Type} (r : SyncController σ) (origReq : Request)
    (w : World σ) (vReq : Request) (vObj pObj : Object) (w3 : World σ)
    (h : r.Fetches origReq w vReq (some vObj) (some pObj) w3) :
    (Call.Sync (r.syncContext (fromDeleteRequest origReq).1
            (fromDeleteRequest origReq).2).EventSource (fromDeleteRequest origReq).2 pObj vObj
          ∈ (dispatchCalls (r.Reconcile origReq w).2.trace).drop (dispatchCalls w.trace).length
        ↔ (r.options.DisableUIDDeletion = true
            ∨ mapIndex pObj.Annotations r.translate.UIDAnnotation = ""
            ∨ mapIndex pObj.Annotations r.translate.UIDAnnotation = vObj.UID))
      ∧ ((r.options.DisableUIDDeletion = true
            ∨ mapIndex pObj.Annotations r.translate.UIDAnnotation = ""
            ∨ mapIndex pObj.Annotations r.translate.UIDAnnotation = vObj.UID) →
          r.Reconcile origReq w
              = (some (r.syncer.Sync (r.syncContext (fromDeleteRequest origReq).1
                  (fromDeleteRequest origReq).2) pObj vObj w3.state).1,
                (r.reconcileEnd
                  { state := (r.syncer.Sync (r.syncContext (fromDeleteRequest origReq).1
                      (fromDeleteRequest origReq).2) pObj vObj w3.state).2
                    locked := w3.locked
                    trace := w3.trace
                      ++ [Call.Sync (r.syncContext (fromDeleteRequest origReq).1
                            (fromDeleteRequest origReq).2).EventSource
                          (fromDeleteRequest origReq).2 pObj vObj] }).Unlock vReq.String)
            ∧ (r.syncer.starter = none →
                (r.Reconcile origReq w).2.state
                  = (r.syncer.Sync (r.syncContext (fromDeleteRequest origReq).1
                      (fromDeleteRequest origReq).2) pObj vObj w3.state).2)
            ∧ dispatchCalls (r.Reconcile origReq w).2.trace
              = dispatchCalls w.trace
                ++ [Call.Sync (r.syncContext (fromDeleteRequest origReq).1
                      (fromDeleteRequest origReq).2).EventSource
                    (fromDeleteRequest origReq).2 pObj vObj]) := by
  have hR := Reconcile_of_Fetches r origReq w vReq _ _ w3 h
  have hT := Reconcile_trace_of_Fetches r origReq w vReq _ _ w3 h
  have hF := Fetches_dispatch r origReq w vReq _ _ w3 h
  have hyes : (r.options.DisableUIDDeletion = true
        ∨ mapIndex pObj.Annotations r.translate.UIDAnnotation = ""
        ∨ mapIndex pObj.Annotations r.translate.UIDAnnotation = vObj.UID) →
      r.Reconcile origReq w
          = (some (r.syncer.Sync (r.syncContext (fromDeleteRequest origReq).1
              (fromDeleteRequest origReq).2) pObj vObj w3.state).1,
            (r.reconcileEnd
              { state := (r.syncer.Sync (r.syncContext (fromDeleteRequest origReq).1
                  (fromDeleteRequest origReq).2) pObj vObj w3.state).2
                locked := w3.locked
                trace := w3.trace
                  ++ [Call.Sync (r.syncContext (fromDeleteRequest origReq).1
                        (fromDeleteRequest origReq).2).EventSource
                      (fromDeleteRequest origReq).2 pObj vObj] }).Unlock vReq.String)
        ∧ (r.syncer.starter = none →
            (r.Reconcile origReq w).2.state
              = (r.syncer.Sync (r.syncContext (fromDeleteRequest origReq).1
                  (fromDeleteRequest origReq).2) pObj vObj w3.state).2)
        ∧ dispatchCalls (r.Reconcile origReq w).2.trace
          = dispatchCalls w.trace
            ++ [Call.Sync (r.syncContext (fromDeleteRequest origReq).1
                  (fromDeleteRequest origReq).2).EventSource
                (fromDeleteRequest origReq).2 pObj vObj] := by
    intro hc
    have hd := dispatch_uid_ok r (r.syncContext (fromDeleteRequest origReq).1
      (fromDeleteRequest origReq).2) vObj pObj w3 hc
    refine ⟨?_, ?_, ?_⟩
    · rw [hR, hd]
      rfl
    · intro hs
      rw [hR, hd]
      simp [SyncController.reconcileEnd, hs, World.Unlock, World.invoke]
    · rw [hT, hd, ← hF]
      simp [World.invoke, dispatchCalls, Call.isDispatch, SyncController.syncContext]
  refine ⟨⟨?_, ?_⟩, hyes⟩
  · intro hmem
    by_contra hc
    push_neg at hc
    obtain ⟨h1, h2, h3⟩ := hc
    have hd := dispatch_uid_mismatch r (r.syncContext (fromDeleteRequest origReq).1
      (fromDeleteRequest origReq).2) vObj pObj w3 (by simpa using h1) h2 h3
    rw [hT, hd] at hmem
    by_cases hs : pObj.DeletionTimestamp.isSome = true
    · simp [hs, hF] at hmem
    · simp only [hs, Bool.false_eq_true, if_false] at hmem
      rw [show DeleteHostObject (r.syncContext (fromDeleteRequest origReq).1
          (fromDeleteRequest origReq).2) pObj "virtual object uid is different" w3
          = deleteObject _ pObj _ false w3 from rfl, deleteObject_dispatch, hF] at hmem
      simp at hmem
  · intro hc
    rw [(hyes hc).2.2]
    simp

/-- C10, witness: the managed host secret carries the uid-annotation `123`,
the UID of the virtual secret; `Sync` is called, and after the run the host
secret carries what the `Sync` of this syncer wrote, the UID `123`. -/
theorem reconcile_calls_Sync_iff_witness :
    writingController.Fetches ⟨"default", "a"⟩
        (fakeWorld [managedSecret "123" none] [secretA]) ⟨"default", "a"⟩
        (some secretA) (some (managedSecret "123" none))
        { state := { physical := [managedSecret "123" none], virtual := [secretA] }
          locked := ["default/a"]
          trace := [Call.Lock "default/a", Call.VirtualGet ⟨"default", "a"⟩,
            Call.PhysicalGet ⟨"test", "a-x-default-x-suffix"⟩,
            Call.IsManaged (managedSecret "123" none) true none] }
      ∧ (writingController.Reconcile ⟨"default", "a"⟩
          (fakeWorld [managedSecret "123" none] [secretA])).1 = some (Result.empty, none)
      ∧ (writingController.Reconcile ⟨"default", "a"⟩
          (fakeWorld [managedSecret "123" none] [secretA])).2.state
          = { physical := [{ managedSecret "123" none with UID := "123" }],
              virtual := [secretA] }
      ∧ dispatchCalls (writingController.Reconcile ⟨"default", "a"⟩
          (fakeWorld [managedSecret "123" none] [secretA])).2.trace
          = [Call.Sync EventSource.EventSourceVirtual false (managedSecret "123" none) secretA] :=
  have hF : writingController.Fetches ⟨"default", "a"⟩
      (fakeWorld [managedSecret "123" none] [secretA]) ⟨"default", "a"⟩
      (some secretA) (some (managedSecret "123" none))
      { state := { physical := [managedSecret "123" none], virtual := [secretA] }
        locked := ["default/a"]
        trace := [Call.Lock "default/a", Call.VirtualGet ⟨"default", "a"⟩,
          Call.PhysicalGet ⟨"test", "a-x-default-x-suffix"⟩,
          Call.IsManaged (managedSecret "123" none) true none] } :=
    ⟨⟨"", ""⟩, fakeWorld [managedSecret "123" none] [secretA], _, _, rfl, by decide, rfl, rfl,
      rfl⟩
  have hT := (reconcile_calls_Sync_iff writingController ⟨"default", "a"⟩
    (fakeWorld [managedSecret "123" none] [secretA]) ⟨"default", "a"⟩ secretA
    (managedSecret "123" none) _ hF).2 (Or.inr (Or.inr (by decide)))
  ⟨hF, congrArg (fun x => x.1) hT.1, hT.2.1 rfl, hT.2.2⟩

/-! ## The host-only branch: claims C11 and C12 -/

/-- C11: when the fetch returns no virtual object and a host object that
carries the skip-back-sync annotation with the value `true`, `Reconcile`
returns the empty result and no error; after the fetch it makes no call but
the deferred ones, so the host object is not deleted and `SyncToVirtual` is
not called, whether or not the syncer implements `ToVirtualSyncer`. -/
theorem reconcile_skip_back_sync {σ : Type} (r : SyncController σ) (origReq : Request)
    (w : World σ) (vReq : Request) (pObj : Object) (w3 : World σ)
    (h : r.Fetches origReq w vReq none (some pObj) w3)
    (hskip : mapIndexOk pObj.Annotations r.translate.SkipBackSyncInMultiNamespaceMode
      = ("true", true)) :
    r.Reconcile origReq w
        = (some (Result.empty, none), (r.reconcileEnd w3).Unlock vReq.String)
      ∧ dispatchCalls (r.Reconcile origReq w).2.trace = dispatchCalls w.trace := by
  have hd := dispatch_skip r (r.syncContext (fromDeleteRequest origReq).1
    (fromDeleteRequest origReq).2) pObj w3 hskip
  constructor
  · rw [Reconcile_of_Fetches r origReq w vReq _ _ w3 h, hd]
  · rw [Reconcile_trace_of_Fetches r origReq w vReq _ _ w3 h, hd,
      ← Fetches_dispatch r origReq w vReq _ _ w3 h]

/-- C11, witness: the virtual secret is gone, the managed host secret carries
skip-back-sync = `true`, and the syncer implements `ToVirtualSyncer`: nothing
is called and the host secret stays. -/
theorem reconcile_skip_back_sync_witness :
    toVirtualController.Fetches ⟨"default", "a"⟩ (fakeWorld [skipSecret] []) ⟨"default", "a"⟩
        none (some skipSecret)
        { state := { physical := [skipSecret], virtual := [] }
          locked := ["default/a"]
          trace := [Call.Lock "default/a", Call.VirtualGet ⟨"default", "a"⟩,
            Call.PhysicalGet ⟨"test", "a-x-default-x-suffix"⟩,
            Call.IsManaged skipSecret true none] }
      ∧ (toVirtualController.Reconcile ⟨"default", "a"⟩ (fakeWorld [skipSecret] [])).1
          = some (Result.empty, none)
      ∧ (toVirtualController.Reconcile ⟨"default", "a"⟩
          (fakeWorld [skipSecret] [])).2.state.physical = [skipSecret]
      ∧ dispatchCalls (toVirtualController.Reconcile ⟨"default", "a"⟩
          (fakeWorld [skipSecret] [])).2.trace = [] :=
  have hF : toVirtualController.Fetches ⟨"default", "a"⟩ (fakeWorld [skipSecret] [])
      ⟨"default", "a"⟩ none (some skipSecret)
      { state := { physical := [skipSecret], virtual := [] }
        locked := ["default/a"]
        trace := [Call.Lock "default/a", Call.VirtualGet ⟨"default", "a"⟩,
          Call.PhysicalGet ⟨"test", "a-x-default-x-suffix"⟩,
          Call.IsManaged skipSecret true none] } :=
    ⟨⟨"", ""⟩, fakeWorld [skipSecret] [], _, _, rfl, by decide, rfl, rfl, rfl⟩
  have hT := reconcile_skip_back_sync toVirtualController ⟨"default", "a"⟩
    (fakeWorld [skipSecret] []) ⟨"default", "a"⟩ skipSecret _ hF (by decide)
  ⟨hF, congrArg (fun x => x.1) hT.1, congrArg (fun x => x.2.state.physical) hT.1, hT.2⟩

/-- C12: when the fetch returns no virtual object and a host object that does
not carry skip-back-sync = `true`: if the syncer implements `ToVirtualSyncer`,
`Reconcile` calls `SyncToVirtual` on the host object in the cluster state the
fetch left: it returns its result and error, the world after the run is the
one that call left (the cluster state `SyncToVirtual` wrote, the call
recorded) followed by the deferred `ReconcileEnd` and `Unlock`, and that call
is the only dispatch call of the run (no delete); otherwise `Reconcile` is
`DeleteHostObject` on the host object with the reason "virtual object was
deleted" (followed by the deferred calls) and the delete of the host object is
the only dispatch call of the run.  In both cases exactly one of the two
happens. -/
theorem reconcile_host_only_dispatch {σ : Type} (r : SyncController σ) (origReq : Request)
    (w : World σ) (vReq : Request) (pObj : Object) (w3 : World σ)
    (h : r.Fetches origReq w vReq none (some pObj) w3)
    (hskip : mapIndexOk pObj.Annotations r.translate.SkipBackSyncInMultiNamespaceMode
      ≠ ("true", true)) :
    (∀ SyncToVirtual, r.syncer.toVirtualSyncer = some SyncToVirtual →
        r.Reconcile origReq w
            = (some (SyncToVirtual (r.syncContext (fromDeleteRequest origReq).1
                (fromDeleteRequest origReq).2) pObj w3.state).1,
              (r.reconcileEnd
                { state := (SyncToVirtual (r.syncContext (fromDeleteRequest origReq).1
                    (fromDeleteRequest origReq).2) pObj w3.state).2
                  locked := w3.locked
                  trace := w3.trace
                    ++ [Call.SyncToVirtual (r.syncContext (fromDeleteRequest origReq).1
                          (fromDeleteRequest origReq).2).EventSource
                        (fromDeleteRequest origReq).2 pObj] }).Unlock vReq.String)
          ∧ (r.syncer.starter = none →
              (r.Reconcile origReq w).2.state
                = (SyncToVirtual (r.syncContext (fromDeleteRequest origReq).1
                    (fromDeleteRequest origReq).2) pObj w3.state).2)
          ∧ dispatchCalls (r.Reconcile origReq w).2.trace
            = dispatchCalls w.trace
              ++ [Call.SyncToVirtual (r.syncContext (fromDeleteRequest origReq).1
                    (fromDeleteRequest origReq).2).EventSource
                  (fromDeleteRequest origReq).2 pObj])
      ∧ (r.syncer.toVirtualSyncer = none →
        r.Reconcile origReq w
            = (some (DeleteHostObject (r.syncContext (fromDeleteRequest origReq).1
                  (fromDeleteRequest origReq).2) pObj "virtual object was deleted" w3).1,
                (r.reconcileEnd (DeleteHostObject (r.syncContext (fromDeleteRequest origReq).1
                  (fromDeleteRequest origReq).2) pObj "virtual object was deleted" w3).2).Unlock
                  vReq.String)
          ∧ dispatchCalls (r.Reconcile origReq w).2.trace
            = dispatchCalls w.trace ++ [Call.Delete false pObj]) := by
  have hd := dispatch_no_skip r (r.syncContext (fromDeleteRequest origReq).1
    (fromDeleteRequest origReq).2) pObj w3 hskip
  have hR := Reconcile_of_Fetches r origReq w vReq _ _ w3 h
  have hT := Reconcile_trace_of_Fetches r origReq w vReq _ _ w3 h
  have hF := Fetches_dispatch r origReq w vReq _ _ w3 h
  constructor
  · intro f hf
    simp only [hf] at hd
    refine ⟨?_, ?_, ?_⟩
    · rw [hR, hd]
      rfl
    · intro hs
      rw [hR, hd]
      simp [SyncController.reconcileEnd, hs, World.Unlock, World.invoke]
    · rw [hT, hd, ← hF]
      simp [World.invoke, dispatchCalls, Call.isDispatch, SyncController.syncContext]
  · intro hn
    simp only [hn] at hd
    constructor
    · rw [hR, hd]
    · rw [hT, hd, ← hF]
      exact deleteObject_dispatch _ pObj _ false w3

/-- C12, witness: the virtual secret is gone and the managed host secret has
no skip-back-sync annotation.  With a syncer that implements `ToVirtualSyncer`
the one dispatch call is `SyncToVirtual`, the host secret stays and the
virtual cluster holds the secret that `SyncToVirtual` created; with the mock
syncer, which does not implement it, the host secret is deleted. -/
theorem reconcile_host_only_dispatch_witness :
    (dispatchCalls (writingController.Reconcile ⟨"default", "a"⟩
          (fakeWorld [managedSecret "123" none] [])).2.trace
        = [Call.SyncToVirtual EventSource.EventSourceVirtual false (managedSecret "123" none)])
      ∧ (writingController.Reconcile ⟨"default", "a"⟩
          (fakeWorld [managedSecret "123" none] [])).2.state
          = { physical := [managedSecret "123" none],
              virtual := [{ secretA with UID := "" }] }
      ∧ ((mockController false).Reconcile ⟨"default", "a"⟩
          (fakeWorld [managedSecret "123" none] [])).2.state.physical = []
      ∧ dispatchCalls ((mockController false).Reconcile ⟨"default", "a"⟩
          (fakeWorld [managedSecret "123" none] [])).2.trace
          = [Call.Delete false (managedSecret "123" none)] :=
  have hF1 : writingController.Fetches ⟨"default", "a"⟩
      (fakeWorld [managedSecret "123" none] []) ⟨"default", "a"⟩ none
      (some (managedSecret "123" none))
      { state := { physical := [managedSecret "123" none], virtual := [] }
        locked := ["default/a"]
        trace := [Call.Lock "default/a", Call.VirtualGet ⟨"default", "a"⟩,
          Call.PhysicalGet ⟨"test", "a-x-default-x-suffix"⟩,
          Call.IsManaged (managedSecret "123" none) true none] } :=
    ⟨⟨"", ""⟩, fakeWorld [managedSecret "123" none] [], _, _, rfl, by decide, rfl, rfl, rfl⟩
  have hF2 : (mockController false).Fetches ⟨"default", "a"⟩
      (fakeWorld [managedSecret "123" none] []) ⟨"default", "a"⟩ none
      (some (managedSecret "123" none))
      { state := { physical := [managedSecret "123" none], virtual := [] }
        locked := ["default/a"]
        trace := [Call.Lock "default/a", Call.VirtualGet ⟨"default", "a"⟩,
          Call.PhysicalGet ⟨"test", "a-x-default-x-suffix"⟩,
          Call.IsManaged (managedSecret "123" none) true none] } :=
    ⟨⟨"", ""⟩, fakeWorld [managedSecret "123" none] [], _, _, rfl, by decide, rfl, rfl, rfl⟩
  have hT1 := (reconcile_host_only_dispatch writingController ⟨"default", "a"⟩
    (fakeWorld [managedSecret "123" none] []) ⟨"default", "a"⟩ (managedSecret "123" none) _ hF1
    (by decide)).1 _ rfl
  have hT2 := (reconcile_host_only_dispatch (mockController false) ⟨"default", "a"⟩
    (fakeWorld [managedSecret "123" none] []) ⟨"default", "a"⟩ (managedSecret "123" none) _ hF2
    (by decide)).2 rfl
  ⟨hT1.2.2, hT1.2.1 rfl, congrArg (fun x => x.2.state.physical) hT2.1, hT2.2⟩

/-! ## Prologue and epilogue of `Reconcile`: claims C13 to C15 -/

/-- C13: a host-tagged request whose derived virtual identity is empty, that
is, the fetch of the host object in `extractRequest` reports no error and
either excludes the object or `HostToVirtual` returns an empty name.  Then
`Reconcile` returns the empty result and no error in the world the fetch left:
the cluster state and the held keys are unchanged, and the run makes no call
but reads (`Get`, `IsManaged`): no `Lock`, no `ReconcileStart`, no transition
hook, no delete and no event. -/
theorem reconcile_empty_virtual_identity {σ : Type} (r : SyncController σ)
    (origReq : Request) (w w1 : World σ) (exclude : Bool) (pObj : Option Object)
    (hhost : isHostRequest (fromDeleteRequest origReq).1 = true)
    (hget : r.getPhysicalObject (fromHostRequest (fromDeleteRequest origReq).1) none w
      = ((exclude, pObj, none), w1))
    (hempty : exclude = true
      ∨ (r.syncer.HostToVirtual w1.state (fromHostRequest (fromDeleteRequest origReq).1)
          pObj).Name = "") :
    r.Reconcile origReq w = (some (Result.empty, none), w1)
      ∧ w1.state = w.state
      ∧ w1.locked = w.locked
      ∧ effectCalls w1.trace = effectCalls w.trace := by
  have hf := getPhysicalObject_frame r (fromHostRequest (fromDeleteRequest origReq).1) none w
  have he := getPhysicalObject_filter r (fromHostRequest (fromDeleteRequest origReq).1) none w
    (fun c => !c.isRead) (fun c h => by
      rcases h with h | ⟨h, _⟩
      · simp [h]
      · exact absurd h (by decide))
  rw [hget] at hf he
  refine ⟨?_, hf.1, hf.2.1, he⟩
  cases exclude with
  | true => simp [SyncController.Reconcile, SyncController.extractRequest, hhost, hget]
  | false =>
    have hn : (r.syncer.HostToVirtual w1.state (fromHostRequest (fromDeleteRequest origReq).1)
        pObj).Name = "" := by
      rcases hempty with h | h
      · exact absurd h (by decide)
      · exact h
    simp [SyncController.Reconcile, SyncController.extractRequest, hhost, hget, hn]

/-- C13, witness: a host-tagged request for a host secret that does not exist;
the mock syncer maps a missing host object to the empty identity. -/
theorem reconcile_empty_virtual_identity_witness :
    (mockController false).Reconcile ⟨"host#test", "missing"⟩ (fakeWorld [] [secretA])
      = (some (Result.empty, none),
          { state := { physical := [], virtual := [secretA] }, locked := [],
            trace := [Call.PhysicalGet ⟨"test", "missing"⟩] }) :=
  (reconcile_empty_virtual_identity (mockController false) ⟨"host#test", "missing"⟩
    (fakeWorld [] [secretA])
    { state := { physical := [], virtual := [secretA] }, locked := [],
      trace := [Call.PhysicalGet ⟨"test", "missing"⟩] }
    false none rfl rfl (Or.inr rfl)).1

/-- C14: in every run of `Reconcile`, either no `Starter` call is made, or the
run returns and its `Starter` calls are exactly one `ReconcileStart` followed
by one `ReconcileEnd`.  And when the syncer is a `Starter` whose
`ReconcileStart` returns skip = true or an error, `Reconcile` returns the empty
result with that error unchanged, and after `ReconcileStart` it makes only the
deferred `ReconcileEnd` and `Unlock`: no object is fetched and no transition
hook is called. -/
theorem starter_lifecycle {σ : Type} (r : SyncController σ) (origReq : Request)
    (w : World σ) :
    (lifecycleCalls (r.Reconcile origReq w).2.trace = lifecycleCalls w.trace
        ∨ ∃ (source : EventSource) (isDelete : Bool) (req : Request),
            (r.Reconcile origReq w).1.isSome = true
            ∧ lifecycleCalls (r.Reconcile origReq w).2.trace
              = lifecycleCalls w.trace
                ++ [Call.ReconcileStart source isDelete req, Call.ReconcileEnd])
      ∧ (∀ (lifecycle : Starter σ) (vReq pReq : Request) (w1 wl : World σ),
          r.syncer.starter = some lifecycle →
          r.extractRequest (fromDeleteRequest origReq).1 w = ((vReq, pReq, none), w1) →
          vReq.Name ≠ "" →
          w1.Lock vReq.String = some wl →
          ((lifecycle.ReconcileStart (r.syncContext (fromDeleteRequest origReq).1
                (fromDeleteRequest origReq).2) vReq wl.state).1.1 = true
            ∨ (lifecycle.ReconcileStart (r.syncContext (fromDeleteRequest origReq).1
                (fromDeleteRequest origReq).2) vReq wl.state).1.2 ≠ none) →
          r.Reconcile origReq w
            = (some (Result.empty,
                  (lifecycle.ReconcileStart (r.syncContext (fromDeleteRequest origReq).1
                    (fromDeleteRequest origReq).2) vReq wl.state).1.2),
                { state := lifecycle.ReconcileEnd
                    (lifecycle.ReconcileStart (r.syncContext (fromDeleteRequest origReq).1
                      (fromDeleteRequest origReq).2) vReq wl.state).2
                  locked := wl.locked.erase vReq.String
                  trace := wl.trace
                    ++ [Call.ReconcileStart (r.syncContext (fromDeleteRequest origReq).1
                          (fromDeleteRequest origReq).2).EventSource
                        (fromDeleteRequest origReq).2 vReq,
                      Call.ReconcileEnd, Call.Unlock vReq.String] })) := by
  constructor
  · rcases (Reconcile_control r origReq w).2 with h | ⟨key, _, _, h⟩ | ⟨key, s, d, q, hs, _, h⟩
    · left
      rw [lifecycleCalls_of_controlCalls, h, ← lifecycleCalls_of_controlCalls]
    · left
      rw [lifecycleCalls_of_controlCalls, h, List.filter_append,
        ← lifecycleCalls_of_controlCalls]
      simp [Call.isLifecycle]
    · right
      refine ⟨s, d, q, hs, ?_⟩
      rw [lifecycleCalls_of_controlCalls, h, List.filter_append,
        ← lifecycleCalls_of_controlCalls]
      simp [Call.isLifecycle]
  · intro lifecycle vReq pReq w1 wl hs hx hname hlock hskip
    have hc : ((lifecycle.ReconcileStart (r.syncContext (fromDeleteRequest origReq).1
          (fromDeleteRequest origReq).2) vReq wl.state).1.1
        || (lifecycle.ReconcileStart (r.syncContext (fromDeleteRequest origReq).1
          (fromDeleteRequest origReq).2) vReq wl.state).1.2.isSome) = true := by
      rcases hskip with h | h
      · simp [h]
      · simp [Option.isSome_iff_ne_none, h]
    simp only [SyncController.Reconcile, hx, hname, hlock, SyncController.reconcileStart, hs,
      World.invoke, hc, SyncController.reconcileEnd, World.Unlock, if_true, if_false]
    simp [SyncController.syncContext]

/-- C14, witness: a syncer whose `ReconcileStart` skips: the run is the lock,
the pre-hook, the post-hook and the unlock, and nothing is fetched. -/
theorem starter_lifecycle_witness :
    (starterController true).Reconcile ⟨"default", "a"⟩ (fakeWorld [] [secretA])
      = (some (Result.empty, none),
          { state := { physical := [], virtual := [secretA] }, locked := [],
            trace := [Call.Lock "default/a",
              Call.ReconcileStart EventSource.EventSourceVirtual false ⟨"default", "a"⟩,
              Call.ReconcileEnd, Call.Unlock "default/a"] }) :=
  (starter_lifecycle (starterController true) ⟨"default", "a"⟩ (fakeWorld [] [secretA])).2
    { ReconcileStart := fun _ _ s => ((true, none), s), ReconcileEnd := fun s => s }
    ⟨"default", "a"⟩ ⟨"", ""⟩ (fakeWorld [] [secretA])
    { state := { physical := [], virtual := [secretA] }, locked := ["default/a"],
      trace := [Call.Lock "default/a"] }
    rfl rfl (by decide) rfl (Or.inl rfl)

/-- C15: with the lock table as explicit state, the keys held after a run of
`Reconcile` are the keys held before it, whatever the clients and the syncer
hooks return; and the locker calls of the run are either none, or the run
returns and they are `Lock key` followed by `Unlock key` for one and the same
key. -/
theorem lock_released_on_every_exit {σ : Type} (r : SyncController σ) (origReq : Request)
    (w : World σ) :
    (r.Reconcile origReq w).2.locked = w.locked
      ∧ (lockCalls (r.Reconcile origReq w).2.trace = lockCalls w.trace
        ∨ ∃ key : String, (r.Reconcile origReq w).1.isSome = true
            ∧ lockCalls (r.Reconcile origReq w).2.trace
              = lockCalls w.trace ++ [Call.Lock key, Call.Unlock key]) := by
  refine ⟨(Reconcile_control r origReq w).1, ?_⟩
  rcases (Reconcile_control r origReq w).2 with h | ⟨key, hs, _, h⟩ | ⟨key, s, d, q, hs, _, h⟩
  · left
    rw [lockCalls_of_controlCalls, h, ← lockCalls_of_controlCalls]
  · right
    refine ⟨key, hs, ?_⟩
    rw [lockCalls_of_controlCalls, h, List.filter_append, ← lockCalls_of_controlCalls]
    simp [Call.isLock]
  · right
    refine ⟨key, hs, ?_⟩
    rw [lockCalls_of_controlCalls, h, List.filter_append, ← lockCalls_of_controlCalls]
    simp [Call.isLock]

/-! ## The enqueue policies: claims C17 to C19 -/

/-- C17: for a virtual object `obj`, `enqueueVirtual` with `isDelete = true`
adds to the queue, in this order, `toDeleteRequest (toHostRequest h)` for the
host identity `h = VirtualToHost (identity obj) obj` when the name of `h` is
not empty, and then `toDeleteRequest` of the identity of `obj`; it adds nothing
else, so the virtual-side delete request is always the last one added. -/
theorem enqueueVirtual_on_delete {σ : Type} (r : SyncController σ) (state : σ)
    (obj : Object) (q : List Request) :
    r.enqueueVirtual state (some obj) q true
        = q
          ++ (if (r.syncer.VirtualToHost state ⟨obj.Namespace, obj.Name⟩ (some obj)).Name ≠ ""
              then [toDeleteRequest (toHostRequest
                (r.syncer.VirtualToHost state ⟨obj.Namespace, obj.Name⟩ (some obj)))]
              else [])
          ++ [toDeleteRequest ⟨obj.Namespace, obj.Name⟩]
      ∧ (r.enqueueVirtual state (some obj) q true).getLast?
        = some ⟨"delete#" ++ obj.Namespace, obj.Name⟩ := by
  have h1 : r.enqueueVirtual state (some obj) q true
      = q
        ++ (if (r.syncer.VirtualToHost state ⟨obj.Namespace, obj.Name⟩ (some obj)).Name ≠ ""
            then [toDeleteRequest (toHostRequest
              (r.syncer.VirtualToHost state ⟨obj.Namespace, obj.Name⟩ (some obj)))]
            else [])
        ++ [toDeleteRequest ⟨obj.Namespace, obj.Name⟩] := by
    simp only [SyncController.enqueueVirtual, if_true]
    split <;> simp
  refine ⟨h1, ?_⟩
  rw [h1]
  simp [toDeleteRequest, deleteObjectRequestPrefix]

/-- C17, witness: the delete of the virtual secret `default/a` adds the host
delete request and then the virtual delete request. -/
theorem enqueueVirtual_on_delete_witness :
    (mockController false).enqueueVirtual { physical := [], virtual := [] } (some secretA) []
        true
      = [⟨"delete#host#test", "a-x-default-x-suffix"⟩, ⟨"delete#default", "a"⟩] :=
  (enqueueVirtual_on_delete (mockController false) { physical := [], virtual := [] } secretA
    []).1

/-- C18: for a host object `obj`, `enqueuePhysical` with `isDelete = true` adds
nothing when `IsManaged` fails or reports `false`; when `IsManaged` reports
`true` it adds `toDeleteRequest v` for the virtual identity
`v = HostToVirtual (identity obj) obj` when the name of `v` is not empty,
followed by `toDeleteRequest (toHostRequest (identity obj))`, and nothing
else. -/
theorem enqueuePhysical_on_delete {σ : Type} (r : SyncController σ) (state : σ)
    (obj : Object) (q : List Request) :
    (((r.syncer.IsManaged state obj).2 ≠ none ∨ (r.syncer.IsManaged state obj).1 = false) →
        r.enqueuePhysical state (some obj) q true = q)
      ∧ (r.syncer.IsManaged state obj = (true, none) →
        r.enqueuePhysical state (some obj) q true
          = q
            ++ (if (r.syncer.HostToVirtual state ⟨obj.Namespace, obj.Name⟩ (some obj)).Name ≠ ""
                then [toDeleteRequest
                  (r.syncer.HostToVirtual state ⟨obj.Namespace, obj.Name⟩ (some obj))]
                else [])
            ++ [toDeleteRequest (toHostRequest ⟨obj.Namespace, obj.Name⟩)]) := by
  constructor
  · intro h
    rcases hM : r.syncer.IsManaged state obj with ⟨m, e⟩
    rw [hM] at h
    cases e with
    | some err => simp [SyncController.enqueuePhysical, hM]
    | none =>
      have hm : m = false := by simpa using h
      simp [SyncController.enqueuePhysical, hM, hm]
  · intro hM
    simp only [SyncController.enqueuePhysical, hM, Bool.not_true, Bool.false_eq_true, if_false,
      if_true]
    split <;> simp

/-- C18, witness: the delete of the managed host secret of `default/a` adds the
virtual delete request and the host delete request; the delete of the
unmanaged host secret adds nothing. -/
theorem enqueuePhysical_on_delete_witness :
    (mockController false).enqueuePhysical { physical := [], virtual := [] }
        (some (managedSecret "123" none)) [] true
        = [⟨"delete#default", "a"⟩, ⟨"delete#host#test", "a-x-default-x-suffix"⟩]
      ∧ (mockController false).enqueuePhysical { physical := [], virtual := [] }
        (some foreignSecret) [] true = [] :=
  ⟨(enqueuePhysical_on_delete (mockController false) { physical := [], virtual := [] }
      (managedSecret "123" none) []).2 rfl,
    (enqueuePhysical_on_delete (mockController false) { physical := [], virtual := [] }
      foreignSecret []).1 (Or.inr rfl)⟩

/-- C19: for a host object `obj`, `enqueuePhysical` with `isDelete = false`
adds no request when `IsManaged` reports `false`, and adds exactly one request,
`toHostRequest` of the identity of `obj`, when `IsManaged` reports `true`. -/
theorem enqueuePhysical_on_update {σ : Type} (r : SyncController σ) (state : σ)
    (obj : Object) (q : List Request) :
    ((r.syncer.IsManaged state obj).1 = false →
        r.enqueuePhysical state (some obj) q false = q)
      ∧ (r.syncer.IsManaged state obj = (true, none) →
        r.enqueuePhysical state (some obj) q false
          = q ++ [⟨"host#" ++ obj.Namespace, obj.Name⟩]) := by
  constructor
  · intro h
    rcases hM : r.syncer.IsManaged state obj with ⟨m, e⟩
    rw [hM] at h
    simp only at h
    cases e with
    | some err => simp [SyncController.enqueuePhysical, hM]
    | none => simp [SyncController.enqueuePhysical, hM, h]
  · intro hM
    simp [SyncController.enqueuePhysical, hM, toHostRequest, hostObjectRequestPrefix]

/-- C19, witness: an update of the managed host secret adds its host request;
an update of the unmanaged host secret adds nothing. -/
theorem enqueuePhysical_on_update_witness :
    (mockController false).enqueuePhysical { physical := [], virtual := [] }
        (some (managedSecret "123" none)) [] false
        = [⟨"host#test", "a-x-default-x-suffix"⟩]
      ∧ (mockController false).enqueuePhysical { physical := [], virtual := [] }
        (some foreignSecret) [] false = [] :=
  ⟨(enqueuePhysical_on_update (mockController false) { physical := [], virtual := [] }
      (managedSecret "123" none) []).2 rfl,
    (enqueuePhysical_on_update (mockController false) { physical := [], virtual := [] }
      foreignSecret []).1 rfl⟩

/-! ## The virtual exclusion rule: claim C20 -/

/-- C20, counterexample: with a syncer that implements `ObjectExcluder` and
whose `ExcludeVirtual` says no, a virtual object that carries a non-empty
controller-label is not excluded by `excludeVirtual`, while the rule of the
specification excludes it. -/
theorem excludeVirtual_with_excluder_ignores_label :
    excluderController.excludeVirtual labelledSecret = false
      ∧ mapIndex labelledSecret.Labels excluderController.translate.ControllerLabel = "other"
      ∧ excludeVirtualSpec excluderController labelledSecret = true
      ∧ ¬ (excluderController.excludeVirtual labelledSecret = true
          ↔ excludeVirtualSpec excluderController labelledSecret = true) := by
  decide

/-- C20, as amended: if the syncer implements `ObjectExcluder`,
`excludeVirtual` returns what its `ExcludeVirtual` returns and consults neither
the label nor the annotation; if it does not, `excludeVirtual` returns true if
and only if the object carries the controller-annotation with a non-empty value
other than the name of this syncer, or carries a non-empty controller-label,
which is the rule of the specification. -/
theorem excludeVirtual_rule {σ : Type} (r : SyncController σ) (vObj : Object) :
    (∀ excluder : ObjectExcluder, r.syncer.objectExcluder = some excluder →
        r.excludeVirtual vObj = excluder.ExcludeVirtual vObj)
      ∧ (r.syncer.objectExcluder = none →
        ((r.excludeVirtual vObj = true
            ↔ ((mapIndex vObj.Annotations r.translate.ControllerLabel ≠ ""
                  ∧ mapIndex vObj.Annotations r.translate.ControllerLabel ≠ r.syncer.Name)
                ∨ mapIndex vObj.Labels r.translate.ControllerLabel ≠ ""))
          ∧ r.excludeVirtual vObj = excludeVirtualSpec r vObj)) := by
  constructor
  · intro e he
    simp [SyncController.excludeVirtual, he]
  · intro hn
    have hL : (vObj.Labels.isSome && mapIndex vObj.Labels r.translate.ControllerLabel != "")
        = (mapIndex vObj.Labels r.translate.ControllerLabel != "") := by
      cases hA : vObj.Labels with
      | none => simp [mapIndex_none]
      | some l => simp
    have hA : (vObj.Annotations.isSome
          && mapIndex vObj.Annotations r.translate.ControllerLabel != ""
          && mapIndex vObj.Annotations r.translate.ControllerLabel != r.syncer.Name)
        = (mapIndex vObj.Annotations r.translate.ControllerLabel != ""
          && mapIndex vObj.Annotations r.translate.ControllerLabel != r.syncer.Name) := by
      cases hA : vObj.Annotations with
      | none => simp [mapIndex_none]
      | some l => simp
    have hE : r.excludeVirtual vObj
        = ((mapIndex vObj.Labels r.translate.ControllerLabel != "")
          || (mapIndex vObj.Annotations r.translate.ControllerLabel != ""
            && mapIndex vObj.Annotations r.translate.ControllerLabel != r.syncer.Name)) := by
      simp only [SyncController.excludeVirtual, hn, hL, hA]
      by_cases h1 : (mapIndex vObj.Labels r.translate.ControllerLabel != "") = true
      · simp [h1]
      · by_cases h2 : (mapIndex vObj.Annotations r.translate.ControllerLabel != ""
            && mapIndex vObj.Annotations r.translate.ControllerLabel != r.syncer.Name) = true
        · simp [h1, h2]
        · simp [h1, h2]
    constructor
    · rw [hE]
      simp only [Bool.or_eq_true, Bool.and_eq_true, bne_iff_ne, ne_eq]
      exact Or.comm
    · rw [hE]
      simp only [excludeVirtualSpec, hn, Bool.false_or]
      exact Bool.or_comm _ _

/-- C20, witness: the mock syncer, which does not implement `ObjectExcluder`,
excludes the secret that carries the controller-label of another controller;
the syncer that implements it returns what `ExcludeVirtual` says. -/
theorem excludeVirtual_rule_witness :
    (mockController false).excludeVirtual labelledSecret = true
      ∧ excluderController.excludeVirtual labelledSecret = false :=
  ⟨((excludeVirtual_rule (mockController false) labelledSecret).2 rfl).1.mpr
      (Or.inr (by decide)),
    (excludeVirtual_rule excluderController labelledSecret).1
      { ExcludeVirtual := fun _ => false, ExcludePhysical := fun _ => false } rfl⟩

/-! ## The delete helpers: claim C21 -/

theorem deleteObject_result {σ : Type} (ctx : SyncContext σ) (obj : Object) (reason : String)
    (isVirtual : Bool) (w : World σ) :
    (deleteObject ctx obj reason isVirtual w).1
        = (Result.empty,
            swallowNotFound ((if isVirtual then ctx.VirtualClient
              else ctx.PhysicalClient).Delete w.state obj).1)
      ∧ (deleteObject ctx obj reason isVirtual w).2.state
        = ((if isVirtual then ctx.VirtualClient else ctx.PhysicalClient).Delete w.state obj).2 := by
  unfold deleteObject
  dsimp only
  have hs : (if obj.Namespace ≠ "" then
        w.emit (Call.Infof ("delete " ++ (if isVirtual then "virtual" else "host") ++ " "
          ++ obj.Namespace ++ "/" ++ obj.Name ++ ", because " ++ reason))
      else
        w.emit (Call.Infof ("delete " ++ (if isVirtual then "virtual" else "host") ++ " "
          ++ obj.Name ++ ", because " ++ reason))).state = w.state := by
    split <;> rfl
  split
  · rename_i err w1 heq
    have h1 := congrArg (fun x => x.1) heq
    have h2 := congrArg (fun x => x.2.state) heq
    simp only [World.invoke, hs] at h1 h2
    rw [h1, h2]
    split
    · rename_i hnf
      simp [swallowNotFound, hnf]
    · rename_i hnf
      split <;> simp [swallowNotFound, hnf, World.emit]
  · rename_i w1 heq
    have h1 := congrArg (fun x => x.1) heq
    have h2 := congrArg (fun x => x.2.state) heq
    simp only [World.invoke, hs] at h1 h2
    rw [h1, h2]
    simp [swallowNotFound]

/-- C21: for every object and reason, `DeleteHostObject` issues exactly one
`Delete`, on the physical client, and `DeleteVirtualObject` exactly one, on the
virtual client: it is the only dispatch call they add to the trace and the
cluster state they leave is the one that `Delete` left.  Both return the empty
result, with no error when the delete succeeds or fails with NotFound and with
the error of the delete unchanged otherwise. -/
theorem delete_helpers_swallow_NotFound {σ : Type} (ctx : SyncContext σ) (obj : Object)
    (reason : String) (w : World σ) :
    (dispatchCalls (DeleteHostObject ctx obj reason w).2.trace
          = dispatchCalls w.trace ++ [Call.Delete false obj]
        ∧ (DeleteHostObject ctx obj reason w).2.state = (ctx.PhysicalClient.Delete w.state obj).2
        ∧ (DeleteHostObject ctx obj reason w).1
          = (Result.empty, swallowNotFound (ctx.PhysicalClient.Delete w.state obj).1))
      ∧ (dispatchCalls (DeleteVirtualObject ctx obj reason w).2.trace
          = dispatchCalls w.trace ++ [Call.Delete true obj]
        ∧ (DeleteVirtualObject ctx obj reason w).2.state
          = (ctx.VirtualClient.Delete w.state obj).2
        ∧ (DeleteVirtualObject ctx obj reason w).1
          = (Result.empty, swallowNotFound (ctx.VirtualClient.Delete w.state obj).1)) := by
  have hh := deleteObject_result ctx obj reason false w
  have hv := deleteObject_result ctx obj reason true w
  simp only [Bool.false_eq_true, if_false, if_true] at hh hv
  exact ⟨⟨deleteObject_dispatch ctx obj reason false w, hh.2, hh.1⟩,
    ⟨deleteObject_dispatch ctx obj reason true w, hv.2, hv.1⟩⟩

/-! ## The lock key: claim C28 -/

/-- When the request decodes to the non-empty virtual identity `vReq` and the
key of `vReq` is free, the run returns and its locker calls are `Lock` and
`Unlock` on the string form of `vReq`. -/
theorem Reconcile_lock_key {σ : Type} (r : SyncController σ) (origReq : Request)
    (w w1 : World σ) (vReq pReq : Request)
    (hx : r.extractRequest (fromDeleteRequest origReq).1 w = ((vReq, pReq, none), w1))
    (hname : vReq.Name ≠ "") (hfree : vReq.String ∉ w.locked) :
    (r.Reconcile origReq w).1.isSome = true
      ∧ lockCalls (r.Reconcile origReq w).2.trace
        = lockCalls w.trace ++ [Call.Lock vReq.String, Call.Unlock vReq.String] := by
  have hf := extractRequest_frame r (fromDeleteRequest origReq).1 w
  have hfl := extractRequest_filter r (fromDeleteRequest origReq).1 w Call.isLock
    (fun c h => by cases c <;> simp_all [Call.isRead, Call.isLock])
  rw [hx] at hf hfl
  have hlock : w1.Lock vReq.String
      = some { w1 with locked := vReq.String :: w1.locked,
                       trace := w1.trace ++ [Call.Lock vReq.String] } := by
    simp only [World.Lock]
    rw [if_neg]
    rw [hf.2.1]
    exact hfree
  obtain ⟨ret, wb, hR, _, hbc⟩ := Reconcile_locked_run r origReq w w1 _ vReq pReq hx hname hlock
  rw [hR]
  refine ⟨rfl, ?_⟩
  have hb : lockCalls wb.trace = lockCalls w.trace ++ [Call.Lock vReq.String] := by
    rw [lockCalls_of_controlCalls, hbc, ← lockCalls_of_controlCalls]
    simp only [SyncController.reconcileStart]
    split
    · simp only [World.invoke, lockCalls, List.filter_append] at hfl ⊢
      rw [hfl]
      simp [Call.isLock]
    · simp only [lockCalls, List.filter_append] at hfl ⊢
      rw [hfl]
      simp [Call.isLock]
  simp only [World.Unlock, SyncController.reconcileEnd]
  split
  · simp only [World.invoke, lockCalls, List.filter_append] at hb ⊢
    rw [hb]
    simp [Call.isLock]
  · simp only [lockCalls, List.filter_append] at hb ⊢
    rw [hb]
    simp [Call.isLock]

/-- The decoding of a host-tagged request for a host object that the host
cluster holds, that is managed and that is not excluded. -/
theorem extractRequest_host {σ : Type} (r : SyncController σ) (w : World σ)
    (pObj : Object) (isDelete : Bool)
    (hpname : pObj.Name ≠ "")
    (hget : r.physicalClient.Get w.state ⟨pObj.Namespace, pObj.Name⟩ = Except.ok pObj)
    (hman : r.syncer.IsManaged w.state pObj = (true, none))
    (hex : (r.excludePhysical pObj none
        (w.emit (Call.PhysicalGet ⟨pObj.Namespace, pObj.Name⟩))).1.1 = false) :
    r.extractRequest
        (fromDeleteRequest (encodeRequest pObj.Namespace pObj.Name true isDelete)).1 w
      = ((r.syncer.HostToVirtual w.state ⟨pObj.Namespace, pObj.Name⟩ (some pObj),
          ⟨pObj.Namespace, pObj.Name⟩, none),
        { w with
          trace := w.trace ++ [Call.PhysicalGet ⟨pObj.Namespace, pObj.Name⟩,
            Call.IsManaged pObj true none] }) := by
  have hd : (fromDeleteRequest (encodeRequest pObj.Namespace pObj.Name true isDelete)).1
      = toHostRequest ⟨pObj.Namespace, pObj.Name⟩ := by
    cases isDelete
    · simp [encodeRequest, fromDeleteRequest_toHostRequest]
    · simp [encodeRequest, fromDeleteRequest_toDeleteRequest]
  have hxp : r.excludePhysical pObj none (w.emit (Call.PhysicalGet ⟨pObj.Namespace, pObj.Name⟩))
      = ((false, none),
        { w with
          trace := w.trace ++ [Call.PhysicalGet ⟨pObj.Namespace, pObj.Name⟩,
            Call.IsManaged pObj true none] }) := by
    revert hex
    simp only [SyncController.excludePhysical, hman, World.emit]
    simp only [Bool.not_true, Bool.false_eq_true, ↓reduceIte]
    split
    · intro h
      simp_all
    · split
      · simp
      · split <;> simp
  rw [hd]
  simp only [World.emit] at hxp
  simp [SyncController.extractRequest, isHostRequest_toHostRequest,
    fromHostRequest_toHostRequest, SyncController.getPhysicalObject, hpname, hget, hxp,
    World.emit]

/-- C28: let `v` be a virtual identity with a non-empty name (and a namespace
that starts with neither sentinel, as every Kubernetes namespace does), and let
`pObj` be a host object that the host cluster holds, that is managed and not
excluded, and that `HostToVirtual` maps to `v`.  For each of the requests `v`,
`toDeleteRequest v`, `toHostRequest (identity pObj)` and
`toDeleteRequest (toHostRequest (identity pObj))`, `Reconcile` decodes the
request to `v`, and, the key being free, returns with `Lock` and `Unlock` on
the string form of `v` as its locker calls. -/
theorem lock_key_is_virtual_identity {σ : Type} (r : SyncController σ) (w : World σ)
    (v : Request) (pObj : Object)
    (hname : v.Name ≠ "")
    (hh : strings.HasPrefix v.Namespace hostObjectRequestPrefix = false)
    (hd : strings.HasPrefix v.Namespace deleteObjectRequestPrefix = false)
    (hfree : v.String ∉ w.locked)
    (hpname : pObj.Name ≠ "")
    (hget : r.physicalClient.Get w.state ⟨pObj.Namespace, pObj.Name⟩ = Except.ok pObj)
    (hman : r.syncer.IsManaged w.state pObj = (true, none))
    (hex : (r.excludePhysical pObj none
        (w.emit (Call.PhysicalGet ⟨pObj.Namespace, pObj.Name⟩))).1.1 = false)
    (hmap : r.syncer.HostToVirtual w.state ⟨pObj.Namespace, pObj.Name⟩ (some pObj) = v) :
    ∀ req ∈ [v, toDeleteRequest v, toHostRequest ⟨pObj.Namespace, pObj.Name⟩,
        toDeleteRequest (toHostRequest ⟨pObj.Namespace, pObj.Name⟩)],
      (r.extractRequest (fromDeleteRequest req).1 w).1.1 = v
        ∧ (r.Reconcile req w).1.isSome = true
        ∧ lockCalls (r.Reconcile req w).2.trace
          = lockCalls w.trace ++ [Call.Lock v.String, Call.Unlock v.String] := by
  have hv : r.extractRequest v w = ((v, ⟨"", ""⟩, none), w) := by
    simp [SyncController.extractRequest, isHostRequest, hh]
  have key : ∀ (req pReq : Request) (w1 : World σ),
      r.extractRequest (fromDeleteRequest req).1 w = ((v, pReq, none), w1) →
      (r.extractRequest (fromDeleteRequest req).1 w).1.1 = v
        ∧ (r.Reconcile req w).1.isSome = true
        ∧ lockCalls (r.Reconcile req w).2.trace
          = lockCalls w.trace ++ [Call.Lock v.String, Call.Unlock v.String] := by
    intro req pReq w1 hx
    have := Reconcile_lock_key r req w w1 v pReq hx hname hfree
    exact ⟨by rw [hx], this.1, this.2⟩
  intro req hreq
  simp only [List.mem_cons, List.mem_singleton, List.not_mem_nil, or_false] at hreq
  rcases hreq with rfl | rfl | rfl | rfl
  · refine key req ⟨"", ""⟩ w ?_
    rw [fromDeleteRequest_of_not_delete req hd]
    exact hv
  · refine key _ ⟨"", ""⟩ w ?_
    rw [fromDeleteRequest_toDeleteRequest]
    exact hv
  · have := extractRequest_host r w pObj false hpname hget hman hex
    rw [hmap] at this
    exact key _ _ _ this
  · have := extractRequest_host r w pObj true hpname hget hman hex
    rw [hmap] at this
    exact key _ _ _ this

/-- C28, witness: the virtual secret `default/a` and its managed host secret:
the host-tagged delete request takes the lock `default/a`. -/
theorem lock_key_is_virtual_identity_witness :
    lockCalls ((mockController false).Reconcile ⟨"delete#host#test", "a-x-default-x-suffix"⟩
        (fakeWorld [managedSecret "123" none] [secretA])).2.trace
      = [Call.Lock "default/a", Call.Unlock "default/a"] :=
  (lock_key_is_virtual_identity (mockController false)
    (fakeWorld [managedSecret "123" none] [secretA]) ⟨"default", "a"⟩ (managedSecret "123" none)
    (by decide) (by decide) (by decide) (by decide) (by decide) rfl rfl rfl rfl
    ⟨"delete#host#test", "a-x-default-x-suffix"⟩ (by decide)).2.2

/-! ## The mirror mapper: claims C22 and C23 -/

/-- C22, counterexample: for the namespaced request `default/a` and no host
object, `HostToVirtual` returns the empty identity, whose name is not `a`; and
for the request `a` and a host object that carries the name-annotation `b`, it
returns the name `b`. -/
theorem mirror_HostToVirtual_changes_name :
    (mirrorMapper.HostToVirtual fakeTranslateDefault ⟨"default", "a"⟩ none).Name = ""
      ∧ (mirrorMapper.HostToVirtual fakeTranslateDefault ⟨"default", "a"⟩ none).Name ≠ "a"
      ∧ (mirrorMapper.HostToVirtual fakeTranslateDefault ⟨"", "a"⟩
          (some { secretA with
            Annotations := some [("vcluster.loft.sh/object-name", "b")] })).Name = "b" := by
  decide

/-- C22, as amended: `VirtualToHost` keeps the name and `IsManaged` is
`(true, nil)` for every object; `HostToVirtual` returns the identity recorded
in the namespace- and name-annotations when the host object carries a
non-empty name-annotation; otherwise (no host object, or no or an empty
name-annotation) it keeps the name of a request with an empty namespace and
returns the empty identity for a request with a non-empty namespace. -/
theorem mirror_mapper_names (t : TranslateDefault) (req : NamespacedName)
    (vObj pObj : Option Object) :
    (mirrorMapper.VirtualToHost t req vObj).Name = req.Name
      ∧ mirrorMapper.IsManaged pObj = (true, none)
      ∧ (∀ p : Object, pObj = some p → mapIndex p.Annotations t.NameAnnotation ≠ "" →
          mirrorMapper.HostToVirtual t req pObj
            = ⟨mapIndex p.Annotations t.NamespaceAnnotation,
                mapIndex p.Annotations t.NameAnnotation⟩)
      ∧ ((∀ p : Object, pObj = some p → mapIndex p.Annotations t.NameAnnotation = "") →
          (req.Namespace = "" → mirrorMapper.HostToVirtual t req pObj = ⟨"", req.Name⟩)
            ∧ (req.Namespace ≠ "" → mirrorMapper.HostToVirtual t req pObj = ⟨"", ""⟩)) := by
  refine ⟨rfl, rfl, ?_, ?_⟩
  · intro p hp hne
    subst hp
    have hs : p.Annotations.isSome = true := by
      cases hA : p.Annotations with
      | none =>
        rw [hA] at hne
        exact absurd (mapIndex_none _) hne
      | some l => rfl
    simp [mirrorMapper.HostToVirtual, hs, hne]
  · intro hno
    cases pObj with
    | none =>
      constructor
      · intro h
        simp [mirrorMapper.HostToVirtual, h]
      · intro h
        simp [mirrorMapper.HostToVirtual, h]
    | some p =>
      have := hno p rfl
      constructor
      · intro h
        simp [mirrorMapper.HostToVirtual, h, this]
      · intro h
        simp [mirrorMapper.HostToVirtual, h, this]

/-- C22, witness: a cluster-scoped request keeps its name without a host
object, and a host object with a name-annotation decides the identity. -/
theorem mirror_mapper_names_witness :
    mirrorMapper.HostToVirtual fakeTranslateDefault ⟨"", "testsc"⟩ none = ⟨"", "testsc"⟩
      ∧ mirrorMapper.HostToVirtual fakeTranslateDefault ⟨"", "x"⟩
          (some (managedSecret "123" none)) = ⟨"default", "a"⟩ :=
  ⟨((mirror_mapper_names fakeTranslateDefault ⟨"", "testsc"⟩ none none).2.2.2
      (fun _ h => absurd h (by simp))).1 rfl,
    (mirror_mapper_names fakeTranslateDefault ⟨"", "x"⟩ none
      (some (managedSecret "123" none))).2.2.1 _ rfl (by decide)⟩

/-- C23, counterexample: the namespaced identity `default/a` is mapped to the
host identity `test/a`, and without a host object that one is mapped back to
the empty identity. -/
theorem mirror_roundtrip_fails_for_namespaced_identity :
    mirrorMapper.HostToVirtual fakeTranslateDefault
        (mirrorMapper.VirtualToHost fakeTranslateDefault ⟨"default", "a"⟩ none) none = ⟨"", ""⟩
      ∧ mirrorMapper.HostToVirtual fakeTranslateDefault
          (mirrorMapper.VirtualToHost fakeTranslateDefault ⟨"default", "a"⟩ none) none
        ≠ ⟨"default", "a"⟩ := by
  decide

/-- C23, as amended: when the host counterpart is nil or carries no or an
empty name-annotation, the round trip `HostToVirtual (VirtualToHost v)` gives
back `v` if and only if the namespace of `v` is empty, that is, for the
identities of cluster-scoped objects. -/
theorem mirror_roundtrip_iff (t : TranslateDefault) (v : NamespacedName)
    (vObj pObj : Option Object)
    (hno : ∀ p : Object, pObj = some p → mapIndex p.Annotations t.NameAnnotation = "") :
    mirrorMapper.HostToVirtual t (mirrorMapper.VirtualToHost t v vObj) pObj = v
      ↔ v.Namespace = "" := by
  have hrest : mirrorMapper.HostToVirtual t (mirrorMapper.VirtualToHost t v vObj) pObj
      = if (mirrorMapper.VirtualToHost t v vObj).Namespace ≠ "" then ⟨"", ""⟩
        else ⟨"", v.Name⟩ := by
    cases pObj with
    | none => simp [mirrorMapper.HostToVirtual, mirrorMapper.VirtualToHost]
    | some p =>
      have := hno p rfl
      simp [mirrorMapper.HostToVirtual, mirrorMapper.VirtualToHost, this]
  rw [hrest]
  obtain ⟨ns, name⟩ := v
  constructor
  · intro h
    split at h
    · have := congrArg Request.Namespace h
      exact this.symm
    · have := congrArg Request.Namespace h
      exact this.symm
  · intro h
    simp only at h
    subst h
    simp [mirrorMapper.VirtualToHost]

/-- C23, witness: the cluster-scoped identity `testsc` of the storage class
scenario makes the round trip. -/
theorem mirror_roundtrip_iff_witness :
    mirrorMapper.HostToVirtual fakeTranslateDefault
        (mirrorMapper.VirtualToHost fakeTranslateDefault ⟨"", "testsc"⟩ none) none
      = ⟨"", "testsc"⟩ :=
  (mirror_roundtrip_iff fakeTranslateDefault ⟨"", "testsc"⟩ none none
    (fun _ h => absurd h (by simp))).mpr rfl

/-! ## Volume snapshot contents: claim C24 -/

theorem mapIndex_mapAssign (m : List (String × String)) (k v : String) :
    mapIndex (some (mapAssign m k v)) k = v := by
  simp [mapIndex, mapIndexOk, mapAssign, List.lookup]

/-- C24: for a host volume snapshot content `pVSC` (with a name, as every
object of a cluster has) and a virtual volume snapshot `vVS` or nil, the host
name function of the mapper maps the virtual object that `translateBackwards`
produces to the name of `pVSC`, whatever virtual name and namespace are
passed; the produced object has an empty `ResourceVersion`, an empty `UID` and
no `ManagedFields`; and `pVSC` is left as it was. -/
theorem translateBackwards_back_reference (PhysicalNameClusterScoped : String → String)
    (key : String) (pVSC : VolumeSnapshotContent) (vVS : Option VolumeSnapshot)
    (name ns : String) (hname : pVSC.Name ≠ "") :
    volumeSnapshotContentsHostName PhysicalNameClusterScoped key name ns
        (some (ClientObject.volumeSnapshotContent
          (volumeSnapshotContentSyncer.translateBackwards key pVSC vVS).2)) = pVSC.Name
      ∧ (volumeSnapshotContentSyncer.translateBackwards key pVSC vVS).2.ResourceVersion = ""
      ∧ (volumeSnapshotContentSyncer.translateBackwards key pVSC vVS).2.UID = ""
      ∧ (volumeSnapshotContentSyncer.translateBackwards key pVSC vVS).2.ManagedFields = none
      ∧ (volumeSnapshotContentSyncer.translateBackwards key pVSC vVS).1 = pVSC := by
  have hA : ∃ m, (volumeSnapshotContentSyncer.translateBackwards key pVSC vVS).2.Annotations
      = some (mapAssign m key pVSC.Name) := by
    simp only [volumeSnapshotContentSyncer.translateBackwards]
    exact ⟨_, rfl⟩
  obtain ⟨m, hm⟩ := hA
  refine ⟨?_, ?_, ?_, ?_, rfl⟩
  · simp only [volumeSnapshotContentsHostName, hm, mapIndex_mapAssign]
    simp [hname]
  · simp only [volumeSnapshotContentSyncer.translateBackwards]
    split <;> split <;> rfl
  · simp only [volumeSnapshotContentSyncer.translateBackwards]
    split <;> split <;> rfl
  · simp only [volumeSnapshotContentSyncer.translateBackwards]
    split <;> split <;> rfl

/-- C24, witness: a host content named `snapcontent-1` without annotations and
no virtual snapshot: the virtual object is mapped back to `snapcontent-1`. -/
theorem translateBackwards_back_reference_witness :
    volumeSnapshotContentsHostName (fun n => n ++ "-x-suffix") "vcluster.loft.sh/host-vsc"
        "some-virtual-name" ""
        (some (ClientObject.volumeSnapshotContent
          (volumeSnapshotContentSyncer.translateBackwards "vcluster.loft.sh/host-vsc"
            hostContent none).2)) = "snapcontent-1" :=
  (translateBackwards_back_reference (fun n => n ++ "-x-suffix") "vcluster.loft.sh/host-vsc"
    hostContent none "some-virtual-name" "" (by decide)).1

/-! ## The volume snapshot syncer: claims C25, C26, C29 and C30 -/

/-- C25: for a virtual snapshot with a deletion timestamp and a host snapshot
without one, `Sync` logs and issues one `Delete` of the host snapshot on the
host client, with the grace period of the virtual snapshot and a UID
precondition on the UID of the host snapshot; it is the only write of the call
and `Sync` returns the empty result with the error of that `Delete`. -/
theorem Sync_propagates_deletion_to_host {σ : Type} (s : volumeSnapshotSyncer σ)
    (ctx : SnapshotSyncContext σ) (pVS vVS : VolumeSnapshot) (w : SnapshotWorld σ)
    (hv : vVS.DeletionTimestamp ≠ none) (hp : pVS.DeletionTimestamp = none) :
    s.Sync ctx pVS vVS w
        = (SyncOutcome.returned Result.empty
            (ctx.PhysicalClient.Delete w.state pVS
              { GracePeriodSeconds := vVS.DeletionGracePeriodSeconds,
                Preconditions := some pVS.UID }).1,
          { state := (ctx.PhysicalClient.Delete w.state pVS
              { GracePeriodSeconds := vVS.DeletionGracePeriodSeconds,
                Preconditions := some pVS.UID }).2
            trace := w.trace ++ [SnapshotCall.Infof
              "delete physical volume snapshot %s/%s, because virtual volume snapshot is being deleted"
              [LogArg.str pVS.Namespace, LogArg.str pVS.Name],
              SnapshotCall.PhysicalDelete pVS
                { GracePeriodSeconds := vVS.DeletionGracePeriodSeconds,
                  Preconditions := some pVS.UID }] })
      ∧ snapshotWrites (s.Sync ctx pVS vVS w).2.trace
        = snapshotWrites w.trace
          ++ [SnapshotCall.PhysicalDelete pVS
                { GracePeriodSeconds := vVS.DeletionGracePeriodSeconds,
                  Preconditions := some pVS.UID }] := by
  have hvs : vVS.DeletionTimestamp.isSome = true := by
    cases h : vVS.DeletionTimestamp with
    | none => exact absurd h hv
    | some t => rfl
  have hR : s.Sync ctx pVS vVS w
      = (SyncOutcome.returned Result.empty
          (ctx.PhysicalClient.Delete w.state pVS
            { GracePeriodSeconds := vVS.DeletionGracePeriodSeconds,
              Preconditions := some pVS.UID }).1,
        { state := (ctx.PhysicalClient.Delete w.state pVS
            { GracePeriodSeconds := vVS.DeletionGracePeriodSeconds,
              Preconditions := some pVS.UID }).2
          trace := w.trace ++ [SnapshotCall.Infof
            "delete physical volume snapshot %s/%s, because virtual volume snapshot is being deleted"
            [LogArg.str pVS.Namespace, LogArg.str pVS.Name],
            SnapshotCall.PhysicalDelete pVS
              { GracePeriodSeconds := vVS.DeletionGracePeriodSeconds,
                Preconditions := some pVS.UID }] }) := by
    simp [volumeSnapshotSyncer.Sync, hp, hvs, SnapshotWorld.invoke, SnapshotWorld.emit]
  refine ⟨hR, ?_⟩
  rw [hR]
  simp [snapshotWrites, SnapshotCall.isWrite]

/-- C25, witness: scenario S6: the virtual snapshot terminates with a grace
period of 30 seconds, the host snapshot with the UID `p` does not. -/
theorem Sync_propagates_deletion_to_host_witness :
    snapshotWrites (fakeSnapshotSyncer.Sync (fakeSnapshotContext false)
        (fakeSnapshot "test" "p" none none []) (fakeSnapshot "default" "v" (some 1) (some 30) [])
        { state := (), trace := [] }).2.trace
      = [SnapshotCall.PhysicalDelete (fakeSnapshot "test" "p" none none [])
          { GracePeriodSeconds := some 30, Preconditions := some "p" }] :=
  (Sync_propagates_deletion_to_host fakeSnapshotSyncer (fakeSnapshotContext false)
    (fakeSnapshot "test" "p" none none []) (fakeSnapshot "default" "v" (some 1) (some 30) [])
    { state := (), trace := [] } (by decide) rfl).2

/-- C26, counterexample: both snapshots terminate, the virtual one with a
grace period of 30 seconds and the host one with 0: `Sync` deletes the virtual
snapshot with the grace period of the host snapshot. -/
theorem Sync_of_terminating_snapshots_deletes_virtual :
    snapshotWrites (fakeSnapshotSyncer.Sync (fakeSnapshotContext false)
        (fakeSnapshot "test" "p" (some 2) (some 0) [])
        (fakeSnapshot "default" "v" (some 1) (some 30) [])
        { state := (), trace := [] }).2.trace
      = [SnapshotCall.VirtualDelete (fakeSnapshot "default" "v" (some 1) (some 30) [])
          { GracePeriodSeconds := some 0, Preconditions := some "v" }]
      ∧ snapshotWrites (fakeSnapshotSyncer.Sync (fakeSnapshotContext false)
        (fakeSnapshot "test" "p" (some 2) (some 0) [])
        (fakeSnapshot "default" "v" (some 1) (some 30) [])
        { state := (), trace := [] }).2.trace ≠ [] := by
  decide

theorem syncFinalizers_trace {σ : Type} (ctx : SnapshotSyncContext σ)
    (pVS vVS : VolumeSnapshot) (w : SnapshotWorld σ) :
    ∃ t : List SnapshotCall,
      (volumeSnapshotSyncer.Sync.syncFinalizers ctx pVS vVS w).2.trace = w.trace ++ t
        ∧ (∀ c ∈ t, c.isTracking = true)
        ∧ (vVS.Finalizers = pVS.Finalizers →
          volumeSnapshotSyncer.Sync.syncFinalizers ctx pVS vVS w = (none, w)) := by
  unfold volumeSnapshotSyncer.Sync.syncFinalizers
  split
  · rename_i hne
    dsimp only
    split
    · rename_i err w1 heq
      have ht := congrArg (fun x => x.2.trace) heq
      simp only [SnapshotWorld.invoke, SnapshotWorld.emit, List.append_assoc] at ht
      split
      · exact ⟨_, ht.symm, by simp [SnapshotCall.isTracking], fun h => absurd h hne⟩
      · exact ⟨_, ht.symm, by simp [SnapshotCall.isTracking], fun h => absurd h hne⟩
    · rename_i w1 heq
      have ht := congrArg (fun x => x.2.trace) heq
      simp only [SnapshotWorld.invoke, SnapshotWorld.emit, List.append_assoc] at ht
      exact ⟨_, ht.symm, by simp [SnapshotCall.isTracking], fun h => absurd h hne⟩
  · exact ⟨[], by simp, by simp, fun _ => rfl⟩

theorem syncStatus_trace {σ : Type} (ctx : SnapshotSyncContext σ)
    (pVS vVS : VolumeSnapshot) (w : SnapshotWorld σ) :
    ∃ t : List SnapshotCall,
      (volumeSnapshotSyncer.Sync.syncStatus ctx pVS vVS w).2.trace = w.trace ++ t
        ∧ (∀ c ∈ t, c.isTracking = true)
        ∧ (vVS.Status = pVS.Status →
          volumeSnapshotSyncer.Sync.syncStatus ctx pVS vVS w = (none, w)) := by
  unfold volumeSnapshotSyncer.Sync.syncStatus
  split
  · rename_i hne
    dsimp only
    split
    · rename_i err w1 heq
      have ht := congrArg (fun x => x.2.trace) heq
      simp only [SnapshotWorld.invoke, SnapshotWorld.emit, List.append_assoc] at ht
      split
      · exact ⟨_, ht.symm, by simp [SnapshotCall.isTracking], fun h => absurd h hne⟩
      · exact ⟨_, ht.symm, by simp [SnapshotCall.isTracking], fun h => absurd h hne⟩
    · rename_i w1 heq
      have ht := congrArg (fun x => x.2.trace) heq
      simp only [SnapshotWorld.invoke, SnapshotWorld.emit, List.append_assoc] at ht
      exact ⟨_, ht.symm, by simp [SnapshotCall.isTracking], fun h => absurd h hne⟩
  · exact ⟨[], by simp, by simp, fun _ => rfl⟩

/-- The delete of the virtual snapshot when both snapshots terminate and both
grace periods are set: it is issued exactly when the grace periods differ. -/
theorem deleteVirtual_trace {σ : Type} (ctx : SnapshotSyncContext σ)
    (pVS vVS : VolumeSnapshot) (w : SnapshotWorld σ) (vSeconds pSeconds : Int)
    (hv : vVS.DeletionTimestamp ≠ none)
    (hvg : vVS.DeletionGracePeriodSeconds = some vSeconds)
    (hpg : pVS.DeletionGracePeriodSeconds = some pSeconds) :
    (volumeSnapshotSyncer.Sync.deleteVirtual ctx pVS vVS w).2.trace
        = w.trace ++ (if vSeconds ≠ pSeconds then
            [SnapshotCall.Infof
              "delete virtual volume snapshot %s/%s with grace period seconds %v"
              [LogArg.str vVS.Namespace, LogArg.str vVS.Name, LogArg.int pSeconds],
             SnapshotCall.VirtualDelete vVS
              { GracePeriodSeconds := some pSeconds, Preconditions := some vVS.UID }]
          else [])
      ∧ (vSeconds = pSeconds →
        volumeSnapshotSyncer.Sync.deleteVirtual ctx pVS vVS w = (none, w)) := by
  have hvs : vVS.DeletionTimestamp.isNone = false := by
    cases h : vVS.DeletionTimestamp with
    | none => exact absurd h hv
    | some t => rfl
  simp only [volumeSnapshotSyncer.Sync.deleteVirtual, hvs, hvg, hpg, Bool.false_eq_true,
    if_false]
  by_cases hne : vSeconds = pSeconds
  · simp [hne]
  · simp only [hne, ne_eq, not_false_eq_true, if_true, false_implies, and_true]
    split
    · rename_i err w1 heq
      have ht := congrArg (fun x => x.2.trace) heq
      simp only [SnapshotWorld.invoke, SnapshotWorld.emit, List.append_assoc] at ht
      simpa using ht.symm
    · rename_i w1 heq
      have ht := congrArg (fun x => x.2.trace) heq
      simp only [SnapshotWorld.invoke, SnapshotWorld.emit, List.append_assoc] at ht
      simpa using ht.symm

/-- C26, as amended: for a virtual snapshot and a host snapshot that both have
a deletion timestamp (and a grace period each), `Sync` makes these calls, in
this order, each with its log lines: a delete of the virtual snapshot with the
grace period of the host snapshot and a precondition on the virtual UID,
exactly when the two grace periods differ; an update of the virtual snapshot
with the finalizers of the host snapshot, exactly when the finalizers differ;
an update of the status of the virtual snapshot to the status of the host
snapshot, exactly when the status differs.  It stops after a delete or an
update of the finalizers that fails, and returns the error of the delete
unchanged and the error of an update unless it is NotFound.  The cluster state
after the run is the one these calls leave.  So `Sync` writes nothing to the
host cluster and creates and patches nothing; and when the grace periods, the
finalizers and the status of the two snapshots agree, it makes no call at all
and returns the empty result and no error. -/
theorem Sync_of_terminating_snapshots {σ : Type} (s : volumeSnapshotSyncer σ)
    (ctx : SnapshotSyncContext σ) (pVS vVS : VolumeSnapshot) (w : SnapshotWorld σ)
    (vSeconds pSeconds : Int)
    (hv : vVS.DeletionTimestamp ≠ none) (hp : pVS.DeletionTimestamp ≠ none)
    (hvg : vVS.DeletionGracePeriodSeconds = some vSeconds)
    (hpg : pVS.DeletionGracePeriodSeconds = some pSeconds) :
    let opts : DeleteOptions :=
      { GracePeriodSeconds := some pSeconds, Preconditions := some vVS.UID }
    let vFinalizers : VolumeSnapshot := { vVS with Finalizers := pVS.Finalizers }
    let vStatus : VolumeSnapshot := { vVS with Status := pVS.Status }
    let deleteCalls : List SnapshotCall :=
      if vSeconds ≠ pSeconds then
        [SnapshotCall.Infof "delete virtual volume snapshot %s/%s with grace period seconds %v"
          [LogArg.str vVS.Namespace, LogArg.str vVS.Name, LogArg.int pSeconds],
         SnapshotCall.VirtualDelete vVS opts]
      else []
    let finalizerCalls : List SnapshotCall :=
      if vVS.Finalizers ≠ pVS.Finalizers then
        [SnapshotCall.Infof
          "update finalizers of the virtual VolumeSnapshot %s, because finalizers on the physical resource changed"
          [LogArg.str vVS.Name],
         SnapshotCall.PrintChanges vVS vFinalizers,
         SnapshotCall.VirtualUpdate vFinalizers]
      else []
    let statusCalls : List SnapshotCall :=
      if vVS.Status ≠ pVS.Status then
        [SnapshotCall.Infof "update virtual VolumeSnapshot %s, because status has changed"
          [LogArg.str vVS.Name],
         SnapshotCall.PrintChanges vVS vStatus,
         SnapshotCall.VirtualStatusUpdate vStatus]
      else []
    let deleted := ctx.VirtualClient.Delete w.state vVS opts
    let st1 := if vSeconds ≠ pSeconds then deleted.2 else w.state
    let updated := ctx.VirtualClient.Update st1 vFinalizers
    let st2 := if vVS.Finalizers ≠ pVS.Finalizers then updated.2 else st1
    let statusUpdated := ctx.VirtualClient.StatusUpdate st2 vStatus
    let st3 := if vVS.Status ≠ pVS.Status then statusUpdated.2 else st2
    (∀ err, vSeconds ≠ pSeconds → deleted.1 = some err →
        s.Sync ctx pVS vVS w
          = (SyncOutcome.returned Result.empty (some err),
              { state := st1, trace := w.trace ++ deleteCalls }))
      ∧ (∀ err, (vSeconds ≠ pSeconds → deleted.1 = none) →
          vVS.Finalizers ≠ pVS.Finalizers → updated.1 = some err →
          s.Sync ctx pVS vVS w
            = (SyncOutcome.returned Result.empty (if err.IsNotFound then none else some err),
                { state := st2, trace := w.trace ++ deleteCalls ++ finalizerCalls }))
      ∧ ((vSeconds ≠ pSeconds → deleted.1 = none) →
          (vVS.Finalizers ≠ pVS.Finalizers → updated.1 = none) →
          s.Sync ctx pVS vVS w
            = (SyncOutcome.returned Result.empty
                (if vVS.Status ≠ pVS.Status then
                  match statusUpdated.1 with
                  | some err => if err.IsNotFound then none else some err
                  | none => none
                else none),
                { state := st3
                  trace := w.trace ++ deleteCalls ++ finalizerCalls ++ statusCalls }))
      ∧ (∃ t : List SnapshotCall,
          (s.Sync ctx pVS vVS w).2.trace = w.trace ++ deleteCalls ++ t
            ∧ (t = [] ∨ t = finalizerCalls ∨ t = finalizerCalls ++ statusCalls)
            ∧ (∀ c ∈ t, c.isTracking = true)
            ∧ (vVS.Finalizers = pVS.Finalizers → vVS.Status = pVS.Status → t = []))
      ∧ (vSeconds = pSeconds → vVS.Finalizers = pVS.Finalizers → vVS.Status = pVS.Status →
          s.Sync ctx pVS vVS w = (SyncOutcome.returned Result.empty none, w))
      ∧ (∀ c ∈ snapshotWrites ((s.Sync ctx pVS vVS w).2.trace.drop w.trace.length),
          c.isVirtualWrite = true) := by
  intro opts vFinalizers vStatus deleteCalls finalizerCalls statusCalls deleted st1 updated st2
    statusUpdated st3
  have hps : pVS.DeletionTimestamp.isSome = true := by
    cases h : pVS.DeletionTimestamp with
    | none => exact absurd h hp
    | some t => rfl
  have hvs : vVS.DeletionTimestamp.isNone = false := by
    cases h : vVS.DeletionTimestamp with
    | none => exact absurd h hv
    | some t => rfl
  have p1 : ∀ err, vSeconds ≠ pSeconds → deleted.1 = some err →
      s.Sync ctx pVS vVS w
        = (SyncOutcome.returned Result.empty (some err),
            { state := st1, trace := w.trace ++ deleteCalls }) := by
    intro err hne hdel
    simp only [deleted, opts] at hdel
    simp [volumeSnapshotSyncer.Sync, hps, volumeSnapshotSyncer.Sync.deleteVirtual, hvs, hvg,
      hpg, hne, SnapshotWorld.invoke, SnapshotWorld.emit, hdel, st1, deleted, opts, deleteCalls]
  have hD : (vSeconds ≠ pSeconds → deleted.1 = none) →
      volumeSnapshotSyncer.Sync.deleteVirtual ctx pVS vVS w
        = (none, { state := st1, trace := w.trace ++ deleteCalls }) := by
    intro hdel
    by_cases hne : vSeconds = pSeconds
    · simp [volumeSnapshotSyncer.Sync.deleteVirtual, hvs, hvg, hpg, hne, st1, deleteCalls]
    · have hdel := hdel hne
      simp only [deleted, opts] at hdel
      simp [volumeSnapshotSyncer.Sync.deleteVirtual, hvs, hvg, hpg, hne, SnapshotWorld.invoke,
        SnapshotWorld.emit, hdel, st1, deleted, opts, deleteCalls]
  have p2 : ∀ err, (vSeconds ≠ pSeconds → deleted.1 = none) →
      vVS.Finalizers ≠ pVS.Finalizers → updated.1 = some err →
      s.Sync ctx pVS vVS w
        = (SyncOutcome.returned Result.empty (if err.IsNotFound then none else some err),
            { state := st2, trace := w.trace ++ deleteCalls ++ finalizerCalls }) := by
    intro err hdel hne hupd
    simp only [updated, vFinalizers] at hupd
    simp only [volumeSnapshotSyncer.Sync, hps, if_true, hD hdel,
      volumeSnapshotSyncer.Sync.syncFinalizers, hne, ne_eq, not_false_eq_true,
      SnapshotWorld.invoke, SnapshotWorld.emit, hupd]
    by_cases hnf : err.IsNotFound = true
    · simp [hnf, st2, hne, updated, vFinalizers, finalizerCalls]
    · simp [hnf, st2, hne, updated, vFinalizers, finalizerCalls]
  have hF : (vVS.Finalizers ≠ pVS.Finalizers → updated.1 = none) →
      volumeSnapshotSyncer.Sync.syncFinalizers ctx pVS vVS
          { state := st1, trace := w.trace ++ deleteCalls }
        = (none, { state := st2, trace := w.trace ++ deleteCalls ++ finalizerCalls }) := by
    intro hupd
    by_cases hne : vVS.Finalizers = pVS.Finalizers
    · simp [volumeSnapshotSyncer.Sync.syncFinalizers, hne, st2, finalizerCalls]
    · have hupd := hupd hne
      simp only [updated, vFinalizers] at hupd
      simp [volumeSnapshotSyncer.Sync.syncFinalizers, hne, SnapshotWorld.invoke,
        SnapshotWorld.emit, hupd, st2, updated, vFinalizers, finalizerCalls]
  have p3 : (vSeconds ≠ pSeconds → deleted.1 = none) →
      (vVS.Finalizers ≠ pVS.Finalizers → updated.1 = none) →
      s.Sync ctx pVS vVS w
        = (SyncOutcome.returned Result.empty
            (if vVS.Status ≠ pVS.Status then
              match statusUpdated.1 with
              | some err => if err.IsNotFound then none else some err
              | none => none
            else none),
            { state := st3
              trace := w.trace ++ deleteCalls ++ finalizerCalls ++ statusCalls }) := by
    intro hdel hupd
    simp only [volumeSnapshotSyncer.Sync, hps, if_true, hD hdel, hF hupd,
      volumeSnapshotSyncer.Sync.syncStatus]
    by_cases hne : vVS.Status = pVS.Status
    · simp [hne, st3, statusCalls]
    · simp only [hne, ne_eq, not_false_eq_true, if_true, SnapshotWorld.invoke,
        SnapshotWorld.emit]
      cases hsu : statusUpdated.1 with
      | none =>
        simp only [statusUpdated, vStatus] at hsu
        simp [hsu, st3, hne, statusUpdated, vStatus, statusCalls]
      | some err =>
        simp only [statusUpdated, vStatus] at hsu
        by_cases hnf : err.IsNotFound = true
        · simp [hsu, hnf, st3, hne, statusUpdated, vStatus, statusCalls]
        · simp [hsu, hnf, st3, hne, statusUpdated, vStatus, statusCalls]
  have hFt : ∀ c ∈ finalizerCalls, c.isTracking = true := by
    intro c hc
    by_cases hne : vVS.Finalizers = pVS.Finalizers
    · simp [finalizerCalls, hne] at hc
    · simp only [finalizerCalls, hne, ne_eq, not_false_eq_true, if_true, List.mem_cons,
        List.mem_singleton, List.not_mem_nil, or_false] at hc
      rcases hc with h | h | h <;> subst h <;> rfl
  have hSt : ∀ c ∈ statusCalls, c.isTracking = true := by
    intro c hc
    by_cases hne : vVS.Status = pVS.Status
    · simp [statusCalls, hne] at hc
    · simp only [statusCalls, hne, ne_eq, not_false_eq_true, if_true, List.mem_cons,
        List.mem_singleton, List.not_mem_nil, or_false] at hc
      rcases hc with h | h | h <;> subst h <;> rfl
  have hF0 : vVS.Finalizers = pVS.Finalizers → finalizerCalls = [] := by
    intro h
    simp [finalizerCalls, h]
  have hS0 : vVS.Status = pVS.Status → statusCalls = [] := by
    intro h
    simp [statusCalls, h]
  have h4 : ∃ t : List SnapshotCall,
      (s.Sync ctx pVS vVS w).2.trace = w.trace ++ deleteCalls ++ t
        ∧ (t = [] ∨ t = finalizerCalls ∨ t = finalizerCalls ++ statusCalls)
        ∧ (∀ c ∈ t, c.isTracking = true)
        ∧ (vVS.Finalizers = pVS.Finalizers → vVS.Status = pVS.Status → t = []) := by
    by_cases hdel : vSeconds ≠ pSeconds → deleted.1 = none
    · by_cases hupd : vVS.Finalizers ≠ pVS.Finalizers → updated.1 = none
      · refine ⟨finalizerCalls ++ statusCalls, ?_, Or.inr (Or.inr rfl), ?_, ?_⟩
        · rw [p3 hdel hupd]
          simp only [List.append_assoc]
        · intro c hc
          rcases List.mem_append.mp hc with h | h
          · exact hFt c h
          · exact hSt c h
        · intro h1 h2
          rw [hF0 h1, hS0 h2]
          rfl
      · push_neg at hupd
        obtain ⟨hne, hsome⟩ := hupd
        obtain ⟨err, herr⟩ := Option.ne_none_iff_exists'.mp hsome
        refine ⟨finalizerCalls, ?_, Or.inr (Or.inl rfl), hFt, fun h1 _ => absurd h1 hne⟩
        rw [p2 err hdel hne herr]
    · push_neg at hdel
      obtain ⟨hne, hsome⟩ := hdel
      obtain ⟨err, herr⟩ := Option.ne_none_iff_exists'.mp hsome
      refine ⟨[], ?_, Or.inl rfl, by simp, fun _ _ => rfl⟩
      rw [p1 err hne herr]
      simp
  refine ⟨p1, p2, p3, h4, ?_, ?_⟩
  · intro h1 h2 h3
    rw [p3 (fun h => absurd h1 h) (fun h => absurd h2 h)]
    simp [h1, h2, h3, st3, st2, st1, deleteCalls, finalizerCalls, statusCalls]
  · obtain ⟨t, ht, _, htr, _⟩ := h4
    intro c hc
    rw [ht, List.append_assoc, List.drop_left] at hc
    simp only [snapshotWrites, List.mem_filter, List.mem_append] at hc
    obtain ⟨hmem, hw⟩ := hc
    rcases hmem with h | h
    · by_cases hne : vSeconds = pSeconds
      · simp [deleteCalls, hne] at h
      · simp only [deleteCalls, hne, ne_eq, not_false_eq_true, if_true, List.mem_cons,
          List.mem_singleton, List.not_mem_nil, or_false] at h
        rcases h with h | h
        · subst h
          simp [SnapshotCall.isWrite] at hw
        · subst h
          rfl
    · have htc := htr c h
      cases c <;>
        simp_all [SnapshotCall.isTracking, SnapshotCall.isWrite, SnapshotCall.isVirtualWrite]

/-- C26, witness: both snapshots terminate with the same grace period and the
same status.  When the host snapshot has lost the finalizer of the virtual
one, `Sync` makes no delete, updates the virtual snapshot with the finalizers
of the host snapshot and returns the empty result and no error; when the
finalizers agree too, `Sync` makes no call. -/
theorem Sync_of_terminating_snapshots_witness :
    fakeSnapshotSyncer.Sync (fakeSnapshotContext false)
        (fakeSnapshot "test" "p" (some 2) (some 30) [])
        (fakeSnapshot "default" "v" (some 1) (some 30) ["f"])
        { state := (), trace := [] }
      = (SyncOutcome.returned Result.empty none,
          { state := ()
            trace := [SnapshotCall.Infof
              "update finalizers of the virtual VolumeSnapshot %s, because finalizers on the physical resource changed"
              [LogArg.str "snap"],
              SnapshotCall.PrintChanges (fakeSnapshot "default" "v" (some 1) (some 30) ["f"])
                (fakeSnapshot "default" "v" (some 1) (some 30) []),
              SnapshotCall.VirtualUpdate (fakeSnapshot "default" "v" (some 1) (some 30) [])] })
      ∧ fakeSnapshotSyncer.Sync (fakeSnapshotContext false)
        (fakeSnapshot "test" "p" (some 2) (some 30) ["f"])
        (fakeSnapshot "default" "v" (some 1) (some 30) ["f"])
        { state := (), trace := [] }
      = (SyncOutcome.returned Result.empty none, { state := (), trace := [] }) :=
  ⟨(Sync_of_terminating_snapshots fakeSnapshotSyncer (fakeSnapshotContext false)
      (fakeSnapshot "test" "p" (some 2) (some 30) [])
      (fakeSnapshot "default" "v" (some 1) (some 30) ["f"])
      { state := (), trace := [] } 30 30 (by decide) (by decide) rfl rfl).2.2.1
      (fun h => absurd rfl h) (fun _ => rfl),
    (Sync_of_terminating_snapshots fakeSnapshotSyncer (fakeSnapshotContext false)
      (fakeSnapshot "test" "p" (some 2) (some 30) ["f"])
      (fakeSnapshot "default" "v" (some 1) (some 30) ["f"])
      { state := (), trace := [] } 30 30 (by decide) (by decide) rfl rfl).2.2.2.2.1 rfl rfl rfl⟩

/-- When both snapshots have a deletion timestamp and one of the grace periods
is not set, `Sync` fails with the dereference of a nil pointer before it makes
any call. -/
theorem Sync_nil_grace_period {σ : Type} (s : volumeSnapshotSyncer σ)
    (ctx : SnapshotSyncContext σ) (pVS vVS : VolumeSnapshot) (w : SnapshotWorld σ)
    (hv : vVS.DeletionTimestamp ≠ none) (hp : pVS.DeletionTimestamp ≠ none)
    (hnil : vVS.DeletionGracePeriodSeconds = none ∨ pVS.DeletionGracePeriodSeconds = none) :
    s.Sync ctx pVS vVS w = (SyncOutcome.nilDereference, w) := by
  have hps : pVS.DeletionTimestamp.isSome = true := by
    cases h : pVS.DeletionTimestamp with
    | none => exact absurd h hp
    | some t => rfl
  have hvs : vVS.DeletionTimestamp.isNone = false := by
    cases h : vVS.DeletionTimestamp with
    | none => exact absurd h hv
    | some t => rfl
  have hD : volumeSnapshotSyncer.Sync.deleteVirtual ctx pVS vVS w
      = (some SyncOutcome.nilDereference, w) := by
    simp only [volumeSnapshotSyncer.Sync.deleteVirtual, hvs, Bool.false_eq_true, if_false]
    rcases hnil with h | h
    · rw [h]
    · rw [h]
      cases vVS.DeletionGracePeriodSeconds <;> rfl
  simp [volumeSnapshotSyncer.Sync, hps, hD]

/-- C29 (the code does not do what the claim says): both snapshots have a
deletion timestamp and the grace period of the virtual snapshot is not set;
the comparison of line 70 dereferences it and `Sync` fails with the
dereference of a nil pointer instead of returning a result. -/
theorem Sync_dereferences_missing_grace_period :
    fakeSnapshotSyncer.Sync (fakeSnapshotContext false)
        (fakeSnapshot "test" "p" (some 2) (some 0) [])
        (fakeSnapshot "default" "v" (some 1) none [])
        { state := (), trace := [] }
      = (SyncOutcome.nilDereference, { state := (), trace := [] }) :=
  Sync_nil_grace_period fakeSnapshotSyncer (fakeSnapshotContext false)
    (fakeSnapshot "test" "p" (some 2) (some 0) [])
    (fakeSnapshot "default" "v" (some 1) none [])
    { state := (), trace := [] } (by decide) (by decide) (Or.inl rfl)

/-- C30: when `ctx.IsDelete` is true or the virtual snapshot has a deletion
timestamp, `SyncToHost` never creates a host snapshot.  If the virtual
snapshot has a finalizer or a positive grace period, its one call is an
`Update` on the virtual client of the snapshot with no finalizers and the
grace period 0, and it returns the error of that update; otherwise it makes no
call and returns no error. -/
theorem SyncToHost_of_deleted_snapshot {σ : Type} (s : volumeSnapshotSyncer σ)
    (ctx : SnapshotSyncContext σ) (vVS : VolumeSnapshot) (w : SnapshotWorld σ)
    (h : ctx.IsDelete = true ∨ vVS.DeletionTimestamp ≠ none) :
    ((vVS.Finalizers ≠ [] ∨ ∃ seconds, vVS.DeletionGracePeriodSeconds = some seconds
          ∧ 0 < seconds) →
        s.SyncToHost ctx vVS w
          = ((Result.empty,
              (ctx.VirtualClient.Update w.state
                { vVS with Finalizers := [], DeletionGracePeriodSeconds := some 0 }).1),
            { state := (ctx.VirtualClient.Update w.state
                { vVS with Finalizers := [], DeletionGracePeriodSeconds := some 0 }).2
              trace := w.trace ++ [SnapshotCall.VirtualUpdate
                { vVS with Finalizers := [], DeletionGracePeriodSeconds := some 0 }] }))
      ∧ (¬ (vVS.Finalizers ≠ [] ∨ ∃ seconds, vVS.DeletionGracePeriodSeconds = some seconds
          ∧ 0 < seconds) →
        s.SyncToHost ctx vVS w = ((Result.empty, none), w))
      ∧ (∀ vObj pObj, SnapshotCall.SyncToHostCreate vObj pObj ∈ (s.SyncToHost ctx vVS w).2.trace →
        SnapshotCall.SyncToHostCreate vObj pObj ∈ w.trace) := by
  have hc : (ctx.IsDelete || vVS.DeletionTimestamp.isSome) = true := by
    rcases h with h | h
    · simp [h]
    · cases hD : vVS.DeletionTimestamp with
      | none => exact absurd hD h
      | some t => simp
  have hg : (decide (vVS.Finalizers.length > 0)
        || (match vVS.DeletionGracePeriodSeconds with
            | some seconds => decide (seconds > 0)
            | none => false)) = true
      ↔ (vVS.Finalizers ≠ [] ∨ ∃ seconds, vVS.DeletionGracePeriodSeconds = some seconds
          ∧ 0 < seconds) := by
    cases hG : vVS.DeletionGracePeriodSeconds with
    | none => simp [List.length_pos]
    | some g => simp [List.length_pos]
  have h1 : (vVS.Finalizers ≠ [] ∨ ∃ seconds, vVS.DeletionGracePeriodSeconds = some seconds
        ∧ 0 < seconds) →
      s.SyncToHost ctx vVS w
        = ((Result.empty,
            (ctx.VirtualClient.Update w.state
              { vVS with Finalizers := [], DeletionGracePeriodSeconds := some 0 }).1),
          { state := (ctx.VirtualClient.Update w.state
              { vVS with Finalizers := [], DeletionGracePeriodSeconds := some 0 }).2
            trace := w.trace ++ [SnapshotCall.VirtualUpdate
              { vVS with Finalizers := [], DeletionGracePeriodSeconds := some 0 }] }) := by
    intro hyes
    simp only [volumeSnapshotSyncer.SyncToHost, hc, hg.mpr hyes, if_true]
    rfl
  have h2 : ¬ (vVS.Finalizers ≠ [] ∨ ∃ seconds, vVS.DeletionGracePeriodSeconds = some seconds
        ∧ 0 < seconds) →
      s.SyncToHost ctx vVS w = ((Result.empty, none), w) := by
    intro hno
    have : ¬ (decide (vVS.Finalizers.length > 0)
        || (match vVS.DeletionGracePeriodSeconds with
            | some seconds => decide (seconds > 0)
            | none => false)) = true := fun hx => hno (hg.mp hx)
    simp only [volumeSnapshotSyncer.SyncToHost, hc, this, if_true, Bool.false_eq_true, if_false]
  refine ⟨h1, h2, ?_⟩
  intro vObj pObj hmem
  by_cases hyes : (vVS.Finalizers ≠ [] ∨ ∃ seconds, vVS.DeletionGracePeriodSeconds = some seconds
      ∧ 0 < seconds)
  · rw [h1 hyes] at hmem
    simpa using hmem
  · rw [h2 hyes] at hmem
    exact hmem

/-- C30, witness: a delete event for a virtual snapshot with a finalizer: the
one call is the update that removes the finalizers; without finalizers and
grace period nothing is called. -/
theorem SyncToHost_of_deleted_snapshot_witness :
    (fakeSnapshotSyncer.SyncToHost (fakeSnapshotContext true)
        (fakeSnapshot "default" "v" none none ["f"]) { state := (), trace := [] }).2.trace
        = [SnapshotCall.VirtualUpdate (fakeSnapshot "default" "v" none (some 0) [])]
      ∧ fakeSnapshotSyncer.SyncToHost (fakeSnapshotContext false)
          (fakeSnapshot "default" "v" (some 1) none []) { state := (), trace := [] }
        = ((Result.empty, none), { state := (), trace := [] }) :=
  ⟨congrArg (fun x => x.2.trace)
      ((SyncToHost_of_deleted_snapshot fakeSnapshotSyncer (fakeSnapshotContext true)
        (fakeSnapshot "default" "v" none none ["f"]) { state := (), trace := [] }
        (Or.inl rfl)).1 (Or.inl (by decide))),
    (SyncToHost_of_deleted_snapshot fakeSnapshotSyncer (fakeSnapshotContext false)
      (fakeSnapshot "default" "v" (some 1) none []) { state := (), trace := [] }
      (Or.inr (by decide))).2.1 (by decide)⟩

/-! ## The endpoints hand-off: claim C27 -/

/-- C27: for a request that is not a special service, whose virtual service
exists and whose host endpoints exist at the mapped host identity,
`ReconcileStart` deletes the host endpoints exactly when the selector of the
service is set and the endpoints carry a non-empty name-annotation, or the
selector is nil and the endpoints carry no or an empty name-annotation: that
delete on the physical client is its only dispatch call, the cluster state
after the call is the one the delete left, and it is the state before the call
when no delete is needed; the held keys are unchanged.  When no delete is
needed or the delete succeeds, it returns no error and skip = true exactly
when the selector is set; when the delete fails it returns skip = true and the
error of the delete. -/
theorem endpoints_hand_off {σ : Type} (s : endpointsSyncer σ) (ctx : SyncContext σ)
    (req : Request) (w : World σ) (svc : Service) (endpoints : Object)
    (hkey : req ≠ s.DefaultKubernetesSvcKey)
    (hspecial : ∀ keys, s.Default = some keys → req ∉ keys)
    (hsvc : s.GetService w.state ⟨req.Namespace, req.Name⟩ = Except.ok svc)
    (hep : ctx.PhysicalClient.Get w.state (s.VirtualToHost w.state req none)
      = Except.ok endpoints) :
    dispatchCalls (s.ReconcileStart ctx req w).2.trace
        = dispatchCalls w.trace
          ++ (if (svc.Selector ≠ none ∧ mapIndex endpoints.Annotations s.NameAnnotation ≠ "")
                ∨ (svc.Selector = none ∧ mapIndex endpoints.Annotations s.NameAnnotation = "")
              then [Call.Delete false endpoints] else [])
      ∧ ((¬ ((svc.Selector ≠ none ∧ mapIndex endpoints.Annotations s.NameAnnotation ≠ "")
                ∨ (svc.Selector = none
                  ∧ mapIndex endpoints.Annotations s.NameAnnotation = ""))
            ∨ (ctx.PhysicalClient.Delete w.state endpoints).1 = none) →
          (s.ReconcileStart ctx req w).1 = (svc.Selector.isSome, none))
      ∧ (s.ReconcileStart ctx req w).2.state
          = (if (svc.Selector ≠ none ∧ mapIndex endpoints.Annotations s.NameAnnotation ≠ "")
                ∨ (svc.Selector = none ∧ mapIndex endpoints.Annotations s.NameAnnotation = "")
              then (ctx.PhysicalClient.Delete w.state endpoints).2 else w.state)
      ∧ (s.ReconcileStart ctx req w).2.locked = w.locked
      ∧ (∀ err, ((svc.Selector ≠ none ∧ mapIndex endpoints.Annotations s.NameAnnotation ≠ "")
              ∨ (svc.Selector = none
                ∧ mapIndex endpoints.Annotations s.NameAnnotation = "")) →
          (ctx.PhysicalClient.Delete w.state endpoints).1 = some err →
          (s.ReconcileStart ctx req w).1 = (true, some err)) := by
  have hsp : (match s.Default with
      | some keys => decide (req ∈ keys)
      | none => false) = false := by
    cases hD : s.Default with
    | none => rfl
    | some keys => simpa using hspecial keys hD
  have hann : endpoints.Annotations.isSome = false →
      mapIndex endpoints.Annotations s.NameAnnotation = "" := by
    intro h
    cases hA : endpoints.Annotations with
    | none => rfl
    | some l =>
      rw [hA] at h
      exact absurd h (by simp)
  simp only [endpointsSyncer.ReconcileStart, hkey, hsp, World.emit, hsvc, hep, if_false,
    Bool.false_eq_true]
  cases hS : svc.Selector with
  | some sel =>
    simp only [Option.isSome_some, if_true, ne_eq, reduceCtorEq, not_false_eq_true, true_and,
      false_and, or_false]
    by_cases hn : mapIndex endpoints.Annotations s.NameAnnotation = ""
    · have hc : (endpoints.Annotations.isSome
          && mapIndex endpoints.Annotations s.NameAnnotation != "") = false := by simp [hn]
      simp [hc, hn, dispatchCalls, Call.isDispatch]
    · have hs : endpoints.Annotations.isSome = true := by
        cases h : endpoints.Annotations.isSome with
        | true => rfl
        | false => exact absurd (hann h) hn
      have hc : (endpoints.Annotations.isSome
          && mapIndex endpoints.Annotations s.NameAnnotation != "") = true := by simp [hs, hn]
      simp only [hc, if_true, hn, not_false_eq_true]
      rcases hDel : ctx.PhysicalClient.Delete w.state endpoints with ⟨e, st⟩
      cases e with
      | some err => simp [World.invoke, hDel, dispatchCalls, Call.isDispatch, World.emit]
      | none => simp [World.invoke, hDel, dispatchCalls, Call.isDispatch]
  | none =>
    simp only [Option.isSome_none, Bool.false_eq_true, if_false, ne_eq, not_true_eq_false,
      false_and, true_and, false_or]
    by_cases hn : mapIndex endpoints.Annotations s.NameAnnotation = ""
    · have hc : (endpoints.Annotations.isNone
          || mapIndex endpoints.Annotations s.NameAnnotation == "") = true := by simp [hn]
      simp only [hc, if_true, hn]
      rcases hDel : ctx.PhysicalClient.Delete w.state endpoints with ⟨e, st⟩
      cases e with
      | some err => simp [World.invoke, hDel, dispatchCalls, Call.isDispatch, World.emit]
      | none => simp [World.invoke, hDel, dispatchCalls, Call.isDispatch]
    · have hs : endpoints.Annotations.isNone = false := by
        cases h : endpoints.Annotations with
        | none =>
          rw [h] at hn
          exact absurd (mapIndex_none _) hn
        | some l => rfl
      have hc : (endpoints.Annotations.isNone
          || mapIndex endpoints.Annotations s.NameAnnotation == "") = false := by simp [hs, hn]
      simp [hc, hn, dispatchCalls, Call.isDispatch]

/-- C27, witness: scenario S5: the virtual service `default/foo` has a
selector and the host endpoints carry the name-annotation `foo`: they are
deleted, the host cluster holds no endpoints after the call, and the reconcile
is skipped. -/
theorem endpoints_hand_off_witness :
    dispatchCalls ((fakeEndpointsSyncer (some [("app", "foo")])).ReconcileStart
        ((mockController false).syncContext ⟨"default", "foo"⟩ false) ⟨"default", "foo"⟩
        (fakeWorld [hostEndpoints (some [("vcluster.loft.sh/object-name", "foo")])] [])).2.trace
        = [Call.Delete false (hostEndpoints (some [("vcluster.loft.sh/object-name", "foo")]))]
      ∧ ((fakeEndpointsSyncer (some [("app", "foo")])).ReconcileStart
        ((mockController false).syncContext ⟨"default", "foo"⟩ false) ⟨"default", "foo"⟩
        (fakeWorld [hostEndpoints (some [("vcluster.loft.sh/object-name", "foo")])] [])).1
        = (true, none)
      ∧ ((fakeEndpointsSyncer (some [("app", "foo")])).ReconcileStart
        ((mockController false).syncContext ⟨"default", "foo"⟩ false) ⟨"default", "foo"⟩
        (fakeWorld [hostEndpoints (some [("vcluster.loft.sh/object-name", "foo")])]
          [])).2.state
        = { physical := [], virtual := [] } :=
  have hT := endpoints_hand_off (fakeEndpointsSyncer (some [("app", "foo")]))
    ((mockController false).syncContext ⟨"default", "foo"⟩ false) ⟨"default", "foo"⟩
    (fakeWorld [hostEndpoints (some [("vcluster.loft.sh/object-name", "foo")])] [])
    { Selector := some [("app", "foo")] }
    (hostEndpoints (some [("vcluster.loft.sh/object-name", "foo")]))
    (by decide) (fun _ h => absurd h (by simp [fakeEndpointsSyncer])) rfl rfl
  ⟨hT.1, hT.2.1 (Or.inr rfl), hT.2.2.1⟩

end Vcluster
